import Mathlib

/-!
# eagle2gedapcb: shallow embedding of the SAX handler and its board model

The development follows `src/eagle2gedapcb.cpp`, `src/boost_unit_extras.hpp`,
`src/gedapcb.hpp` and `src/gedapcb.cpp`.

Modelling conventions.

* A finite C++ `double` is the rational number it stands for (`Double`);
  attribute values come from `atof` and are stored as they are.  The one
  place where the program computes with doubles, the cast from millimetres to
  centimils, rounds its result to the binary64 format
  (`binary64.roundToNearest`: 53 significant bits, ties to even, overflow to an
  infinity); the conversion factor `boost::units` uses is passed in as the
  record `UnitsLib`.
* `assert` is taken to be enabled.  A function whose body may hit a failing
  `assert` returns `Option`; `none` is the abort of the process.
* The C library conversions `atof` and `atoi` are not code of this
  repository; they are passed in as the record `Libc`.
* `std::queue<T *>` members are lists, `push` appends at the end.
* Owning raw pointers are `Option` values; the pointer to the text under
  construction additionally distinguishes a pointer that was deleted but
  not reset.
* A `std::ostream` is the text written to it so far.  A data member of
  reference type names an object that is alive or one whose lifetime has
  ended; the insertion operators of the libraries are passed in as the record
  `geda_pcb.StreamLib`.
-/

namespace jrl

/-- A finite value of the C++ type `double`, as the rational number it stands
for. -/
abbrev Double := ℚ

/-- The two C library conversions the handler calls on attribute values. -/
structure Libc where
  atof : String → Double
  atoi : String → Int

/-- Conversion of an `int` to `unsigned` (32 bit). -/
def toUnsigned (i : Int) : Nat := (i % (2 ^ 32 : Int)).toNat

/-! ## Units (`boost_unit_extras.hpp`) -/

/-- Class `Millimeters`: a length quantity in millimetres built from a scalar. -/
structure Millimeters where
  mm : Double
deriving DecidableEq, Repr

/-- Member `Millimeters::value`. -/
def Millimeters.value (self : Millimeters) : Double := self.mm

/-- Base unit `mm_system::mm_base_unit`: the metre scaled by 10^-3, in metres. -/
def mmBaseUnitInMeters : Double := 1 / 10 ^ 3

/-- Modelled from the spec: the size in metres of the base unit
`boost::units::us::mil_base_unit`, which is library code and not part of the
sources (1 mil = 1/1000 inch, 1 inch = 25.4 mm). -/
def milBaseUnitInMeters : Double := 254 / 10 / 1000 / 1000

/-- Base unit `us::centimil_base_unit`: the mil scaled by 10^-2, in metres. -/
def centimilBaseUnitInMeters : Double := milBaseUnitInMeters / 10 ^ 2

/-- The value of an arithmetic expression of type `double`: a finite number
or an infinity. -/
inductive DoubleValue where
  | finite (value : Double)
  | infinity (negative : Bool)
deriving DecidableEq, Repr

namespace binary64

/-- The largest finite `double`, `(2^53 - 1) * 2^971`. -/
def maxFinite : ℚ := (2 ^ 53 - 1) * 2 ^ 971

/-- Rounding to an integer, a tie going to the even neighbour. -/
def roundHalfEven (y : ℚ) : Int :=
  if y - ⌊y⌋ < 1 / 2 then ⌊y⌋
  else if 1 / 2 < y - ⌊y⌋ then ⌊y⌋ + 1
  else if ⌊y⌋ % 2 = 0 then ⌊y⌋
  else ⌊y⌋ + 1

/-- Exponent of the spacing of the `double` values around `x`: 53 significant
bits, and never finer than `2^-1074`. -/
def spacingExponent (x : ℚ) : Int := max (Int.log 2 |x| - 52) (-1074)

/-- The `double` result of an arithmetic operation whose exact result is `x`:
round to nearest, ties to even, overflow to an infinity. -/
def roundToNearest (x : ℚ) : DoubleValue :=
  let r : ℚ := (roundHalfEven (x / 2 ^ spacingExponent x) : ℚ) * 2 ^ spacingExponent x
  if maxFinite < |r| then DoubleValue.infinity (decide (x < 0)) else DoubleValue.finite r

end binary64

/-- Class `Centimils`: a length quantity in centimils (value type `double`). -/
structure Centimils where
  centimils : DoubleValue
deriving DecidableEq, Repr

/-- Constructor `Centimils(const int)`; every `int` is a `double`. -/
def Centimils.ofInt (centimils : Int) : Centimils := ⟨DoubleValue.finite (centimils : ℚ)⟩

/-- What `boost::units`, which is library code, supplies to the cast between
the two unit systems: the conversion factor, a `double` it computes from the
scales of the base units. -/
structure UnitsLib where
  conversionFactor : Double

/-- The exact ratio of the two base units, millimetre to centimil. -/
def exactConversionFactor : ℚ := mmBaseUnitInMeters / centimilBaseUnitInMeters

/-- Constructor `Centimils(const Millimeters)`: the cast between the two unit
systems, which multiplies the value by the conversion factor, in `double`
arithmetic. -/
def Centimils.ofMillimeters (lib : UnitsLib) (mm : Millimeters) : Centimils :=
  ⟨binary64.roundToNearest (mm.value * lib.conversionFactor)⟩

/-- Raw value of a centimil quantity. -/
def Centimils.value (self : Centimils) : DoubleValue := self.centimils

/-! ## Attributes and names -/

/-- Class `Attribute`: one (name, value) pair of an element's attribute list. -/
structure Attribute where
  name : String
  value : String
deriving DecidableEq, Repr

/-- Accessor `Attribute::getName`. -/
def Attribute.getName (self : Attribute) : String := self.name

/-- Accessor `Attribute::getValue`. -/
def Attribute.getValue (self : Attribute) : String := self.value

/-- An `AttributeList` as delivered with a start-element event. -/
abbrev AttributeList := List Attribute

@[reducible] def LAYERS : String := "layers"
@[reducible] def LAYER : String := "layer"
@[reducible] def NAME : String := "name"
@[reducible] def BOARD : String := "board"
@[reducible] def PLAIN : String := "plain"
@[reducible] def TEXT : String := "text"
@[reducible] def WIRE : String := "wire"
@[reducible] def HOLE : String := "hole"
@[reducible] def RECTANGLE : String := "rectangle"
@[reducible] def CIRCLE : String := "circle"
@[reducible] def X : String := "x"
@[reducible] def Y : String := "y"
@[reducible] def X1 : String := "x1"
@[reducible] def Y1 : String := "y1"
@[reducible] def X2 : String := "x2"
@[reducible] def Y2 : String := "y2"
@[reducible] def SIZE : String := "size"
@[reducible] def RATIO : String := "ratio"
@[reducible] def ROTATION : String := "rot"
@[reducible] def FONT : String := "font"
@[reducible] def ALIGN : String := "align"
@[reducible] def DESCRIPTION : String := "description"
@[reducible] def LANGUAGE : String := "language"
@[reducible] def EN : String := "en"
@[reducible] def DE : String := "de"
@[reducible] def NOTE : String := "note"
@[reducible] def WIDTH : String := "width"
@[reducible] def CURVE : String := "curve"
@[reducible] def DRILL : String := "drill"
@[reducible] def CAP : String := "cap"
@[reducible] def STYLE : String := "style"
@[reducible] def RADIUS : String := "radius"
@[reducible] def LIBRARIES : String := "libraries"
@[reducible] def LIBRARY : String := "library"
@[reducible] def PACKAGES : String := "packages"
@[reducible] def PACKAGE : String := "package"
@[reducible] def SMD : String := "smd"
@[reducible] def PAD : String := "pad"

/-! ## Capability mixins -/

/-- Mixin `HasWidth`. -/
structure HasWidth where
  width_ : Double := 0
  hasWidth_ : Bool := false
deriving DecidableEq, Repr

/-- Accessor `HasWidth::getWidth`. -/
def HasWidth.getWidth (self : HasWidth) : Option Double :=
  if self.hasWidth_ then some self.width_ else none

/-- Member `HasWidth::tryHandleAttribute`. -/
def HasWidth.tryHandleAttribute (c : Libc) (self : HasWidth) (attr : Attribute) :
    Option (Bool × HasWidth) :=
  if WIDTH = attr.getName then
    if !self.hasWidth_ then
      some (true, { self with width_ := c.atof attr.getValue, hasWidth_ := true })
    else none
  else some (false, self)

/-- Mixin `InLayer`. -/
structure InLayer where
  layer_ : Nat := 0
  hasLayer_ : Bool := false
deriving DecidableEq, Repr

/-- Accessor `InLayer::getLayer`. -/
def InLayer.getLayer (self : InLayer) : Option Nat :=
  if self.hasLayer_ then some self.layer_ else none

/-- Member `InLayer::tryHandleAttribute`. -/
def InLayer.tryHandleAttribute (c : Libc) (self : InLayer) (attr : Attribute) :
    Option (Bool × InLayer) :=
  if LAYER = attr.getName then
    if !self.hasLayer_ then
      some (true, { self with layer_ := toUnsigned (c.atoi attr.getValue),
                              hasLayer_ := true })
    else none
  else some (false, self)

/-- Mixin `Pose`, derived from `InLayer`. -/
structure Pose extends InLayer where
  x_ : Millimeters := ⟨0⟩
  y_ : Double := 0
  rotationDegrees_ : Double := 0
  hasX_ : Bool := false
  hasY_ : Bool := false
  hasRotation_ : Bool := false
deriving DecidableEq, Repr

/-- Accessor `Pose::getX`. -/
def Pose.getX (self : Pose) : Option Millimeters :=
  if self.hasX_ then some self.x_ else none

/-- Accessor `Pose::getY`. -/
def Pose.getY (self : Pose) : Option Double :=
  if self.hasY_ then some self.y_ else none

/-- Accessor `Pose::getRotationDegrees`. -/
def Pose.getRotationDegrees (self : Pose) : Option Double :=
  if self.hasRotation_ then some self.rotationDegrees_ else none

/-- Member `Pose::tryHandleAttribute`. -/
def Pose.tryHandleAttribute (c : Libc) (self : Pose) (attr : Attribute) :
    Option (Bool × Pose) :=
  match InLayer.tryHandleAttribute c self.toInLayer attr with
  | none => none
  | some (false, base) =>
    let self := { self with toInLayer := base }
    let name := attr.getName
    let value := attr.getValue
    if X = name then
      if !self.hasX_ then some (true, { self with x_ := ⟨c.atof value⟩, hasX_ := true })
      else none
    else if Y = name then
      if !self.hasY_ then some (true, { self with y_ := c.atof value, hasY_ := true })
      else none
    else if ROTATION = name then
      if !self.hasRotation_ then
        some (true, { self with rotationDegrees_ := c.atof value, hasRotation_ := true })
      else none
    else some (false, self)
  | some (true, base) => some (true, { self with toInLayer := base })

/-! ## Element kinds -/

/-- Enumeration `Language`. -/
inductive Language where
  | ENGLISH
  | GERMAN
deriving DecidableEq, Repr

/-- Class `Text`, derived from `Pose`. -/
structure Text extends Pose where
  language_ : Language := Language.ENGLISH
  size_ : Double := 0
  ratio_ : Double := 0
  string_ : String := ""
  hasSize_ : Bool := false
  hasRatio_ : Bool := false
  hasString_ : Bool := false
deriving DecidableEq, Repr

/-- Constructor `Text()`. -/
def Text.new : Text := {}

/-- Accessor `Text::getLanguage`. -/
def Text.getLanguage (self : Text) : Language := self.language_

/-- Accessor `Text::getSize`. -/
def Text.getSize (self : Text) : Option Double :=
  if self.hasSize_ then some self.size_ else none

/-- Accessor `Text::getRatio`. -/
def Text.getRatio (self : Text) : Option Double :=
  if self.hasRatio_ then some self.ratio_ else none

/-- Accessor `Text::getString`. -/
def Text.getString (self : Text) : Option String :=
  if self.hasString_ then some self.string_ else none

/-- Accessor `Text::hasString`. -/
def Text.hasString (self : Text) : Bool := self.hasString_

/-- Member `Text::handleCharacters`. -/
def Text.handleCharacters (self : Text) (chars : String) : Option Text :=
  if !self.hasString_ then some { self with string_ := chars, hasString_ := true }
  else none

/-- Member `Text::tryHandleAttribute`.  The third component is what the call
writes to the diagnostic stream. -/
def Text.tryHandleAttribute (c : Libc) (self : Text) (attr : Attribute) :
    Option (Bool × Text × List String) :=
  match Pose.tryHandleAttribute c self.toPose attr with
  | none => none
  | some (false, base) =>
    let self := { self with toPose := base }
    let name := attr.getName
    let value := attr.getValue
    if SIZE = name then
      if !self.hasSize_ then
        some (true, { self with size_ := c.atof value, hasSize_ := true }, [])
      else none
    else if RATIO = name then
      if !self.hasRatio_ then
        some (true, { self with ratio_ := c.atof value, hasRatio_ := true }, [])
      else none
    else if LANGUAGE = name then
      if EN = value then some (true, { self with language_ := Language.ENGLISH }, [])
      else if DE = value then some (true, { self with language_ := Language.GERMAN }, [])
      else some (true, self, ["WARN unknown language type '" ++ value ++ "'"])
    else if FONT = name ∨ ALIGN = name then some (true, self, [])
    else some (false, self, [])
  | some (true, base) => some (true, { self with toPose := base }, [])

/-- Class `Hole`, derived from `Pose`. -/
structure Hole extends Pose where
  drill_ : Double := 0
  hasDrill_ : Bool := false
  isVia_ : Bool
deriving DecidableEq, Repr

/-- Constructor `Hole(const bool isVia)`. -/
def Hole.new (isVia : Bool) : Hole := { isVia_ := isVia }

/-- Accessor `Hole::getDrill`. -/
def Hole.getDrill (self : Hole) : Option Double :=
  if self.hasDrill_ then some self.drill_ else none

/-- Member `Hole::tryHandleAttribute`. -/
def Hole.tryHandleAttribute (c : Libc) (self : Hole) (attr : Attribute) :
    Option (Bool × Hole) :=
  match Pose.tryHandleAttribute c self.toPose attr with
  | none => none
  | some (false, base) =>
    let self := { self with toPose := base }
    let name := attr.getName
    let value := attr.getValue
    if DRILL = name then
      if !self.hasDrill_ then
        some (true, { self with drill_ := c.atof value, hasDrill_ := true })
      else none
    else some (false, self)
  | some (true, base) => some (true, { self with toPose := base })

/-- Mixin `EndPoints`, derived from `InLayer` and `HasWidth`. -/
structure EndPoints extends InLayer, HasWidth where
  x1_ : Double := 0
  x2_ : Double := 0
  y1_ : Double := 0
  y2_ : Double := 0
  hasX1_ : Bool := false
  hasY1_ : Bool := false
  hasX2_ : Bool := false
  hasY2_ : Bool := false
deriving DecidableEq, Repr

/-- Accessor `EndPoints::getX1`. -/
def EndPoints.getX1 (self : EndPoints) : Option Double :=
  if self.hasX1_ then some self.x1_ else none

/-- Accessor `EndPoints::getY1`. -/
def EndPoints.getY1 (self : EndPoints) : Option Double :=
  if self.hasY1_ then some self.y1_ else none

/-- Accessor `EndPoints::getX2`. -/
def EndPoints.getX2 (self : EndPoints) : Option Double :=
  if self.hasX2_ then some self.x2_ else none

/-- Accessor `EndPoints::getY2`. -/
def EndPoints.getY2 (self : EndPoints) : Option Double :=
  if self.hasY2_ then some self.y2_ else none

/-- Member `EndPoints::tryHandleAttribute`: `InLayer` first, then `HasWidth`
(the conjunction short-circuits), then the four coordinates. -/
def EndPoints.tryHandleAttribute (c : Libc) (self : EndPoints) (attr : Attribute) :
    Option (Bool × EndPoints) :=
  match InLayer.tryHandleAttribute c self.toInLayer attr with
  | none => none
  | some (true, l) => some (true, { self with toInLayer := l })
  | some (false, l) =>
    let self := { self with toInLayer := l }
    match HasWidth.tryHandleAttribute c self.toHasWidth attr with
    | none => none
    | some (true, w) => some (true, { self with toHasWidth := w })
    | some (false, w) =>
      let self := { self with toHasWidth := w }
      let name := attr.getName
      let value := attr.getValue
      if X1 = name then
        if !self.hasX1_ then some (true, { self with x1_ := c.atof value, hasX1_ := true })
        else none
      else if Y1 = name then
        if !self.hasY1_ then some (true, { self with y1_ := c.atof value, hasY1_ := true })
        else none
      else if X2 = name then
        if !self.hasX2_ then some (true, { self with x2_ := c.atof value, hasX2_ := true })
        else none
      else if Y2 = name then
        if !self.hasY2_ then some (true, { self with y2_ := c.atof value, hasY2_ := true })
        else none
      else some (false, self)

/-- Class `Wire`, derived from `EndPoints`. -/
structure Wire extends EndPoints where
  curve_ : Double := 0
  hasCurve_ : Bool := false
deriving DecidableEq, Repr

/-- Constructor `Wire()`. -/
def Wire.new : Wire := {}

/-- Accessor `Wire::getCurve` (the source has no assertion here). -/
def Wire.getCurve (self : Wire) : Option Double := some self.curve_

/-- Member `Wire::tryHandleAttribute`. -/
def Wire.tryHandleAttribute (c : Libc) (self : Wire) (attr : Attribute) :
    Option (Bool × Wire) :=
  match EndPoints.tryHandleAttribute c self.toEndPoints attr with
  | none => none
  | some (false, base) =>
    let self := { self with toEndPoints := base }
    let name := attr.getName
    let value := attr.getValue
    if CURVE = name then
      if !self.hasCurve_ then
        some (true, { self with curve_ := c.atof value, hasCurve_ := true })
      else none
    else some (false, self)
  | some (true, base) => some (true, { self with toEndPoints := base })

/-- Class `Rectangle`, derived from `EndPoints`. -/
structure Rectangle extends EndPoints where
  rotationDegrees_ : Double := 0
  hasRotation_ : Bool := false
deriving DecidableEq, Repr

/-- Constructor `Rectangle()`. -/
def Rectangle.new : Rectangle := {}

/-- Accessor `Rectangle::getRotationDegrees`. -/
def Rectangle.getRotationDegrees (self : Rectangle) : Option Double :=
  if self.hasRotation_ then some self.rotationDegrees_ else none

/-- Member `Rectangle::tryHandleAttribute`. -/
def Rectangle.tryHandleAttribute (c : Libc) (self : Rectangle) (attr : Attribute) :
    Option (Bool × Rectangle) :=
  match EndPoints.tryHandleAttribute c self.toEndPoints attr with
  | none => none
  | some (false, base) =>
    let self := { self with toEndPoints := base }
    let name := attr.getName
    let value := attr.getValue
    if ROTATION = name then
      if !self.hasRotation_ then
        some (true, { self with rotationDegrees_ := c.atof value, hasRotation_ := true })
      else none
    else some (false, self)
  | some (true, base) => some (true, { self with toEndPoints := base })

/-- Class `Circle`, derived from `Pose` and `HasWidth`. -/
structure Circle extends Pose, HasWidth where
  radius_ : Double := 0
  hasRadius_ : Bool := false
deriving DecidableEq, Repr

/-- Constructor `Circle()`. -/
def Circle.new : Circle := {}

/-- Accessor `Circle::getRadius`. -/
def Circle.getRadius (self : Circle) : Option Double :=
  if self.hasRadius_ then some self.radius_ else none

/-- Member `Circle::tryHandleAttribute`: `Pose` first, then `HasWidth`
(the conjunction short-circuits), then the radius. -/
def Circle.tryHandleAttribute (c : Libc) (self : Circle) (attr : Attribute) :
    Option (Bool × Circle) :=
  match Pose.tryHandleAttribute c self.toPose attr with
  | none => none
  | some (true, p) => some (true, { self with toPose := p })
  | some (false, p) =>
    let self := { self with toPose := p }
    match HasWidth.tryHandleAttribute c self.toHasWidth attr with
    | none => none
    | some (true, w) => some (true, { self with toHasWidth := w })
    | some (false, w) =>
      let self := { self with toHasWidth := w }
      let name := attr.getName
      let value := attr.getValue
      if RADIUS = name then
        if !self.hasRadius_ then
          some (true, { self with radius_ := c.atof value, hasRadius_ := true })
        else none
      else some (false, self)

/-! ## Containers -/

/-- Class `Board`: one queue per element kind. -/
structure Board where
  textObjects_ : List Text := []
  holeObjects_ : List Hole := []
  wireObjects_ : List Wire := []
  circleObjects_ : List Circle := []
  rectangleObjects_ : List Rectangle := []
deriving DecidableEq, Repr

/-- Member `Board::addText`, from `ADD_OBJECT(Text, text)`. -/
def Board.addText (self : Board) (text : Text) : Board :=
  { self with textObjects_ := self.textObjects_ ++ [text] }

/-- Member `Board::addHole`, from `ADD_OBJECT(Hole, hole)`. -/
def Board.addHole (self : Board) (hole : Hole) : Board :=
  { self with holeObjects_ := self.holeObjects_ ++ [hole] }

/-- Member `Board::addWire`, from `ADD_OBJECT(Wire, wire)`. -/
def Board.addWire (self : Board) (wire : Wire) : Board :=
  { self with wireObjects_ := self.wireObjects_ ++ [wire] }

/-- Member `Board::addCircle`, from `ADD_OBJECT(Circle, circle)`. -/
def Board.addCircle (self : Board) (circle : Circle) : Board :=
  { self with circleObjects_ := self.circleObjects_ ++ [circle] }

/-- Member `Board::addRectangle`, from `ADD_OBJECT(Rectangle, rectangle)`. -/
def Board.addRectangle (self : Board) (rectangle : Rectangle) : Board :=
  { self with rectangleObjects_ := self.rectangleObjects_ ++ [rectangle] }

/-- Class `Package`, derived from `Board`. -/
structure Package extends Board where
  name_ : String := ""
  description_ : String := ""
  hasName_ : Bool := false
  hasDescription_ : Bool := false
deriving DecidableEq, Repr

/-- Constructor `Package()`. -/
def Package.new : Package := {}

/-- Accessor `Package::getName`. -/
def Package.getName (self : Package) : Option String :=
  if self.hasName_ then some self.name_ else none

/-- Member `Package::setDescription`. -/
def Package.setDescription (self : Package) (description : Text) : Option Package :=
  if description.hasString then
    if Language.ENGLISH = description.getLanguage then
      match description.getString with
      | some s => some { self with description_ := s }
      | none => none
    else some self
  else none

/-- Member `Package::tryHandleAttribute`. -/
def Package.tryHandleAttribute (self : Package) (attr : Attribute) :
    Option (Bool × Package) :=
  let name := attr.getName
  if NAME = name then
    if !self.hasName_ then some (true, { self with name_ := name, hasName_ := true })
    else none
  else if DESCRIPTION = name then some (false, self)
  else some (false, self)

/-! ## The document handler -/

/-- A failing `assert` aborts; a passing one continues. -/
def assert (b : Bool) : Option Unit := if b then some () else none

/-- A raw owning pointer that the code may `delete` without resetting it. -/
inductive Ptr (α : Type) where
  | null
  | live (obj : α)
  | dangling
deriving DecidableEq, Repr

/-- The pointer is not `NULL`. -/
def Ptr.isNonNull {α : Type} : Ptr α → Bool
  | Ptr.null => false
  | _ => true

/-- Dereference; reading through a null or deleted pointer has no defined
result and is treated as a failure. -/
def Ptr.deref {α : Type} : Ptr α → Option α
  | Ptr.live a => some a
  | _ => none

/-- What the handler reads from the parser's document locator. -/
structure Locator where
  lineNumber : Int
deriving DecidableEq, Repr

/-- Lexicographic order on character sequences, a proper initial segment
being smaller. -/
def charsLess : List Char → List Char → Bool
  | [], [] => false
  | [], _ :: _ => true
  | _ :: _, [] => false
  | a :: as, b :: bs =>
    if a.toNat < b.toNat then true
    else if b.toNat < a.toNat then false
    else charsLess as bs

/-- The comparison `operator<` of `std::string`, the key order of `std::map`. -/
def stringLess (a b : String) : Bool := charsLess a.toList b.toList

/-- Type `CountMap` (`map<string, unsigned>`), kept sorted by key. -/
abbrev CountMap := List (String × Nat)

/-- The statement `++counts[name]` on a `CountMap` (32-bit `unsigned`). -/
def CountMap.increment : CountMap → String → CountMap
  | [], name => [(name, 1)]
  | (k, n) :: rest, name =>
    if name = k then (k, (n + 1) % 2 ^ 32) :: rest
    else if stringLess name k then (name, 1) :: (k, n) :: rest
    else (k, n) :: CountMap.increment rest name

/-- Lookup in a `CountMap`; an absent key counts as zero. -/
def CountMap.count : CountMap → String → Nat
  | [], _ => 0
  | (k, n) :: rest, name => if name = k then n else CountMap.count rest name

/-- Class `SAXHandler`: its data members, and the lines written to `cerr`. -/
structure SAXHandler where
  locator_ : Option Locator := none
  elementCounts_ : CountMap := []
  board_ : Board := {}
  packages_ : List Package := []
  isDefiningLayers_ : Bool := false
  isDefiningBoard_ : Bool := false
  isDefiningPlain_ : Bool := false
  isDefiningText_ : Bool := false
  isDefiningDescription_ : Bool := false
  isDefiningNote_ : Bool := false
  isDefiningLibraries_ : Bool := false
  isDefiningLibrary_ : Bool := false
  isDefiningPackages_ : Bool := false
  isDefiningPackage_ : Bool := false
  currentText_ : Ptr Text := Ptr.null
  currentPackage_ : Option Package := none
  cerr : List String := []
deriving DecidableEq, Repr

namespace SAXHandler

/-- Constructor `SAXHandler()`. -/
def new : SAXHandler := {}

/-- Append lines to the diagnostic stream. -/
def log (self : SAXHandler) (lines : List String) : SAXHandler :=
  { self with cerr := self.cerr ++ lines }

/-- Loop of `handleTextDefinition` over the attribute list, on the text under
construction; returns the text and the diagnostics written. -/
def textAttributes (c : Libc) : Text → AttributeList → Option (Text × List String)
  | text, [] => some (text, [])
  | text, attr :: rest =>
    match Text.tryHandleAttribute c text attr with
    | none => none
    | some (true, text, out) =>
      (textAttributes c text rest).map fun r => (r.1, out ++ r.2)
    | some (false, text, out) =>
      let warn :=
        if FONT = attr.getName ∨ ALIGN = attr.getName then []
        else ["WARN unexpected attribute '" ++ attr.getName ++ "' in text definition"]
      (textAttributes c text rest).map fun r => (r.1, out ++ warn ++ r.2)

/-- Member `handleTextDefinition`. -/
def handleTextDefinition (c : Libc) (self : SAXHandler) (attributes : AttributeList) :
    Option SAXHandler := do
  assert self.currentText_.isNonNull
  let text ← self.currentText_.deref
  let (text, out) ← textAttributes c text attributes
  pure ({ self with currentText_ := Ptr.live text }.log out)

/-- Loop of `handleWireDefinition` over the attribute list. -/
def wireAttributes (c : Libc) : Wire → AttributeList → Option (Wire × List String)
  | wire, [] => some (wire, [])
  | wire, attr :: rest =>
    match Wire.tryHandleAttribute c wire attr with
    | none => none
    | some (true, wire) => wireAttributes c wire rest
    | some (false, wire) =>
      let warn :=
        if CAP = attr.getName then []
        else if STYLE = attr.getName then []
        else ["WARN unexpected attribute '" ++ attr.getName ++ "' in wire definition"]
      (wireAttributes c wire rest).map fun r => (r.1, warn ++ r.2)

/-- Member `handleWireDefinition`. -/
def handleWireDefinition (c : Libc) (self : SAXHandler) (attributes : AttributeList) :
    Option SAXHandler := do
  let (wire, out) ← wireAttributes c Wire.new attributes
  let self := self.log out
  if self.isDefiningPackage_ then
    assert self.isDefiningPackages_
    assert self.currentPackage_.isSome
    let package ← self.currentPackage_
    pure { self with currentPackage_ := some { package with toBoard := package.toBoard.addWire wire } }
  else
    assert (!self.isDefiningPackages_)
    assert self.currentPackage_.isNone
    pure { self with board_ := self.board_.addWire wire }

/-- Loop of `handleHoleDefinition` over the attribute list. -/
def holeAttributes (c : Libc) : Hole → AttributeList → Option (Hole × List String)
  | hole, [] => some (hole, [])
  | hole, attr :: rest =>
    match Hole.tryHandleAttribute c hole attr with
    | none => none
    | some (true, hole) => holeAttributes c hole rest
    | some (false, hole) =>
      (holeAttributes c hole rest).map fun r =>
        (r.1, ["WARN unexpected attribute '" ++ attr.getName ++ "' in hole definition"] ++ r.2)

/-- Member `handleHoleDefinition`. -/
def handleHoleDefinition (c : Libc) (self : SAXHandler) (attributes : AttributeList) :
    Option SAXHandler := do
  let (hole, out) ← holeAttributes c (Hole.new false) attributes
  let self := self.log out
  if self.isDefiningPackage_ then
    assert self.currentPackage_.isSome
    let package ← self.currentPackage_
    pure { self with currentPackage_ := some { package with toBoard := package.toBoard.addHole hole } }
  else
    assert (!self.isDefiningPackages_)
    assert self.currentPackage_.isNone
    pure { self with board_ := self.board_.addHole hole }

/-- Loop of `handleRectangleDefinition` over the attribute list. -/
def rectangleAttributes (c : Libc) :
    Rectangle → AttributeList → Option (Rectangle × List String)
  | rectangle, [] => some (rectangle, [])
  | rectangle, attr :: rest =>
    match Rectangle.tryHandleAttribute c rectangle attr with
    | none => none
    | some (true, rectangle) => rectangleAttributes c rectangle rest
    | some (false, rectangle) =>
      (rectangleAttributes c rectangle rest).map fun r =>
        (r.1, ["WARN unexpected attribute '" ++ attr.getName
                 ++ "' in rectangle definition"] ++ r.2)

/-- Member `handleRectangleDefinition`. -/
def handleRectangleDefinition (c : Libc) (self : SAXHandler) (attributes : AttributeList) :
    Option SAXHandler := do
  let (rectangle, out) ← rectangleAttributes c Rectangle.new attributes
  let self := self.log out
  if self.isDefiningPackage_ then
    assert self.currentPackage_.isSome
    let package ← self.currentPackage_
    pure { self with
      currentPackage_ := some { package with toBoard := package.toBoard.addRectangle rectangle } }
  else
    assert (!self.isDefiningPackages_)
    assert self.currentPackage_.isNone
    pure { self with board_ := self.board_.addRectangle rectangle }

/-- Loop of `handleCircleDefinition` over the attribute list. -/
def circleAttributes (c : Libc) : Circle → AttributeList → Option (Circle × List String)
  | circ, [] => some (circ, [])
  | circ, attr :: rest =>
    match Circle.tryHandleAttribute c circ attr with
    | none => none
    | some (true, circ) => circleAttributes c circ rest
    | some (false, circ) =>
      (circleAttributes c circ rest).map fun r =>
        (r.1, ["WARN unexpected attribute '" ++ attr.getName
                 ++ "' in circle definition"] ++ r.2)

/-- Member `handleCircleDefinition`: the circle is built and then goes out of
scope; the member has no statement that stores it. -/
def handleCircleDefinition (c : Libc) (self : SAXHandler) (attributes : AttributeList) :
    Option SAXHandler := do
  let (_, out) ← circleAttributes c Circle.new attributes
  pure (self.log out)

/-- Member `startElement`. -/
def startElement (c : Libc) (self : SAXHandler) (elementName : String)
    (attributes : AttributeList) : Option SAXHandler := do
  let name := elementName
  let self := { self with elementCounts_ := self.elementCounts_.increment name }
  if LAYERS = name then
    assert (0 = attributes.length)
    assert (!self.isDefiningLayers_)
    assert (!self.isDefiningBoard_)
    assert (!self.isDefiningPlain_)
    pure { self with isDefiningLayers_ := true }
  else if BOARD = name then
    assert (!self.isDefiningLayers_)
    assert (!self.isDefiningBoard_)
    assert (!self.isDefiningPlain_)
    pure { self with isDefiningBoard_ := true }
  else if PLAIN = name then
    assert (!self.isDefiningLayers_)
    assert self.isDefiningBoard_
    assert (!self.isDefiningPlain_)
    pure { self with isDefiningPlain_ := true }
  else if LAYER = name then
    assert self.isDefiningLayers_
    assert (!self.isDefiningBoard_)
    assert (!self.isDefiningPlain_)
    pure self
  else if TEXT = name then
    let self := self.log
      [match self.locator_ with
       | some locator => "DBG starting text at " ++ toString locator.lineNumber
       | none => "DBG starting text"]
    assert (!self.isDefiningLayers_)
    assert (!self.isDefiningDescription_)
    let self := { self with currentText_ := Ptr.live Text.new, isDefiningText_ := true }
    handleTextDefinition c self attributes
  else if DESCRIPTION = name then
    assert (!self.isDefiningLayers_)
    assert (!self.isDefiningDescription_)
    assert (!self.isDefiningNote_)
    assert (!self.isDefiningText_)
    assert self.isDefiningPackages_
    assert self.isDefiningPackage_
    let self := { self with currentText_ := Ptr.live Text.new, isDefiningDescription_ := true }
    handleTextDefinition c self attributes
  else if NOTE = name then
    assert (!self.isDefiningLayers_)
    assert (!self.isDefiningDescription_)
    assert (!self.isDefiningNote_)
    pure { self with isDefiningNote_ := true }
  else if WIRE = name then
    assert (!self.isDefiningLayers_)
    handleWireDefinition c self attributes
  else if HOLE = name then
    assert (!self.isDefiningLayers_)
    handleHoleDefinition c self attributes
  else if RECTANGLE = name then
    assert (!self.isDefiningLayers_)
    handleRectangleDefinition c self attributes
  else if CIRCLE = name then
    assert (!self.isDefiningLayers_)
    handleCircleDefinition c self attributes
  else if PACKAGES = name then
    assert (!self.isDefiningPackages_)
    assert (!self.isDefiningPackage_)
    pure { self with isDefiningPackages_ := true }
  else if PACKAGE = name then
    assert self.isDefiningPackages_
    assert (!self.isDefiningPackage_)
    pure { self with isDefiningPackage_ := true, currentPackage_ := some Package.new }
  else
    pure { self with elementCounts_ := self.elementCounts_.increment name }

/-- Member `endElement`. -/
def endElement (self : SAXHandler) (elementName : String) : Option SAXHandler := do
  let name := elementName
  if LAYERS = name then
    assert self.isDefiningLayers_
    assert (!self.isDefiningBoard_)
    assert (!self.isDefiningPlain_)
    pure { self with isDefiningLayers_ := false }
  else if BOARD = name then
    assert (!self.isDefiningLayers_)
    assert self.isDefiningBoard_
    assert (!self.isDefiningPlain_)
    pure { self with isDefiningBoard_ := false }
  else if PLAIN = name then
    assert (!self.isDefiningLayers_)
    assert self.isDefiningBoard_
    assert self.isDefiningPlain_
    pure { self with isDefiningPlain_ := false }
  else if TEXT = name then
    let self := self.log ["DBG ending text"]
    assert (!self.isDefiningLayers_)
    assert self.currentText_.isNonNull
    assert self.isDefiningText_
    let text ← self.currentText_.deref
    let self ←
      if self.isDefiningPackage_ then do
        assert self.currentPackage_.isSome
        let package ← self.currentPackage_
        pure { self with
          currentPackage_ := some { package with toBoard := package.toBoard.addText text } }
      else do
        assert (!self.isDefiningPackages_)
        assert self.currentPackage_.isNone
        pure { self with board_ := self.board_.addText text }
    pure { self with isDefiningText_ := false, currentText_ := Ptr.null }
  else if DESCRIPTION = name then
    assert (!self.isDefiningText_)
    assert self.isDefiningDescription_
    assert (!self.isDefiningNote_)
    assert self.isDefiningPackages_
    assert self.isDefiningPackage_
    assert self.currentPackage_.isSome
    let package ← self.currentPackage_
    let text ← self.currentText_.deref
    let package ← package.setDescription text
    pure { self with currentPackage_ := some package, currentText_ := Ptr.dangling,
                     isDefiningDescription_ := false }
  else if NOTE = name then
    assert (!self.isDefiningText_)
    assert (!self.isDefiningDescription_)
    assert self.isDefiningNote_
    pure { self with isDefiningNote_ := false }
  else if PACKAGE = name then
    assert self.isDefiningPackages_
    assert self.isDefiningPackage_
    assert self.currentPackage_.isSome
    let package ← self.currentPackage_
    pure { self with isDefiningPackage_ := false, packages_ := self.packages_ ++ [package],
                     currentPackage_ := none }
  else if PACKAGES = name then
    assert self.isDefiningPackages_
    assert (!self.isDefiningPackage_)
    assert self.currentPackage_.isNone
    pure { self with isDefiningPackages_ := false }
  else pure self

/-- Member `characters`. -/
def characters (self : SAXHandler) (chars : String) (length : Nat) : Option SAXHandler := do
  if self.isDefiningText_ then
    let text ← self.currentText_.deref
    let text ← text.handleCharacters chars
    pure { self with currentText_ := Ptr.live text }
  else if self.isDefiningDescription_ then
    assert (!self.isDefiningText_)
    let text ← self.currentText_.deref
    let text ← text.handleCharacters chars
    pure { self with currentText_ := Ptr.live text }
  else if self.isDefiningNote_ then
    pure self
  else
    pure (self.log ["WARN " ++ toString length ++ " unexpected characters: '" ++ chars ++ "'"])

/-- Member `finalize`: one diagnostic line per counted element name. -/
def finalize (self : SAXHandler) : SAXHandler :=
  self.log (self.elementCounts_.map fun entry =>
    "DBG element " ++ entry.1 ++ " -> " ++ toString entry.2)

/-- Member `setDocumentLocator`. -/
def setDocumentLocator (self : SAXHandler) (locator : Locator) : SAXHandler :=
  { self with locator_ := some locator }

end SAXHandler

/-- The callbacks the parser makes on the handler. -/
inductive Event where
  | startDocument
  | endDocument
  | startElement (elementName : String) (attributes : AttributeList)
  | endElement (elementName : String)
  | characters (chars : String) (length : Nat)
  | ignorableWhitespace (chars : String) (length : Nat)
  | processingInstruction (target : String) (data : String)
  | setDocumentLocator (locator : Locator)
deriving DecidableEq, Repr

/-- The callback delivers character data. -/
def Event.isCharacters : Event → Bool
  | Event.characters _ _ => true
  | _ => false

/-- One callback applied to the handler. -/
def SAXHandler.step (c : Libc) (self : SAXHandler) : Event → Option SAXHandler
  | Event.startDocument => some (self.log ["DBG start of document"])
  | Event.endDocument => some (self.log ["DBG end of document"])
  | Event.startElement elementName attributes => self.startElement c elementName attributes
  | Event.endElement elementName => self.endElement elementName
  | Event.characters chars length => self.characters chars length
  | Event.ignorableWhitespace _ _ => some self
  | Event.processingInstruction _ _ => some (self.log ["DBG processing instruction"])
  | Event.setDocumentLocator locator => some (self.setDocumentLocator locator)

/-- A sequence of callbacks applied in order; stops at the first abort. -/
def SAXHandler.run (c : Libc) (self : SAXHandler) : List Event → Option SAXHandler
  | [] => some self
  | e :: es =>
    match self.step c e with
    | none => none
    | some next => next.run c es

/-- States the handler can be in after some sequence of callbacks, none of
which aborted, starting from a freshly constructed handler. -/
def SAXHandler.Reachable (c : Libc) (self : SAXHandler) : Prop :=
  ∃ es : List Event, SAXHandler.new.run c es = some self

/-! ## The program entry point -/

@[reducible] def FILE_VERSION : String := "FileVersion[20070407]"
@[reducible] def THERMAL_GAP : String := "Thermal[0.500000]"
@[reducible] def LAYOUT_FLAGS : String := "Flags(\"nameonpcb,uniquename,clearnew,snappin\")"
@[reducible] def LAYOUT_GROUPS : String := "Groups(\"1,c:2:3:4:5:6,s:7:8\")"

/-- What the command line parser makes of `argv`: rejected, or accepted with
or without the help option. -/
inductive CommandLine where
  | rejected
  | accepted (help : Bool)
deriving DecidableEq, Repr

/-- The exceptions `main` catches at top level. -/
inductive TopLevelException where
  | OutOfMemoryException
  | XMLException (message : String)
  | other
deriving DecidableEq, Repr

/-- The behaviour of the XML library during one run, as far as `main` sees it:
whether setting up the platform throws, the callbacks `parse` makes, what
`parse` throws after them (if anything), and the error count it reports. -/
structure ParserRun where
  platformThrows : Option TopLevelException := none
  events : List Event
  parseThrows : Option TopLevelException := none
  errorCount : Nat := 0
deriving DecidableEq, Repr

/-- What a run that returns from `main` leaves behind. -/
structure ProcessResult where
  stdout : List String
  stderr : List String
  result : Int
deriving DecidableEq, Repr

/-- The `catch` clauses of `main`: diagnostic line and result. -/
def catchTopLevel (stderr : List String) : TopLevelException → ProcessResult
  | TopLevelException.OutOfMemoryException =>
    { stdout := [], stderr := stderr ++ ["FATAL out of memory exception at top level"],
      result := -2 }
  | TopLevelException.XMLException message =>
    { stdout := [], stderr := stderr ++ ["FATAL XML exception at top level: " ++ message],
      result := -2 }
  | TopLevelException.other =>
    { stdout := [],
      stderr := stderr ++ ["FATAL unknown/unexpected exception type at top level"],
      result := -2 }

/-- Function `main`.  `none` is a run that never returns from `main`: an
exception outside the `try` block or a failing `assert` in a callback. -/
def main (c : Libc) (args : CommandLine) (parser : ParserRun) : Option ProcessResult :=
  match args with
  | CommandLine.rejected => none
  | CommandLine.accepted true =>
    some { stdout := [], stderr := ["Usage (input file on stdio, output to stdout)"],
           result := -1 }
  | CommandLine.accepted false =>
    match parser.platformThrows with
    | some exc => some (catchTopLevel [] exc)
    | none =>
      match SAXHandler.new.run c parser.events with
      | none => none
      | some handler =>
        match parser.parseThrows with
        | some exc => some (catchTopLevel handler.cerr exc)
        | none =>
          let handler := handler.log
            ["Parsing complete with " ++ toString parser.errorCount ++ " errors"]
          let stdout :=
            ["# Output generated from Eagle .brd file automatically by eagle2gedapcb.",
             "", FILE_VERSION, LAYOUT_FLAGS, LAYOUT_GROUPS]
          let handler := handler.finalize
          some { stdout := stdout, stderr := handler.cerr, result := 0 }

/-! ## The emitter (`gedapcb.hpp`, `gedapcb.cpp`)

A `std::ostream` is the text written to it so far; `strm << x` appends the
rendering of `x`, and `endl` appends a newline.  The definitions of
`gedapcb.cpp` are read with the signatures `gedapcb.hpp` declares. -/

namespace geda_pcb

/-- A `std::ostream`: the text written to it so far. -/
abbrev ostream := String

/-- The stream insertion operators the emitter uses that are library code:
`operator<<` of `boost::units` for a quantity, and `operator<<` of
`std::ostream` for a `const void *` (the address as text). -/
structure StreamLib where
  quantity : Centimils → String
  pointer : Nat → String

/-- The insertion `strm << ch` of an `unsigned char`, which is what
`std::uint8_t` is: the stream receives the one character with that code. -/
def insertUnsignedChar (strm : ostream) (ch : Nat) : ostream :=
  strm ++ String.singleton (Char.ofNat ch)

/-- A reference (`const T &`): the object it names is alive, or its lifetime
has ended. -/
inductive Reference (α : Type) where
  | live (obj : α)
  | dangling
deriving DecidableEq, Repr

/-- Reading through a reference; once the lifetime of the object has ended
the read has no defined result, which is treated as a failure. -/
def Reference.read {α : Type} : Reference α → Option α
  | Reference.live a => some a
  | Reference.dangling => none

/-- A reference bound to a temporary, seen after the end of the full
expression that created the temporary: the temporary is destroyed there. -/
def Reference.afterFullExpression {α : Type} (_ : Reference α) : Reference α :=
  Reference.dangling

/-- Class `PCB`.  Its three data members are declared as references
(`const std::string &name_`, `const Centimils &width_`,
`const Centimils &height_`). -/
structure PCB where
  name_ : Reference String
  width_ : Reference Centimils
  height_ : Reference Centimils
deriving DecidableEq, Repr

/-- Constructor `PCB(name, width, height)`: each member is bound to the object
the argument names; nothing is copied. -/
def PCB.new (name : Reference String) (width height : Reference Centimils) : PCB :=
  { name_ := name, width_ := width, height_ := height }

/-- Member `PCB::print`. -/
def PCB.print (lib : StreamLib) (self : PCB) (strm : ostream) : Option ostream := do
  let name ← self.name_.read
  let width ← self.width_.read
  let height ← self.height_.read
  pure (strm ++ "PCB[\"" ++ name ++ "\" "
         ++ lib.quantity width ++ " " ++ lib.quantity height ++ "]" ++ "\n")

/-- Class `HasLineValues`; the members are copies. -/
structure HasLineValues where
  thickness_ : Centimils
  clearance_ : Centimils
deriving DecidableEq, Repr

/-- Member `HasLineValues::printLinePortion`. -/
def HasLineValues.printLinePortion (lib : StreamLib) (self : HasLineValues)
    (strm : ostream) : ostream :=
  strm ++ " \"" ++ lib.quantity self.thickness_ ++ "\""
       ++ " \"" ++ lib.quantity self.clearance_ ++ "\""

/-- Class `HasEndpoints`; the members are copies. -/
structure HasEndpoints where
  rX1_ : Centimils
  rY1_ : Centimils
  rX2_ : Centimils
  rY2_ : Centimils
deriving DecidableEq, Repr

/-- Member `HasEndpoints::printEndPoints`. -/
def HasEndpoints.printEndPoints (lib : StreamLib) (self : HasEndpoints)
    (strm : ostream) : ostream :=
  strm ++ " " ++ lib.quantity self.rX1_
       ++ " " ++ lib.quantity self.rY1_
       ++ " " ++ lib.quantity self.rX2_
       ++ " " ++ lib.quantity self.rY2_

/-- Class `Line`. -/
structure Line extends HasEndpoints, HasLineValues where
  flags_ : String
deriving DecidableEq, Repr

/-- Member `Line::print`. -/
def Line.print (lib : StreamLib) (self : Line) (strm : ostream) : ostream :=
  let strm := strm ++ "Line["
  let strm := self.toHasEndpoints.printEndPoints lib strm
  let strm := self.toHasLineValues.printLinePortion lib strm
  strm ++ " " ++ self.flags_ ++ "]"

/-- Class `Printable` with its virtual member `print`: an object of one of
the derived classes.  Of these `PCB` and `Line` are modelled; `Pad` and `Pin`
are not needed below. -/
inductive Printable where
  | pcb (obj : PCB)
  | line (obj : Line)
deriving DecidableEq, Repr

/-- Virtual member `Printable::print`, dispatched on the class of the object. -/
def Printable.print (lib : StreamLib) : Printable → ostream → Option ostream
  | Printable.pcb obj, strm => obj.print lib strm
  | Printable.line obj, strm => some (obj.print lib strm)

/-- A `Printable *` as held in the list of a layer: the address, and the
object that lives there. -/
structure PrintablePtr where
  address : Nat
  object : Printable
deriving DecidableEq, Repr

/-- Class `Layer`: `number_` is a `std::uint8_t`, `name_` a copy of the
string, `printables_` a `std::list<Printable *>`. -/
structure Layer where
  number_ : Nat
  name_ : String
  printables_ : List PrintablePtr := []
deriving DecidableEq, Repr

/-- Constructor `Layer(number, name)`; the number is narrowed to 8 bits. -/
def Layer.new (number : Nat) (name : String) : Layer :=
  { number_ := number % 2 ^ 8, name_ := name }

/-- Member `Layer::addElement`. -/
def Layer.addElement (self : Layer) (printable : PrintablePtr) : Layer :=
  { self with printables_ := self.printables_ ++ [printable] }

/-- Member `Layer::print`.  In the loop `*iter` has type `Printable *`, so
`strm << *iter` is the insertion of a pointer. -/
def Layer.print (lib : StreamLib) (self : Layer) (strm : ostream) : ostream :=
  let strm := insertUnsignedChar (strm ++ "Layer (") self.number_
                ++ " \"" ++ self.name_ ++ "\")" ++ "\n"
                ++ "(" ++ "\n"
  let strm := self.printables_.foldl
    (fun strm iter => strm ++ "\t" ++ lib.pointer iter.address ++ "\n") strm
  strm ++ ")" ++ "\n"

/-- The test case of `test-gedapcb.cpp`.  The declaration
`PCB pcb("Test", 10000, 10000);` builds its three arguments as temporaries (a
`std::string` from the literal, two `Centimils` through `Centimils(const int)`)
and binds the members of `pcb` to them; the temporaries are destroyed at the
end of the declaration.  The section then runs `std::cout << pcb`, which
calls `pcb.print`. -/
def testCase (lib : StreamLib) : Option ostream :=
  let pcb := PCB.new (Reference.live "Test") (Reference.live (Centimils.ofInt 10000))
    (Reference.live (Centimils.ofInt 10000))
  let pcb : PCB :=
    { name_ := pcb.name_.afterFullExpression
      width_ := pcb.width_.afterFullExpression
      height_ := pcb.height_.afterFullExpression }
  pcb.print lib ""

end geda_pcb

/-! ## A concrete C library for evaluating examples

The theorems below hold for every `Libc`.  Closed examples need one; this one
reads an optionally signed run of decimal digits and ignores the rest. -/

/-- Value of a leading run of decimal digits, given the value read so far. -/
def leadingDigits : Nat → List Char → Nat
  | acc, [] => acc
  | acc, ch :: rest =>
    if ch.isDigit then leadingDigits (acc * 10 + (ch.toNat - 48)) rest else acc

/-- Signed decimal integer at the start of a string. -/
def sampleAtoi (s : String) : Int :=
  match s.toList with
  | '-' :: rest => -((leadingDigits 0 rest : Nat) : Int)
  | '+' :: rest => ((leadingDigits 0 rest : Nat) : Int)
  | chars => ((leadingDigits 0 chars : Nat) : Int)

/-- The sample library: `atoi` as above, `atof` its integer value. -/
def sampleLibc : Libc :=
  { atof := fun s => Rat.ofInt (sampleAtoi s), atoi := sampleAtoi }

end jrl

namespace jrl

/-! ## Event sequences and states used in the examples -/

/-- The callbacks the parser makes for one `description` element that carries
a `language` attribute and one run of character data. -/
def descriptionElement (language chars : String) (length : Nat) : List Event :=
  [Event.startElement "description" [⟨"language", language⟩], Event.characters chars length,
   Event.endElement "description"]

/-- The callbacks the parser makes for a document that is one `board` holding
one `wire` with x1=0, y1=0, x2=10, y2=0, width=10, layer=1. -/
def wireDocument : List Event :=
  [Event.startDocument,
   Event.startElement "board" [],
   Event.startElement "wire"
     [⟨"x1", "0"⟩, ⟨"y1", "0"⟩, ⟨"x2", "10"⟩, ⟨"y2", "0"⟩, ⟨"width", "10"⟩, ⟨"layer", "1"⟩],
   Event.endElement "wire",
   Event.endElement "board",
   Event.endDocument]

/-- A line of output is a wire record: `Line::print` of `gedapcb.cpp`, the
emitter for wires, starts its record with `Line[`. -/
def isWireRecord (line : String) : Bool := "Line[".toList.isPrefixOf line.toList

/-- The handler after `board` was opened. -/
def boardOpen : SAXHandler :=
  { elementCounts_ := [("board", 1)], isDefiningBoard_ := true }

/-- The handler after `packages` and then `package` were opened. -/
def packageOpen : SAXHandler :=
  { elementCounts_ := [("package", 1), ("packages", 1)], isDefiningPackages_ := true,
    isDefiningPackage_ := true, currentPackage_ := some Package.new }

/-- The handler after `board` and `text` were opened and the text received
the character data `R1`. -/
def textOpen : SAXHandler :=
  { elementCounts_ := [("board", 1), ("text", 1)], isDefiningBoard_ := true,
    isDefiningText_ := true, cerr := ["DBG starting text"],
    currentText_ := Ptr.live { Text.new with string_ := "R1", hasString_ := true } }

/-- The handler after `board` and `text` were opened, before any character
data. -/
def textStarted : SAXHandler :=
  { elementCounts_ := [("board", 1), ("text", 1)], isDefiningBoard_ := true,
    isDefiningText_ := true, cerr := ["DBG starting text"],
    currentText_ := Ptr.live Text.new }

/-- The handler after `layers` was opened. -/
def layersOpen : SAXHandler :=
  { elementCounts_ := [("layers", 1)], isDefiningLayers_ := true }

/-- The callbacks for a `packages` region with two `package` elements, each
holding one `text`, with the strings `A` and `B`. -/
def twoPackageDocument : List Event :=
  [Event.startElement "packages" [],
   Event.startElement "package" [], Event.startElement "text" [], Event.characters "A" 1,
   Event.endElement "text", Event.endElement "package",
   Event.startElement "package" [], Event.startElement "text" [], Event.characters "B" 1,
   Event.endElement "text", Event.endElement "package",
   Event.endElement "packages"]

/-- The handler after `board` was opened and one `wire` without attributes was
stored on the board. -/
def boardWithWire : SAXHandler :=
  { boardOpen with
    elementCounts_ := [("board", 1), ("wire", 1)]
    board_ := { wireObjects_ := [Wire.new] } }

/-- The handler after `packages` was opened, with no package under
construction. -/
def packageSetOpen : SAXHandler :=
  { elementCounts_ := [("packages", 1)], isDefiningPackages_ := true }

/-- The callbacks for a `packages` region with one closed `package` and one
still under construction, both `package` start events carrying a `name`
attribute. -/
def namedPackagesDocument : List Event :=
  [Event.startElement "packages" [],
   Event.startElement "package" [⟨"name", "R0603"⟩], Event.endElement "package",
   Event.startElement "package" [⟨"name", "C0805"⟩]]

/-- A sample of the library insertions, for evaluating examples: a quantity is
written as the integer part of its value followed by the unit symbol, an
address as `0x` followed by its hexadecimal digits. -/
def sampleStreamLib : geda_pcb.StreamLib :=
  { quantity := fun q =>
      match q.value with
      | DoubleValue.finite v => toString (Rat.floor v) ++ " cmil"
      | DoubleValue.infinity false => "inf cmil"
      | DoubleValue.infinity true => "-inf cmil"
    pointer := fun a => "0x" ++ String.mk (Nat.toDigits 16 a) }

/-- A sample of the conversion factor, for evaluating examples: the `double`
nearest to the exact ratio 500000/127, which is 8657571872251969 / 2^41. -/
def sampleUnitsLib : UnitsLib := { conversionFactor := 8657571872251969 / 2 ^ 41 }

/-- The callbacks that open a package and give it the English description
`English`. -/
def englishThenGerman : List Event :=
  [Event.startElement "packages" [], Event.startElement "package" []]
    ++ descriptionElement "en" "English" 7

/-- Content of a `description` element: character data and a nested `wire`. -/
def germanContent : List Event :=
  [Event.characters "Deutsch" 7, Event.startElement "wire" [], Event.endElement "wire"]

/-- A line from (0, 0) to (1000, 0), 1000 centimils thick. -/
def sampleLine : geda_pcb.Line :=
  { rX1_ := Centimils.ofInt 0, rY1_ := Centimils.ofInt 0, rX2_ := Centimils.ofInt 1000,
    rY2_ := Centimils.ofInt 0, thickness_ := Centimils.ofInt 1000,
    clearance_ := Centimils.ofInt 2000, flags_ := "clearline" }

/-- The layer `Layer(1, "top")` after `addElement` of a pointer to
`sampleLine`, which lives at address 4096. -/
def sampleLayer : geda_pcb.Layer :=
  (geda_pcb.Layer.new 1 "top").addElement
    { address := 4096, object := geda_pcb.Printable.line sampleLine }

/-! ## Reference models for the emitter -/

/-- The printed records of the elements of a layer, in list order: for each
element the text its `print` writes. -/
def geda_pcb.printedRecords (lib : geda_pcb.StreamLib) :
    List geda_pcb.PrintablePtr → Option (List String)
  | [] => some []
  | e :: es =>
    match e.object.print lib "", geda_pcb.printedRecords lib es with
    | some r, some rs => some (r :: rs)
    | _, _ => none

/-- Reference rendering of a layer, in the words of the specification: the
line `Layer (k "s")` with `k` as a decimal number, a line `(`, one
tab-indented line per element holding its printed record, in insertion order,
and a line `)`. -/
def geda_pcb.Layer.expectedPrint (lib : geda_pcb.StreamLib) (self : geda_pcb.Layer) :
    Option String :=
  (geda_pcb.printedRecords lib self.printables_).map fun records =>
    "Layer (" ++ toString self.number_ ++ " \"" ++ self.name_ ++ "\")" ++ "\n"
      ++ "(" ++ "\n"
      ++ String.join (records.map fun r => "\t" ++ r ++ "\n")
      ++ ")" ++ "\n"

/-! ## Reference models for the order of stored elements -/

/-- The attribute names `Wire::tryHandleAttribute` accepts: those tested by
`InLayer`, `HasWidth`, `EndPoints` and `Wire` itself. -/
def wireAttributeNames : List String := ["layer", "width", "x1", "y1", "x2", "y2", "curve"]

/-- Texts of the three kinds of container: the top-level board, the package
under construction, the packages already closed. -/
structure TextLists where
  board : List Text
  current : Option (List Text)
  closed : List (List Text)
deriving DecidableEq, Repr

/-- The text sequences held by the handler. -/
def SAXHandler.textLists (h : SAXHandler) : TextLists :=
  { board := h.board_.textObjects_
    current := h.currentPackage_.map fun p => p.textObjects_
    closed := h.packages_.map fun p => p.textObjects_ }

/-- Reference model of insertion order: what one callback does to the text
sequences when texts are appended in the order of their end events.  A
`text` end event appends the in-progress text to the package under
construction if there is one, else to the board; a `package` start event
opens an empty package; a `package` end event moves the package under
construction behind the closed ones; nothing else touches a text
sequence. -/
def expectedTextLists (e : Event) (inProgress : Option Text) (v : TextLists) : TextLists :=
  match e with
  | Event.startElement name _ =>
    if name = "package" then { v with current := some [] } else v
  | Event.endElement name =>
    if name = "text" then
      match inProgress, v.current with
      | some t, some l => { v with current := some (l ++ [t]) }
      | some t, none => { v with board := v.board ++ [t] }
      | none, _ => v
    else if name = "package" then
      match v.current with
      | some l => { v with current := none, closed := v.closed ++ [l] }
      | none => v
    else v
  | _ => v


/-- The packages pushed onto the package collection during a run, in the
order of their `package` end events. -/
def closedPackages (c : Libc) : SAXHandler → List Event → List Package
  | _, [] => []
  | h, e :: es =>
    match h.step c e with
    | none => []
    | some next =>
      (if e = Event.endElement "package" then h.currentPackage_.toList else [])
        ++ closedPackages c next es

/-- The reference model of insertion order applied along a run; the text in
progress at each callback is read off the handler. -/
def expectedTextListsRun (c : Libc) : SAXHandler → List Event → TextLists → TextLists
  | _, [], v => v
  | h, e :: es, v =>
    match h.step c e with
    | none => v
    | some next => expectedTextListsRun c next es (expectedTextLists e h.currentText_.deref v)

/-! ## Predicates used in the proofs -/

/-- The recognized attribute names whose field is already set on a wire. -/
def Wire.IsSet (w : Wire) (n : String) : Prop :=
  (n = "layer" ∧ w.hasLayer_ = true) ∨ (n = "width" ∧ w.hasWidth_ = true) ∨
  (n = "x1" ∧ w.hasX1_ = true) ∨ (n = "y1" ∧ w.hasY1_ = true) ∨
  (n = "x2" ∧ w.hasX2_ = true) ∨ (n = "y2" ∧ w.hasY2_ = true) ∨
  (n = "curve" ∧ w.hasCurve_ = true)

/-- The recognized attribute names whose field is already set on a hole. -/
def Hole.IsSet (w : Hole) (n : String) : Prop :=
  (n = "layer" ∧ w.hasLayer_ = true) ∨ (n = "x" ∧ w.hasX_ = true) ∨
  (n = "y" ∧ w.hasY_ = true) ∨ (n = "rot" ∧ w.hasRotation_ = true) ∨
  (n = "drill" ∧ w.hasDrill_ = true)

/-- The recognized attribute names whose field is already set on a rectangle. -/
def Rectangle.IsSet (w : Rectangle) (n : String) : Prop :=
  (n = "layer" ∧ w.hasLayer_ = true) ∨ (n = "width" ∧ w.hasWidth_ = true) ∨
  (n = "x1" ∧ w.hasX1_ = true) ∨ (n = "y1" ∧ w.hasY1_ = true) ∨
  (n = "x2" ∧ w.hasX2_ = true) ∨ (n = "y2" ∧ w.hasY2_ = true) ∨
  (n = "rot" ∧ w.hasRotation_ = true)

/-- The recognized attribute names whose field is already set on a text. -/
def Text.IsSet (w : Text) (n : String) : Prop :=
  (n = "layer" ∧ w.hasLayer_ = true) ∨ (n = "x" ∧ w.hasX_ = true) ∨
  (n = "y" ∧ w.hasY_ = true) ∨ (n = "rot" ∧ w.hasRotation_ = true) ∨
  (n = "size" ∧ w.hasSize_ = true) ∨ (n = "ratio" ∧ w.hasRatio_ = true)

/-- Facts that hold between the start and the end of a `description` element:
the flags, the language of the in-progress text and whether it has received
its string, and the description of the package under construction. -/
structure SAXHandler.InDescription (h : SAXHandler) (language : Language)
    (description : String) (hasString : Bool) : Prop where
  description_open : h.isDefiningDescription_ = true
  text_closed : h.isDefiningText_ = false
  note_closed : h.isDefiningNote_ = false
  packages_open : h.isDefiningPackages_ = true
  package_open : h.isDefiningPackage_ = true
  text : ∃ t, h.currentText_ = Ptr.live t ∧ t.language_ = language ∧ t.hasString_ = hasString
  package : ∃ p, h.currentPackage_ = some p ∧ p.description_ = description

/-- Facts that hold in every state the handler can reach. -/
structure SAXHandler.Inv (h : SAXHandler) : Prop where
  package_iff : h.isDefiningPackage_ = h.currentPackage_.isSome
  package_packages : h.isDefiningPackage_ = true → h.isDefiningPackages_ = true
  text_live : h.isDefiningText_ = true → ∃ t, h.currentText_ = Ptr.live t
  description_live : h.isDefiningDescription_ = true → ∃ t, h.currentText_ = Ptr.live t
  plain_board : h.isDefiningPlain_ = true → h.isDefiningBoard_ = true
  text_description : h.isDefiningText_ = true → h.isDefiningDescription_ = false
  layers_board : h.isDefiningLayers_ = true → h.isDefiningBoard_ = false

/-! # Theorems -/

/-! ## Each `tryHandleAttribute` as a chain of name tests -/

/-- Member `Pose::tryHandleAttribute` as one chain of name tests -/
theorem Pose.tryHandleAttribute_eq_pose (c : Libc) (p : Pose) (a : Attribute) :
    Pose.tryHandleAttribute c p a =
      if "layer" = a.name then
        if p.hasLayer_ then none else some (true, { p with layer_ := toUnsigned (c.atoi a.value), hasLayer_ := true })
      else
      if "x" = a.name then
        if p.hasX_ then none else some (true, { p with x_ := Millimeters.mk (c.atof a.value), hasX_ := true })
      else
      if "y" = a.name then
        if p.hasY_ then none else some (true, { p with y_ := c.atof a.value, hasY_ := true })
      else
      if "rot" = a.name then
        if p.hasRotation_ then none else some (true, { p with rotationDegrees_ := c.atof a.value, hasRotation_ := true })
      else
      some (false, p) := by
  unfold Pose.tryHandleAttribute InLayer.tryHandleAttribute
  simp only [Attribute.getName, Attribute.getValue, LAYER, X, Y, ROTATION]
  by_cases h1 : "layer" = a.name
  · cases hf : p.hasLayer_ <;> simp [← h1, hf]
  by_cases h2 : "x" = a.name
  · cases hf : p.hasX_ <;> simp [← h2, hf]
  by_cases h3 : "y" = a.name
  · cases hf : p.hasY_ <;> simp [← h3, hf]
  by_cases h4 : "rot" = a.name
  · cases hf : p.hasRotation_ <;> simp [← h4, hf]
  simp [h1, h2, h3, h4]

/-- Member `Text::tryHandleAttribute` as one chain of name tests. -/
theorem Text.tryHandleAttribute_eq_text (c : Libc) (t : Text) (a : Attribute) :
    Text.tryHandleAttribute c t a =
      if "layer" = a.name then
        if t.hasLayer_ then none
        else some (true, { t with layer_ := toUnsigned (c.atoi a.value), hasLayer_ := true }, [])
      else
      if "x" = a.name then
        if t.hasX_ then none
        else some (true, { t with x_ := Millimeters.mk (c.atof a.value), hasX_ := true }, [])
      else
      if "y" = a.name then
        if t.hasY_ then none else some (true, { t with y_ := c.atof a.value, hasY_ := true }, [])
      else
      if "rot" = a.name then
        if t.hasRotation_ then none
        else some (true, { t with rotationDegrees_ := c.atof a.value, hasRotation_ := true }, [])
      else
      if "size" = a.name then
        if t.hasSize_ then none
        else some (true, { t with size_ := c.atof a.value, hasSize_ := true }, [])
      else
      if "ratio" = a.name then
        if t.hasRatio_ then none
        else some (true, { t with ratio_ := c.atof a.value, hasRatio_ := true }, [])
      else
      if "language" = a.name then
        if "en" = a.value then some (true, { t with language_ := Language.ENGLISH }, [])
        else if "de" = a.value then some (true, { t with language_ := Language.GERMAN }, [])
        else some (true, t, ["WARN unknown language type '" ++ a.value ++ "'"])
      else
      if "font" = a.name ∨ "align" = a.name then some (true, t, [])
      else some (false, t, []) := by
  unfold Text.tryHandleAttribute
  rw [Pose.tryHandleAttribute_eq_pose]
  simp only [Attribute.getName, Attribute.getValue, SIZE, RATIO, LANGUAGE, FONT, ALIGN, EN, DE]
  by_cases h1 : "layer" = a.name
  · cases hf : t.hasLayer_ <;> simp [← h1, hf]
  by_cases h2 : "x" = a.name
  · cases hf : t.hasX_ <;> simp [← h2, hf]
  by_cases h3 : "y" = a.name
  · cases hf : t.hasY_ <;> simp [← h3, hf]
  by_cases h4 : "rot" = a.name
  · cases hf : t.hasRotation_ <;> simp [← h4, hf]
  by_cases h5 : "size" = a.name
  · cases hf : t.hasSize_ <;> simp [← h5, hf]
  by_cases h6 : "ratio" = a.name
  · cases hf : t.hasRatio_ <;> simp [← h6, hf]
  simp [h1, h2, h3, h4, h5, h6]

/-- Member `Hole::tryHandleAttribute` as one chain of name tests -/
theorem Hole.tryHandleAttribute_eq_hole (c : Libc) (h : Hole) (a : Attribute) :
    Hole.tryHandleAttribute c h a =
      if "layer" = a.name then
        if h.hasLayer_ then none else some (true, { h with layer_ := toUnsigned (c.atoi a.value), hasLayer_ := true })
      else
      if "x" = a.name then
        if h.hasX_ then none else some (true, { h with x_ := Millimeters.mk (c.atof a.value), hasX_ := true })
      else
      if "y" = a.name then
        if h.hasY_ then none else some (true, { h with y_ := c.atof a.value, hasY_ := true })
      else
      if "rot" = a.name then
        if h.hasRotation_ then none else some (true, { h with rotationDegrees_ := c.atof a.value, hasRotation_ := true })
      else
      if "drill" = a.name then
        if h.hasDrill_ then none else some (true, { h with drill_ := c.atof a.value, hasDrill_ := true })
      else
      some (false, h) := by
  unfold Hole.tryHandleAttribute
  rw [Pose.tryHandleAttribute_eq_pose]
  simp only [Attribute.getName, Attribute.getValue, DRILL]
  by_cases h1 : "layer" = a.name
  · cases hf : h.hasLayer_ <;> simp [← h1, hf]
  by_cases h2 : "x" = a.name
  · cases hf : h.hasX_ <;> simp [← h2, hf]
  by_cases h3 : "y" = a.name
  · cases hf : h.hasY_ <;> simp [← h3, hf]
  by_cases h4 : "rot" = a.name
  · cases hf : h.hasRotation_ <;> simp [← h4, hf]
  by_cases h5 : "drill" = a.name
  · cases hf : h.hasDrill_ <;> simp [← h5, hf]
  simp [h1, h2, h3, h4, h5]

/-- Member `EndPoints::tryHandleAttribute` as one chain of name tests -/
theorem EndPoints.tryHandleAttribute_eq_endpoints (c : Libc) (e : EndPoints) (a : Attribute) :
    EndPoints.tryHandleAttribute c e a =
      if "layer" = a.name then
        if e.hasLayer_ then none else some (true, { e with layer_ := toUnsigned (c.atoi a.value), hasLayer_ := true })
      else
      if "width" = a.name then
        if e.hasWidth_ then none else some (true, { e with width_ := c.atof a.value, hasWidth_ := true })
      else
      if "x1" = a.name then
        if e.hasX1_ then none else some (true, { e with x1_ := c.atof a.value, hasX1_ := true })
      else
      if "y1" = a.name then
        if e.hasY1_ then none else some (true, { e with y1_ := c.atof a.value, hasY1_ := true })
      else
      if "x2" = a.name then
        if e.hasX2_ then none else some (true, { e with x2_ := c.atof a.value, hasX2_ := true })
      else
      if "y2" = a.name then
        if e.hasY2_ then none else some (true, { e with y2_ := c.atof a.value, hasY2_ := true })
      else
      some (false, e) := by
  unfold EndPoints.tryHandleAttribute InLayer.tryHandleAttribute HasWidth.tryHandleAttribute
  simp only [Attribute.getName, Attribute.getValue, LAYER, WIDTH, X1, Y1, X2, Y2]
  by_cases h1 : "layer" = a.name
  · cases hf : e.hasLayer_ <;> simp [← h1, hf]
  by_cases h2 : "width" = a.name
  · cases hf : e.hasWidth_ <;> simp [← h2, hf]
  by_cases h3 : "x1" = a.name
  · cases hf : e.hasX1_ <;> simp [← h3, hf]
  by_cases h4 : "y1" = a.name
  · cases hf : e.hasY1_ <;> simp [← h4, hf]
  by_cases h5 : "x2" = a.name
  · cases hf : e.hasX2_ <;> simp [← h5, hf]
  by_cases h6 : "y2" = a.name
  · cases hf : e.hasY2_ <;> simp [← h6, hf]
  simp [h1, h2, h3, h4, h5, h6]

/-- Member `Wire::tryHandleAttribute` as one chain of name tests -/
theorem Wire.tryHandleAttribute_eq_wire (c : Libc) (w : Wire) (a : Attribute) :
    Wire.tryHandleAttribute c w a =
      if "layer" = a.name then
        if w.hasLayer_ then none else some (true, { w with layer_ := toUnsigned (c.atoi a.value), hasLayer_ := true })
      else
      if "width" = a.name then
        if w.hasWidth_ then none else some (true, { w with width_ := c.atof a.value, hasWidth_ := true })
      else
      if "x1" = a.name then
        if w.hasX1_ then none else some (true, { w with x1_ := c.atof a.value, hasX1_ := true })
      else
      if "y1" = a.name then
        if w.hasY1_ then none else some (true, { w with y1_ := c.atof a.value, hasY1_ := true })
      else
      if "x2" = a.name then
        if w.hasX2_ then none else some (true, { w with x2_ := c.atof a.value, hasX2_ := true })
      else
      if "y2" = a.name then
        if w.hasY2_ then none else some (true, { w with y2_ := c.atof a.value, hasY2_ := true })
      else
      if "curve" = a.name then
        if w.hasCurve_ then none else some (true, { w with curve_ := c.atof a.value, hasCurve_ := true })
      else
      some (false, w) := by
  unfold Wire.tryHandleAttribute
  rw [EndPoints.tryHandleAttribute_eq_endpoints]
  simp only [Attribute.getName, Attribute.getValue, CURVE]
  by_cases h1 : "layer" = a.name
  · cases hf : w.hasLayer_ <;> simp [← h1, hf]
  by_cases h2 : "width" = a.name
  · cases hf : w.hasWidth_ <;> simp [← h2, hf]
  by_cases h3 : "x1" = a.name
  · cases hf : w.hasX1_ <;> simp [← h3, hf]
  by_cases h4 : "y1" = a.name
  · cases hf : w.hasY1_ <;> simp [← h4, hf]
  by_cases h5 : "x2" = a.name
  · cases hf : w.hasX2_ <;> simp [← h5, hf]
  by_cases h6 : "y2" = a.name
  · cases hf : w.hasY2_ <;> simp [← h6, hf]
  by_cases h7 : "curve" = a.name
  · cases hf : w.hasCurve_ <;> simp [← h7, hf]
  simp [h1, h2, h3, h4, h5, h6, h7]

/-- Member `Rectangle::tryHandleAttribute` as one chain of name tests -/
theorem Rectangle.tryHandleAttribute_eq_rectangle (c : Libc) (r : Rectangle) (a : Attribute) :
    Rectangle.tryHandleAttribute c r a =
      if "layer" = a.name then
        if r.hasLayer_ then none else some (true, { r with layer_ := toUnsigned (c.atoi a.value), hasLayer_ := true })
      else
      if "width" = a.name then
        if r.hasWidth_ then none else some (true, { r with width_ := c.atof a.value, hasWidth_ := true })
      else
      if "x1" = a.name then
        if r.hasX1_ then none else some (true, { r with x1_ := c.atof a.value, hasX1_ := true })
      else
      if "y1" = a.name then
        if r.hasY1_ then none else some (true, { r with y1_ := c.atof a.value, hasY1_ := true })
      else
      if "x2" = a.name then
        if r.hasX2_ then none else some (true, { r with x2_ := c.atof a.value, hasX2_ := true })
      else
      if "y2" = a.name then
        if r.hasY2_ then none else some (true, { r with y2_ := c.atof a.value, hasY2_ := true })
      else
      if "rot" = a.name then
        if r.hasRotation_ then none else some (true, { r with rotationDegrees_ := c.atof a.value, hasRotation_ := true })
      else
      some (false, r) := by
  unfold Rectangle.tryHandleAttribute
  rw [EndPoints.tryHandleAttribute_eq_endpoints]
  simp only [Attribute.getName, Attribute.getValue, ROTATION]
  by_cases h1 : "layer" = a.name
  · cases hf : r.hasLayer_ <;> simp [← h1, hf]
  by_cases h2 : "width" = a.name
  · cases hf : r.hasWidth_ <;> simp [← h2, hf]
  by_cases h3 : "x1" = a.name
  · cases hf : r.hasX1_ <;> simp [← h3, hf]
  by_cases h4 : "y1" = a.name
  · cases hf : r.hasY1_ <;> simp [← h4, hf]
  by_cases h5 : "x2" = a.name
  · cases hf : r.hasX2_ <;> simp [← h5, hf]
  by_cases h6 : "y2" = a.name
  · cases hf : r.hasY2_ <;> simp [← h6, hf]
  by_cases h7 : "rot" = a.name
  · cases hf : r.hasRotation_ <;> simp [← h7, hf]
  simp [h1, h2, h3, h4, h5, h6, h7]

/-- Member `Circle::tryHandleAttribute` as one chain of name tests -/
theorem Circle.tryHandleAttribute_eq_circle (c : Libc) (o : Circle) (a : Attribute) :
    Circle.tryHandleAttribute c o a =
      if "layer" = a.name then
        if o.hasLayer_ then none else some (true, { o with layer_ := toUnsigned (c.atoi a.value), hasLayer_ := true })
      else
      if "x" = a.name then
        if o.hasX_ then none else some (true, { o with x_ := Millimeters.mk (c.atof a.value), hasX_ := true })
      else
      if "y" = a.name then
        if o.hasY_ then none else some (true, { o with y_ := c.atof a.value, hasY_ := true })
      else
      if "rot" = a.name then
        if o.hasRotation_ then none else some (true, { o with rotationDegrees_ := c.atof a.value, hasRotation_ := true })
      else
      if "width" = a.name then
        if o.hasWidth_ then none else some (true, { o with width_ := c.atof a.value, hasWidth_ := true })
      else
      if "radius" = a.name then
        if o.hasRadius_ then none else some (true, { o with radius_ := c.atof a.value, hasRadius_ := true })
      else
      some (false, o) := by
  unfold Circle.tryHandleAttribute HasWidth.tryHandleAttribute
  rw [Pose.tryHandleAttribute_eq_pose]
  simp only [Attribute.getName, Attribute.getValue, WIDTH, RADIUS]
  by_cases h1 : "layer" = a.name
  · cases hf : o.hasLayer_ <;> simp [← h1, hf]
  by_cases h2 : "x" = a.name
  · cases hf : o.hasX_ <;> simp [← h2, hf]
  by_cases h3 : "y" = a.name
  · cases hf : o.hasY_ <;> simp [← h3, hf]
  by_cases h4 : "rot" = a.name
  · cases hf : o.hasRotation_ <;> simp [← h4, hf]
  by_cases h5 : "width" = a.name
  · cases hf : o.hasWidth_ <;> simp [← h5, hf]
  by_cases h6 : "radius" = a.name
  · cases hf : o.hasRadius_ <;> simp [← h6, hf]
  simp [h1, h2, h3, h4, h5, h6]

/-! ## The attribute loops run to their end on lists without repeated names -/

/-- A failing call names an attribute whose field is already set. -/
theorem Wire.isSet_of_none_wire (c : Libc) (w : Wire) (a : Attribute)
    (h : Wire.tryHandleAttribute c w a = none) : w.IsSet a.name := by
  rw [Wire.tryHandleAttribute_eq_wire] at h
  obtain ⟨m, v⟩ := a
  simp only at h
  by_cases h1 : "layer" = m
  · rw [if_pos h1] at h
    by_cases f : w.hasLayer_ = true
    · subst h1
      simp [Wire.IsSet, f]
    · rw [if_neg f] at h
      cases h
  rw [if_neg h1] at h
  by_cases h2 : "width" = m
  · rw [if_pos h2] at h
    by_cases f : w.hasWidth_ = true
    · subst h2
      simp [Wire.IsSet, f]
    · rw [if_neg f] at h
      cases h
  rw [if_neg h2] at h
  by_cases h3 : "x1" = m
  · rw [if_pos h3] at h
    by_cases f : w.hasX1_ = true
    · subst h3
      simp [Wire.IsSet, f]
    · rw [if_neg f] at h
      cases h
  rw [if_neg h3] at h
  by_cases h4 : "y1" = m
  · rw [if_pos h4] at h
    by_cases f : w.hasY1_ = true
    · subst h4
      simp [Wire.IsSet, f]
    · rw [if_neg f] at h
      cases h
  rw [if_neg h4] at h
  by_cases h5 : "x2" = m
  · rw [if_pos h5] at h
    by_cases f : w.hasX2_ = true
    · subst h5
      simp [Wire.IsSet, f]
    · rw [if_neg f] at h
      cases h
  rw [if_neg h5] at h
  by_cases h6 : "y2" = m
  · rw [if_pos h6] at h
    by_cases f : w.hasY2_ = true
    · subst h6
      simp [Wire.IsSet, f]
    · rw [if_neg f] at h
      cases h
  rw [if_neg h6] at h
  by_cases h7 : "curve" = m
  · rw [if_pos h7] at h
    by_cases f : w.hasCurve_ = true
    · subst h7
      simp [Wire.IsSet, f]
    · rw [if_neg f] at h
      cases h
  rw [if_neg h7] at h
  cases h

/-- A call sets at most the field named by its attribute. -/
theorem Wire.isSet_of_some_wire (c : Libc) (w w' : Wire) (a : Attribute)
    (r : Bool) (h : Wire.tryHandleAttribute c w a = some (r, w')) (n : String)
    (hn : w'.IsSet n) : w.IsSet n ∨ n = a.name := by
  rw [Wire.tryHandleAttribute_eq_wire] at h
  obtain ⟨m, v⟩ := a
  simp only at h
  by_cases h1 : "layer" = m
  · rw [if_pos h1] at h
    by_cases f : w.hasLayer_ = true
    · rw [if_pos f] at h
      cases h
    · rw [if_neg f] at h
      cases h
      subst h1
      simp only [Wire.IsSet] at hn ⊢
      rcases hn with ⟨rfl, hf⟩ | ⟨rfl, hf⟩ | ⟨rfl, hf⟩ | ⟨rfl, hf⟩ | ⟨rfl, hf⟩ | ⟨rfl, hf⟩ | ⟨rfl, hf⟩ <;>
        simp [hf]
  rw [if_neg h1] at h
  by_cases h2 : "width" = m
  · rw [if_pos h2] at h
    by_cases f : w.hasWidth_ = true
    · rw [if_pos f] at h
      cases h
    · rw [if_neg f] at h
      cases h
      subst h2
      simp only [Wire.IsSet] at hn ⊢
      rcases hn with ⟨rfl, hf⟩ | ⟨rfl, hf⟩ | ⟨rfl, hf⟩ | ⟨rfl, hf⟩ | ⟨rfl, hf⟩ | ⟨rfl, hf⟩ | ⟨rfl, hf⟩ <;>
        simp [hf]
  rw [if_neg h2] at h
  by_cases h3 : "x1" = m
  · rw [if_pos h3] at h
    by_cases f : w.hasX1_ = true
    · rw [if_pos f] at h
      cases h
    · rw [if_neg f] at h
      cases h
      subst h3
      simp only [Wire.IsSet] at hn ⊢
      rcases hn with ⟨rfl, hf⟩ | ⟨rfl, hf⟩ | ⟨rfl, hf⟩ | ⟨rfl, hf⟩ | ⟨rfl, hf⟩ | ⟨rfl, hf⟩ | ⟨rfl, hf⟩ <;>
        simp [hf]
  rw [if_neg h3] at h
  by_cases h4 : "y1" = m
  · rw [if_pos h4] at h
    by_cases f : w.hasY1_ = true
    · rw [if_pos f] at h
      cases h
    · rw [if_neg f] at h
      cases h
      subst h4
      simp only [Wire.IsSet] at hn ⊢
      rcases hn with ⟨rfl, hf⟩ | ⟨rfl, hf⟩ | ⟨rfl, hf⟩ | ⟨rfl, hf⟩ | ⟨rfl, hf⟩ | ⟨rfl, hf⟩ | ⟨rfl, hf⟩ <;>
        simp [hf]
  rw [if_neg h4] at h
  by_cases h5 : "x2" = m
  · rw [if_pos h5] at h
    by_cases f : w.hasX2_ = true
    · rw [if_pos f] at h
      cases h
    · rw [if_neg f] at h
      cases h
      subst h5
      simp only [Wire.IsSet] at hn ⊢
      rcases hn with ⟨rfl, hf⟩ | ⟨rfl, hf⟩ | ⟨rfl, hf⟩ | ⟨rfl, hf⟩ | ⟨rfl, hf⟩ | ⟨rfl, hf⟩ | ⟨rfl, hf⟩ <;>
        simp [hf]
  rw [if_neg h5] at h
  by_cases h6 : "y2" = m
  · rw [if_pos h6] at h
    by_cases f : w.hasY2_ = true
    · rw [if_pos f] at h
      cases h
    · rw [if_neg f] at h
      cases h
      subst h6
      simp only [Wire.IsSet] at hn ⊢
      rcases hn with ⟨rfl, hf⟩ | ⟨rfl, hf⟩ | ⟨rfl, hf⟩ | ⟨rfl, hf⟩ | ⟨rfl, hf⟩ | ⟨rfl, hf⟩ | ⟨rfl, hf⟩ <;>
        simp [hf]
  rw [if_neg h6] at h
  by_cases h7 : "curve" = m
  · rw [if_pos h7] at h
    by_cases f : w.hasCurve_ = true
    · rw [if_pos f] at h
      cases h
    · rw [if_neg f] at h
      cases h
      subst h7
      simp only [Wire.IsSet] at hn ⊢
      rcases hn with ⟨rfl, hf⟩ | ⟨rfl, hf⟩ | ⟨rfl, hf⟩ | ⟨rfl, hf⟩ | ⟨rfl, hf⟩ | ⟨rfl, hf⟩ | ⟨rfl, hf⟩ <;>
        simp [hf]
  rw [if_neg h7] at h
  cases h
  exact Or.inl hn

/-- The attribute loop runs to its end when no name occurs twice and no
field named in the list is set beforehand. -/
theorem SAXHandler.wireAttributes_isSome (c : Libc) (attrs : AttributeList) :
    ∀ w : Wire, (∀ n, w.IsSet n → n ∉ attrs.map Attribute.name) →
      (attrs.map Attribute.name).Nodup →
      ∃ r, SAXHandler.wireAttributes c w attrs = some r := by
  induction attrs with
  | nil => intro w _ _; exact ⟨_, rfl⟩
  | cons a rest ih =>
    intro w hset hnd
    simp only [List.map_cons, List.nodup_cons] at hnd
    cases htry : Wire.tryHandleAttribute c w a with
    | none =>
      exact absurd (List.mem_cons_self _ _)
        (hset _ (Wire.isSet_of_none_wire c w a htry))
    | some res =>
      obtain ⟨r, w'⟩ := res
      have hrest : ∀ n, w'.IsSet n → n ∉ rest.map Attribute.name := by
        intro n hn
        rcases Wire.isSet_of_some_wire c w w' a r htry n hn with h | h
        · exact fun hmem => hset n h (List.mem_cons_of_mem _ hmem)
        · rw [h]; exact hnd.1
      obtain ⟨res, hres⟩ := ih w' hrest hnd.2
      cases r <;> simp [SAXHandler.wireAttributes, htry, hres]

/-- A failing call names an attribute whose field is already set. -/
theorem Hole.isSet_of_none_hole (c : Libc) (w : Hole) (a : Attribute)
    (h : Hole.tryHandleAttribute c w a = none) : w.IsSet a.name := by
  rw [Hole.tryHandleAttribute_eq_hole] at h
  obtain ⟨m, v⟩ := a
  simp only at h
  by_cases h1 : "layer" = m
  · rw [if_pos h1] at h
    by_cases f : w.hasLayer_ = true
    · subst h1
      simp [Hole.IsSet, f]
    · rw [if_neg f] at h
      cases h
  rw [if_neg h1] at h
  by_cases h2 : "x" = m
  · rw [if_pos h2] at h
    by_cases f : w.hasX_ = true
    · subst h2
      simp [Hole.IsSet, f]
    · rw [if_neg f] at h
      cases h
  rw [if_neg h2] at h
  by_cases h3 : "y" = m
  · rw [if_pos h3] at h
    by_cases f : w.hasY_ = true
    · subst h3
      simp [Hole.IsSet, f]
    · rw [if_neg f] at h
      cases h
  rw [if_neg h3] at h
  by_cases h4 : "rot" = m
  · rw [if_pos h4] at h
    by_cases f : w.hasRotation_ = true
    · subst h4
      simp [Hole.IsSet, f]
    · rw [if_neg f] at h
      cases h
  rw [if_neg h4] at h
  by_cases h5 : "drill" = m
  · rw [if_pos h5] at h
    by_cases f : w.hasDrill_ = true
    · subst h5
      simp [Hole.IsSet, f]
    · rw [if_neg f] at h
      cases h
  rw [if_neg h5] at h
  cases h

/-- A call sets at most the field named by its attribute. -/
theorem Hole.isSet_of_some_hole (c : Libc) (w w' : Hole) (a : Attribute)
    (r : Bool) (h : Hole.tryHandleAttribute c w a = some (r, w')) (n : String)
    (hn : w'.IsSet n) : w.IsSet n ∨ n = a.name := by
  rw [Hole.tryHandleAttribute_eq_hole] at h
  obtain ⟨m, v⟩ := a
  simp only at h
  by_cases h1 : "layer" = m
  · rw [if_pos h1] at h
    by_cases f : w.hasLayer_ = true
    · rw [if_pos f] at h
      cases h
    · rw [if_neg f] at h
      cases h
      subst h1
      simp only [Hole.IsSet] at hn ⊢
      rcases hn with ⟨rfl, hf⟩ | ⟨rfl, hf⟩ | ⟨rfl, hf⟩ | ⟨rfl, hf⟩ | ⟨rfl, hf⟩ <;>
        simp [hf]
  rw [if_neg h1] at h
  by_cases h2 : "x" = m
  · rw [if_pos h2] at h
    by_cases f : w.hasX_ = true
    · rw [if_pos f] at h
      cases h
    · rw [if_neg f] at h
      cases h
      subst h2
      simp only [Hole.IsSet] at hn ⊢
      rcases hn with ⟨rfl, hf⟩ | ⟨rfl, hf⟩ | ⟨rfl, hf⟩ | ⟨rfl, hf⟩ | ⟨rfl, hf⟩ <;>
        simp [hf]
  rw [if_neg h2] at h
  by_cases h3 : "y" = m
  · rw [if_pos h3] at h
    by_cases f : w.hasY_ = true
    · rw [if_pos f] at h
      cases h
    · rw [if_neg f] at h
      cases h
      subst h3
      simp only [Hole.IsSet] at hn ⊢
      rcases hn with ⟨rfl, hf⟩ | ⟨rfl, hf⟩ | ⟨rfl, hf⟩ | ⟨rfl, hf⟩ | ⟨rfl, hf⟩ <;>
        simp [hf]
  rw [if_neg h3] at h
  by_cases h4 : "rot" = m
  · rw [if_pos h4] at h
    by_cases f : w.hasRotation_ = true
    · rw [if_pos f] at h
      cases h
    · rw [if_neg f] at h
      cases h
      subst h4
      simp only [Hole.IsSet] at hn ⊢
      rcases hn with ⟨rfl, hf⟩ | ⟨rfl, hf⟩ | ⟨rfl, hf⟩ | ⟨rfl, hf⟩ | ⟨rfl, hf⟩ <;>
        simp [hf]
  rw [if_neg h4] at h
  by_cases h5 : "drill" = m
  · rw [if_pos h5] at h
    by_cases f : w.hasDrill_ = true
    · rw [if_pos f] at h
      cases h
    · rw [if_neg f] at h
      cases h
      subst h5
      simp only [Hole.IsSet] at hn ⊢
      rcases hn with ⟨rfl, hf⟩ | ⟨rfl, hf⟩ | ⟨rfl, hf⟩ | ⟨rfl, hf⟩ | ⟨rfl, hf⟩ <;>
        simp [hf]
  rw [if_neg h5] at h
  cases h
  exact Or.inl hn

/-- The attribute loop runs to its end when no name occurs twice and no
field named in the list is set beforehand. -/
theorem SAXHandler.holeAttributes_isSome (c : Libc) (attrs : AttributeList) :
    ∀ w : Hole, (∀ n, w.IsSet n → n ∉ attrs.map Attribute.name) →
      (attrs.map Attribute.name).Nodup →
      ∃ r, SAXHandler.holeAttributes c w attrs = some r := by
  induction attrs with
  | nil => intro w _ _; exact ⟨_, rfl⟩
  | cons a rest ih =>
    intro w hset hnd
    simp only [List.map_cons, List.nodup_cons] at hnd
    cases htry : Hole.tryHandleAttribute c w a with
    | none =>
      exact absurd (List.mem_cons_self _ _)
        (hset _ (Hole.isSet_of_none_hole c w a htry))
    | some res =>
      obtain ⟨r, w'⟩ := res
      have hrest : ∀ n, w'.IsSet n → n ∉ rest.map Attribute.name := by
        intro n hn
        rcases Hole.isSet_of_some_hole c w w' a r htry n hn with h | h
        · exact fun hmem => hset n h (List.mem_cons_of_mem _ hmem)
        · rw [h]; exact hnd.1
      obtain ⟨res, hres⟩ := ih w' hrest hnd.2
      cases r <;> simp [SAXHandler.holeAttributes, htry, hres]

/-- A failing call names an attribute whose field is already set. -/
theorem Rectangle.isSet_of_none_rectangle (c : Libc) (w : Rectangle) (a : Attribute)
    (h : Rectangle.tryHandleAttribute c w a = none) : w.IsSet a.name := by
  rw [Rectangle.tryHandleAttribute_eq_rectangle] at h
  obtain ⟨m, v⟩ := a
  simp only at h
  by_cases h1 : "layer" = m
  · rw [if_pos h1] at h
    by_cases f : w.hasLayer_ = true
    · subst h1
      simp [Rectangle.IsSet, f]
    · rw [if_neg f] at h
      cases h
  rw [if_neg h1] at h
  by_cases h2 : "width" = m
  · rw [if_pos h2] at h
    by_cases f : w.hasWidth_ = true
    · subst h2
      simp [Rectangle.IsSet, f]
    · rw [if_neg f] at h
      cases h
  rw [if_neg h2] at h
  by_cases h3 : "x1" = m
  · rw [if_pos h3] at h
    by_cases f : w.hasX1_ = true
    · subst h3
      simp [Rectangle.IsSet, f]
    · rw [if_neg f] at h
      cases h
  rw [if_neg h3] at h
  by_cases h4 : "y1" = m
  · rw [if_pos h4] at h
    by_cases f : w.hasY1_ = true
    · subst h4
      simp [Rectangle.IsSet, f]
    · rw [if_neg f] at h
      cases h
  rw [if_neg h4] at h
  by_cases h5 : "x2" = m
  · rw [if_pos h5] at h
    by_cases f : w.hasX2_ = true
    · subst h5
      simp [Rectangle.IsSet, f]
    · rw [if_neg f] at h
      cases h
  rw [if_neg h5] at h
  by_cases h6 : "y2" = m
  · rw [if_pos h6] at h
    by_cases f : w.hasY2_ = true
    · subst h6
      simp [Rectangle.IsSet, f]
    · rw [if_neg f] at h
      cases h
  rw [if_neg h6] at h
  by_cases h7 : "rot" = m
  · rw [if_pos h7] at h
    by_cases f : w.hasRotation_ = true
    · subst h7
      simp [Rectangle.IsSet, f]
    · rw [if_neg f] at h
      cases h
  rw [if_neg h7] at h
  cases h

/-- A call sets at most the field named by its attribute. -/
theorem Rectangle.isSet_of_some_rectangle (c : Libc) (w w' : Rectangle) (a : Attribute)
    (r : Bool) (h : Rectangle.tryHandleAttribute c w a = some (r, w')) (n : String)
    (hn : w'.IsSet n) : w.IsSet n ∨ n = a.name := by
  rw [Rectangle.tryHandleAttribute_eq_rectangle] at h
  obtain ⟨m, v⟩ := a
  simp only at h
  by_cases h1 : "layer" = m
  · rw [if_pos h1] at h
    by_cases f : w.hasLayer_ = true
    · rw [if_pos f] at h
      cases h
    · rw [if_neg f] at h
      cases h
      subst h1
      simp only [Rectangle.IsSet] at hn ⊢
      rcases hn with ⟨rfl, hf⟩ | ⟨rfl, hf⟩ | ⟨rfl, hf⟩ | ⟨rfl, hf⟩ | ⟨rfl, hf⟩ | ⟨rfl, hf⟩ | ⟨rfl, hf⟩ <;>
        simp [hf]
  rw [if_neg h1] at h
  by_cases h2 : "width" = m
  · rw [if_pos h2] at h
    by_cases f : w.hasWidth_ = true
    · rw [if_pos f] at h
      cases h
    · rw [if_neg f] at h
      cases h
      subst h2
      simp only [Rectangle.IsSet] at hn ⊢
      rcases hn with ⟨rfl, hf⟩ | ⟨rfl, hf⟩ | ⟨rfl, hf⟩ | ⟨rfl, hf⟩ | ⟨rfl, hf⟩ | ⟨rfl, hf⟩ | ⟨rfl, hf⟩ <;>
        simp [hf]
  rw [if_neg h2] at h
  by_cases h3 : "x1" = m
  · rw [if_pos h3] at h
    by_cases f : w.hasX1_ = true
    · rw [if_pos f] at h
      cases h
    · rw [if_neg f] at h
      cases h
      subst h3
      simp only [Rectangle.IsSet] at hn ⊢
      rcases hn with ⟨rfl, hf⟩ | ⟨rfl, hf⟩ | ⟨rfl, hf⟩ | ⟨rfl, hf⟩ | ⟨rfl, hf⟩ | ⟨rfl, hf⟩ | ⟨rfl, hf⟩ <;>
        simp [hf]
  rw [if_neg h3] at h
  by_cases h4 : "y1" = m
  · rw [if_pos h4] at h
    by_cases f : w.hasY1_ = true
    · rw [if_pos f] at h
      cases h
    · rw [if_neg f] at h
      cases h
      subst h4
      simp only [Rectangle.IsSet] at hn ⊢
      rcases hn with ⟨rfl, hf⟩ | ⟨rfl, hf⟩ | ⟨rfl, hf⟩ | ⟨rfl, hf⟩ | ⟨rfl, hf⟩ | ⟨rfl, hf⟩ | ⟨rfl, hf⟩ <;>
        simp [hf]
  rw [if_neg h4] at h
  by_cases h5 : "x2" = m
  · rw [if_pos h5] at h
    by_cases f : w.hasX2_ = true
    · rw [if_pos f] at h
      cases h
    · rw [if_neg f] at h
      cases h
      subst h5
      simp only [Rectangle.IsSet] at hn ⊢
      rcases hn with ⟨rfl, hf⟩ | ⟨rfl, hf⟩ | ⟨rfl, hf⟩ | ⟨rfl, hf⟩ | ⟨rfl, hf⟩ | ⟨rfl, hf⟩ | ⟨rfl, hf⟩ <;>
        simp [hf]
  rw [if_neg h5] at h
  by_cases h6 : "y2" = m
  · rw [if_pos h6] at h
    by_cases f : w.hasY2_ = true
    · rw [if_pos f] at h
      cases h
    · rw [if_neg f] at h
      cases h
      subst h6
      simp only [Rectangle.IsSet] at hn ⊢
      rcases hn with ⟨rfl, hf⟩ | ⟨rfl, hf⟩ | ⟨rfl, hf⟩ | ⟨rfl, hf⟩ | ⟨rfl, hf⟩ | ⟨rfl, hf⟩ | ⟨rfl, hf⟩ <;>
        simp [hf]
  rw [if_neg h6] at h
  by_cases h7 : "rot" = m
  · rw [if_pos h7] at h
    by_cases f : w.hasRotation_ = true
    · rw [if_pos f] at h
      cases h
    · rw [if_neg f] at h
      cases h
      subst h7
      simp only [Rectangle.IsSet] at hn ⊢
      rcases hn with ⟨rfl, hf⟩ | ⟨rfl, hf⟩ | ⟨rfl, hf⟩ | ⟨rfl, hf⟩ | ⟨rfl, hf⟩ | ⟨rfl, hf⟩ | ⟨rfl, hf⟩ <;>
        simp [hf]
  rw [if_neg h7] at h
  cases h
  exact Or.inl hn

/-- The attribute loop runs to its end when no name occurs twice and no
field named in the list is set beforehand. -/
theorem SAXHandler.rectangleAttributes_isSome (c : Libc) (attrs : AttributeList) :
    ∀ w : Rectangle, (∀ n, w.IsSet n → n ∉ attrs.map Attribute.name) →
      (attrs.map Attribute.name).Nodup →
      ∃ r, SAXHandler.rectangleAttributes c w attrs = some r := by
  induction attrs with
  | nil => intro w _ _; exact ⟨_, rfl⟩
  | cons a rest ih =>
    intro w hset hnd
    simp only [List.map_cons, List.nodup_cons] at hnd
    cases htry : Rectangle.tryHandleAttribute c w a with
    | none =>
      exact absurd (List.mem_cons_self _ _)
        (hset _ (Rectangle.isSet_of_none_rectangle c w a htry))
    | some res =>
      obtain ⟨r, w'⟩ := res
      have hrest : ∀ n, w'.IsSet n → n ∉ rest.map Attribute.name := by
        intro n hn
        rcases Rectangle.isSet_of_some_rectangle c w w' a r htry n hn with h | h
        · exact fun hmem => hset n h (List.mem_cons_of_mem _ hmem)
        · rw [h]; exact hnd.1
      obtain ⟨res, hres⟩ := ih w' hrest hnd.2
      cases r <;> simp [SAXHandler.rectangleAttributes, htry, hres]

/-- A failing call names an attribute whose field is already set. -/
theorem Text.isSet_of_none_text (c : Libc) (w : Text) (a : Attribute)
    (h : Text.tryHandleAttribute c w a = none) : w.IsSet a.name := by
  rw [Text.tryHandleAttribute_eq_text] at h
  obtain ⟨m, v⟩ := a
  simp only at h
  by_cases h1 : "layer" = m
  · rw [if_pos h1] at h
    by_cases f : w.hasLayer_ = true
    · subst h1
      simp [Text.IsSet, f]
    · rw [if_neg f] at h
      cases h
  rw [if_neg h1] at h
  by_cases h2 : "x" = m
  · rw [if_pos h2] at h
    by_cases f : w.hasX_ = true
    · subst h2
      simp [Text.IsSet, f]
    · rw [if_neg f] at h
      cases h
  rw [if_neg h2] at h
  by_cases h3 : "y" = m
  · rw [if_pos h3] at h
    by_cases f : w.hasY_ = true
    · subst h3
      simp [Text.IsSet, f]
    · rw [if_neg f] at h
      cases h
  rw [if_neg h3] at h
  by_cases h4 : "rot" = m
  · rw [if_pos h4] at h
    by_cases f : w.hasRotation_ = true
    · subst h4
      simp [Text.IsSet, f]
    · rw [if_neg f] at h
      cases h
  rw [if_neg h4] at h
  by_cases h5 : "size" = m
  · rw [if_pos h5] at h
    by_cases f : w.hasSize_ = true
    · subst h5
      simp [Text.IsSet, f]
    · rw [if_neg f] at h
      cases h
  rw [if_neg h5] at h
  by_cases h6 : "ratio" = m
  · rw [if_pos h6] at h
    by_cases f : w.hasRatio_ = true
    · subst h6
      simp [Text.IsSet, f]
    · rw [if_neg f] at h
      cases h
  rw [if_neg h6] at h
  split_ifs at h

/-- A call sets at most the field named by its attribute. -/
theorem Text.isSet_of_some_text (c : Libc) (w w' : Text) (a : Attribute)
    (r : Bool) (out : List String) (h : Text.tryHandleAttribute c w a = some (r, w', out))
    (n : String) (hn : w'.IsSet n) : w.IsSet n ∨ n = a.name := by
  rw [Text.tryHandleAttribute_eq_text] at h
  obtain ⟨m, v⟩ := a
  simp only at h
  by_cases h1 : "layer" = m
  · rw [if_pos h1] at h
    by_cases f : w.hasLayer_ = true
    · rw [if_pos f] at h
      cases h
    · rw [if_neg f] at h
      cases h
      subst h1
      simp only [Text.IsSet] at hn ⊢
      rcases hn with ⟨rfl, hf⟩ | ⟨rfl, hf⟩ | ⟨rfl, hf⟩ | ⟨rfl, hf⟩ | ⟨rfl, hf⟩ | ⟨rfl, hf⟩ <;>
        simp [hf]
  rw [if_neg h1] at h
  by_cases h2 : "x" = m
  · rw [if_pos h2] at h
    by_cases f : w.hasX_ = true
    · rw [if_pos f] at h
      cases h
    · rw [if_neg f] at h
      cases h
      subst h2
      simp only [Text.IsSet] at hn ⊢
      rcases hn with ⟨rfl, hf⟩ | ⟨rfl, hf⟩ | ⟨rfl, hf⟩ | ⟨rfl, hf⟩ | ⟨rfl, hf⟩ | ⟨rfl, hf⟩ <;>
        simp [hf]
  rw [if_neg h2] at h
  by_cases h3 : "y" = m
  · rw [if_pos h3] at h
    by_cases f : w.hasY_ = true
    · rw [if_pos f] at h
      cases h
    · rw [if_neg f] at h
      cases h
      subst h3
      simp only [Text.IsSet] at hn ⊢
      rcases hn with ⟨rfl, hf⟩ | ⟨rfl, hf⟩ | ⟨rfl, hf⟩ | ⟨rfl, hf⟩ | ⟨rfl, hf⟩ | ⟨rfl, hf⟩ <;>
        simp [hf]
  rw [if_neg h3] at h
  by_cases h4 : "rot" = m
  · rw [if_pos h4] at h
    by_cases f : w.hasRotation_ = true
    · rw [if_pos f] at h
      cases h
    · rw [if_neg f] at h
      cases h
      subst h4
      simp only [Text.IsSet] at hn ⊢
      rcases hn with ⟨rfl, hf⟩ | ⟨rfl, hf⟩ | ⟨rfl, hf⟩ | ⟨rfl, hf⟩ | ⟨rfl, hf⟩ | ⟨rfl, hf⟩ <;>
        simp [hf]
  rw [if_neg h4] at h
  by_cases h5 : "size" = m
  · rw [if_pos h5] at h
    by_cases f : w.hasSize_ = true
    · rw [if_pos f] at h
      cases h
    · rw [if_neg f] at h
      cases h
      subst h5
      simp only [Text.IsSet] at hn ⊢
      rcases hn with ⟨rfl, hf⟩ | ⟨rfl, hf⟩ | ⟨rfl, hf⟩ | ⟨rfl, hf⟩ | ⟨rfl, hf⟩ | ⟨rfl, hf⟩ <;>
        simp [hf]
  rw [if_neg h5] at h
  by_cases h6 : "ratio" = m
  · rw [if_pos h6] at h
    by_cases f : w.hasRatio_ = true
    · rw [if_pos f] at h
      cases h
    · rw [if_neg f] at h
      cases h
      subst h6
      simp only [Text.IsSet] at hn ⊢
      rcases hn with ⟨rfl, hf⟩ | ⟨rfl, hf⟩ | ⟨rfl, hf⟩ | ⟨rfl, hf⟩ | ⟨rfl, hf⟩ | ⟨rfl, hf⟩ <;>
        simp [hf]
  rw [if_neg h6] at h
  split_ifs at h <;> cases h <;> exact Or.inl hn

/-- The attribute loop runs to its end when no name occurs twice and no
field named in the list is set beforehand. -/
theorem SAXHandler.textAttributes_isSome (c : Libc) (attrs : AttributeList) :
    ∀ w : Text, (∀ n, w.IsSet n → n ∉ attrs.map Attribute.name) →
      (attrs.map Attribute.name).Nodup →
      ∃ r, SAXHandler.textAttributes c w attrs = some r := by
  induction attrs with
  | nil => intro w _ _; exact ⟨_, rfl⟩
  | cons a rest ih =>
    intro w hset hnd
    simp only [List.map_cons, List.nodup_cons] at hnd
    cases htry : Text.tryHandleAttribute c w a with
    | none =>
      exact absurd (List.mem_cons_self _ _)
        (hset _ (Text.isSet_of_none_text c w a htry))
    | some res =>
      obtain ⟨r, w', out⟩ := res
      have hrest : ∀ n, w'.IsSet n → n ∉ rest.map Attribute.name := by
        intro n hn
        rcases Text.isSet_of_some_text c w w' a r out htry n hn with h | h
        · exact fun hmem => hset n h (List.mem_cons_of_mem _ hmem)
        · rw [h]; exact hnd.1
      obtain ⟨res, hres⟩ := ih w' hrest hnd.2
      cases r <;> simp [SAXHandler.textAttributes, htry, hres]

/-! ## Facts about reachable handler states -/

/-- A passing `assert` in front of a computation. -/
@[simp] theorem assert_bind_eq_some {β : Type} (b : Bool) (f : Unit → Option β) (y : β) :
    (assert b).bind f = some y ↔ b = true ∧ f () = some y := by
  cases b <;> simp [assert]

/-- A passing `assert`. -/
@[simp] theorem assert_eq_some (b : Bool) (u : Unit) : assert b = some u ↔ b = true := by
  cases b <;> simp [assert]

/-- Member `startElement` keeps the reachable-state facts. -/
theorem SAXHandler.startElement_inv (c : Libc) (h h' : SAXHandler) (name : String)
    (attrs : AttributeList) (hi : h.Inv)
    (hs : h.startElement c name attrs = some h') : h'.Inv := by
  unfold SAXHandler.startElement at hs
  obtain ⟨i1, i2, i3, i4, i5, i6, i7⟩ := hi
  by_cases h1 : "layers" = name
  · simp [← h1, LAYERS, BOARD, PLAIN, LAYER, TEXT, DESCRIPTION, NOTE, WIRE, HOLE, RECTANGLE, CIRCLE, PACKAGES, PACKAGE] at hs
    repeat (obtain ⟨hfact, hs⟩ := hs)
    try subst hs
    constructor <;> simp_all
  by_cases h2 : "board" = name
  · simp [← h2, LAYERS, BOARD, PLAIN, LAYER, TEXT, DESCRIPTION, NOTE, WIRE, HOLE, RECTANGLE, CIRCLE, PACKAGES, PACKAGE] at hs
    repeat (obtain ⟨hfact, hs⟩ := hs)
    try subst hs
    constructor <;> simp_all
  by_cases h3 : "plain" = name
  · simp [← h3, LAYERS, BOARD, PLAIN, LAYER, TEXT, DESCRIPTION, NOTE, WIRE, HOLE, RECTANGLE, CIRCLE, PACKAGES, PACKAGE] at hs
    repeat (obtain ⟨hfact, hs⟩ := hs)
    try subst hs
    constructor <;> simp_all
  by_cases h4 : "layer" = name
  · simp [← h4, LAYERS, BOARD, PLAIN, LAYER, TEXT, DESCRIPTION, NOTE, WIRE, HOLE, RECTANGLE, CIRCLE, PACKAGES, PACKAGE] at hs
    repeat (obtain ⟨hfact, hs⟩ := hs)
    try subst hs
    constructor <;> simp_all
  by_cases h5 : "text" = name
  · simp [← h5, LAYERS, BOARD, PLAIN, LAYER, TEXT, DESCRIPTION, NOTE, WIRE, HOLE, RECTANGLE, CIRCLE, PACKAGES, PACKAGE, SAXHandler.handleTextDefinition, SAXHandler.log, Ptr.isNonNull, Ptr.deref,
      Option.bind_eq_some] at hs
    repeat (obtain ⟨hfact, hs⟩ := hs)
    try subst hs
    constructor <;> simp_all
  by_cases h6 : "description" = name
  · simp [← h6, LAYERS, BOARD, PLAIN, LAYER, TEXT, DESCRIPTION, NOTE, WIRE, HOLE, RECTANGLE, CIRCLE, PACKAGES, PACKAGE, SAXHandler.handleTextDefinition, SAXHandler.log, Ptr.isNonNull, Ptr.deref,
      Option.bind_eq_some] at hs
    repeat (obtain ⟨hfact, hs⟩ := hs)
    try subst hs
    constructor <;> simp_all
  by_cases h7 : "note" = name
  · simp [← h7, LAYERS, BOARD, PLAIN, LAYER, TEXT, DESCRIPTION, NOTE, WIRE, HOLE, RECTANGLE, CIRCLE, PACKAGES, PACKAGE] at hs
    repeat (obtain ⟨hfact, hs⟩ := hs)
    try subst hs
    constructor <;> simp_all
  by_cases h8 : "wire" = name
  · simp [← h8, LAYERS, BOARD, PLAIN, LAYER, TEXT, DESCRIPTION, NOTE, WIRE, HOLE, RECTANGLE, CIRCLE, PACKAGES, PACKAGE, SAXHandler.handleWireDefinition, SAXHandler.log, Option.bind_eq_some] at hs
    obtain ⟨hl, w, out, hw, hs⟩ := hs
    split_ifs at hs <;> simp [Option.bind_eq_some] at hs <;>
      (repeat (obtain ⟨hfact, hs⟩ := hs)) <;> constructor <;> simp_all
  by_cases h9 : "hole" = name
  · simp [← h9, LAYERS, BOARD, PLAIN, LAYER, TEXT, DESCRIPTION, NOTE, WIRE, HOLE, RECTANGLE, CIRCLE, PACKAGES, PACKAGE, SAXHandler.handleHoleDefinition, SAXHandler.log, Option.bind_eq_some] at hs
    obtain ⟨hl, w, out, hw, hs⟩ := hs
    split_ifs at hs <;> simp [Option.bind_eq_some] at hs <;>
      (repeat (obtain ⟨hfact, hs⟩ := hs)) <;> constructor <;> simp_all
  by_cases h10 : "rectangle" = name
  · simp [← h10, LAYERS, BOARD, PLAIN, LAYER, TEXT, DESCRIPTION, NOTE, WIRE, HOLE, RECTANGLE, CIRCLE, PACKAGES, PACKAGE, SAXHandler.handleRectangleDefinition, SAXHandler.log, Option.bind_eq_some] at hs
    obtain ⟨hl, w, out, hw, hs⟩ := hs
    split_ifs at hs <;> simp [Option.bind_eq_some] at hs <;>
      (repeat (obtain ⟨hfact, hs⟩ := hs)) <;> constructor <;> simp_all
  by_cases h11 : "circle" = name
  · simp [← h11, LAYERS, BOARD, PLAIN, LAYER, TEXT, DESCRIPTION, NOTE, WIRE, HOLE, RECTANGLE, CIRCLE, PACKAGES, PACKAGE, SAXHandler.handleCircleDefinition, SAXHandler.log, Option.bind_eq_some] at hs
    repeat (obtain ⟨hfact, hs⟩ := hs)
    try subst hs
    constructor <;> simp_all
  by_cases h12 : "packages" = name
  · simp [← h12, LAYERS, BOARD, PLAIN, LAYER, TEXT, DESCRIPTION, NOTE, WIRE, HOLE, RECTANGLE, CIRCLE, PACKAGES, PACKAGE] at hs
    repeat (obtain ⟨hfact, hs⟩ := hs)
    try subst hs
    constructor <;> simp_all
  by_cases h13 : "package" = name
  · simp [← h13, LAYERS, BOARD, PLAIN, LAYER, TEXT, DESCRIPTION, NOTE, WIRE, HOLE, RECTANGLE, CIRCLE, PACKAGES, PACKAGE] at hs
    repeat (obtain ⟨hfact, hs⟩ := hs)
    try subst hs
    constructor <;> simp_all
  simp [LAYERS, BOARD, PLAIN, LAYER, TEXT, DESCRIPTION, NOTE, WIRE, HOLE, RECTANGLE, CIRCLE, PACKAGES, PACKAGE, h1, h2, h3, h4, h5, h6, h7, h8, h9, h10, h11, h12, h13] at hs
  subst hs
  constructor <;> simp_all

/-- Member `endElement` keeps the reachable-state facts. -/
theorem SAXHandler.endElement_inv (h h' : SAXHandler) (name : String) (hi : h.Inv)
    (hs : h.endElement name = some h') : h'.Inv := by
  unfold SAXHandler.endElement at hs
  obtain ⟨i1, i2, i3, i4, i5, i6, i7⟩ := hi
  by_cases h1 : "layers" = name
  · simp [← h1, LAYERS, BOARD, PLAIN, TEXT, DESCRIPTION, NOTE, PACKAGES, PACKAGE, Option.bind_eq_some] at hs
    repeat (obtain ⟨hfact, hs⟩ := hs)
    try subst hs
    constructor <;> simp_all
  by_cases h2 : "board" = name
  · simp [← h2, LAYERS, BOARD, PLAIN, TEXT, DESCRIPTION, NOTE, PACKAGES, PACKAGE, Option.bind_eq_some] at hs
    repeat (obtain ⟨hfact, hs⟩ := hs)
    try subst hs
    constructor <;> simp_all
  by_cases h3 : "plain" = name
  · simp [← h3, LAYERS, BOARD, PLAIN, TEXT, DESCRIPTION, NOTE, PACKAGES, PACKAGE, Option.bind_eq_some] at hs
    repeat (obtain ⟨hfact, hs⟩ := hs)
    try subst hs
    constructor <;> simp_all
  by_cases h4 : "text" = name
  · simp [← h4, LAYERS, BOARD, PLAIN, TEXT, DESCRIPTION, NOTE, PACKAGES, PACKAGE, SAXHandler.log, Ptr.isNonNull, Ptr.deref, Option.bind_eq_some] at hs
    obtain ⟨hl, hnn, ht, text, htext, hs⟩ := hs
    split_ifs at hs <;> simp [Option.bind_eq_some] at hs <;>
      (repeat (obtain ⟨hfact, hs⟩ := hs)) <;> constructor <;> simp_all
  by_cases h5 : "description" = name
  · simp [← h5, LAYERS, BOARD, PLAIN, TEXT, DESCRIPTION, NOTE, PACKAGES, PACKAGE, SAXHandler.log, Ptr.isNonNull, Ptr.deref, Option.bind_eq_some] at hs
    repeat (obtain ⟨hfact, hs⟩ := hs)
    try subst hs
    constructor <;> simp_all
  by_cases h6 : "note" = name
  · simp [← h6, LAYERS, BOARD, PLAIN, TEXT, DESCRIPTION, NOTE, PACKAGES, PACKAGE, Option.bind_eq_some] at hs
    repeat (obtain ⟨hfact, hs⟩ := hs)
    try subst hs
    constructor <;> simp_all
  by_cases h7 : "package" = name
  · simp [← h7, LAYERS, BOARD, PLAIN, TEXT, DESCRIPTION, NOTE, PACKAGES, PACKAGE, Option.bind_eq_some] at hs
    repeat (obtain ⟨hfact, hs⟩ := hs)
    try subst hs
    constructor <;> simp_all
  by_cases h8 : "packages" = name
  · simp [← h8, LAYERS, BOARD, PLAIN, TEXT, DESCRIPTION, NOTE, PACKAGES, PACKAGE, Option.bind_eq_some] at hs
    repeat (obtain ⟨hfact, hs⟩ := hs)
    try subst hs
    constructor <;> simp_all
  simp [LAYERS, BOARD, PLAIN, TEXT, DESCRIPTION, NOTE, PACKAGES, PACKAGE, h1, h2, h3, h4, h5, h6, h7, h8] at hs
  subst hs
  constructor <;> simp_all

/-- Member `characters` keeps the reachable-state facts. -/
theorem SAXHandler.characters_inv (h h' : SAXHandler) (chars : String) (length : Nat)
    (hi : h.Inv) (hs : h.characters chars length = some h') : h'.Inv := by
  unfold SAXHandler.characters at hs
  obtain ⟨i1, i2, i3, i4, i5, i6, i7⟩ := hi
  split_ifs at hs <;> simp [Option.bind_eq_some, SAXHandler.log] at hs <;>
    (repeat (obtain ⟨hfact, hs⟩ := hs)) <;> constructor <;> simp_all

/-- Every callback keeps the reachable-state facts. -/
theorem SAXHandler.step_inv (c : Libc) (h h' : SAXHandler) (e : Event) (hi : h.Inv)
    (hs : h.step c e = some h') : h'.Inv := by
  cases e with
  | startElement n attrs => exact SAXHandler.startElement_inv c h h' n attrs hi hs
  | endElement n => exact SAXHandler.endElement_inv h h' n hi hs
  | characters chars length => exact SAXHandler.characters_inv h h' chars length hi hs
  | _ =>
    simp [SAXHandler.step, SAXHandler.log, SAXHandler.setDocumentLocator] at hs
    subst hs
    obtain ⟨i1, i2, i3, i4, i5, i6, i7⟩ := hi
    constructor <;> simp_all

/-- A sequence of callbacks keeps the reachable-state facts. -/
theorem SAXHandler.run_inv (c : Libc) (es : List Event) :
    ∀ h h' : SAXHandler, h.Inv → h.run c es = some h' → h'.Inv := by
  induction es with
  | nil => intro h h' hi hs; simp [SAXHandler.run] at hs; subst hs; exact hi
  | cons e es ih =>
    intro h h' hi hs
    simp only [SAXHandler.run] at hs
    cases hstep : h.step c e with
    | none => simp [hstep] at hs
    | some next =>
      simp only [hstep] at hs
      exact ih next h' (SAXHandler.step_inv c h next e hi hstep) hs

/-- The facts hold in every reachable state. -/
theorem SAXHandler.Reachable.inv {c : Libc} {h : SAXHandler} (hr : h.Reachable c) : h.Inv := by
  obtain ⟨es, hes⟩ := hr
  refine SAXHandler.run_inv c es SAXHandler.new h ?_ hes
  constructor <;> simp [SAXHandler.new]


/-! ## Complete `description` elements -/

/-- Running two event sequences one after the other. -/
theorem SAXHandler.run_append (c : Libc) (es₁ es₂ : List Event) :
    ∀ h : SAXHandler, h.run c (es₁ ++ es₂) = (h.run c es₁).bind fun m => m.run c es₂ := by
  induction es₁ with
  | nil => intro h; simp [SAXHandler.run]
  | cons e es ih =>
    intro h
    simp only [List.cons_append, SAXHandler.run]
    cases h.step c e with
    | none => simp
    | some next => simp [ih]

/-- The handler's state after one complete `description` element (start
event, one character-data event, end event), when the attribute loop on a
fresh text yields `t`. -/
theorem SAXHandler.run_description_element (c : Libc) (h : SAXHandler) (attrs : AttributeList)
    (chars : String) (length : Nat) (t : Text) (out : List String)
    (ht : SAXHandler.textAttributes c Text.new attrs = some (t, out))
    (hstr : t.hasString_ = false) :
    h.run c [Event.startElement "description" attrs, Event.characters chars length,
        Event.endElement "description"] =
      if h.isDefiningLayers_ = false ∧ h.isDefiningDescription_ = false ∧
          h.isDefiningNote_ = false ∧ h.isDefiningText_ = false ∧
          h.isDefiningPackages_ = true ∧ h.isDefiningPackage_ = true then
        match h.currentPackage_ with
        | some p =>
          some { h with
            elementCounts_ := h.elementCounts_.increment "description"
            cerr := h.cerr ++ out
            currentText_ := Ptr.dangling
            currentPackage_ :=
              some (if t.language_ = Language.ENGLISH then { p with description_ := chars }
                    else p) }
        | none => none
      else none := by
  simp only [SAXHandler.run, SAXHandler.step]
  by_cases h1 : h.isDefiningLayers_ = false ∧ h.isDefiningDescription_ = false ∧
          h.isDefiningNote_ = false ∧ h.isDefiningText_ = false ∧
          h.isDefiningPackages_ = true ∧ h.isDefiningPackage_ = true
  · obtain ⟨a1, a2, a3, a4, a5, a6⟩ := h1
    cases hp : h.currentPackage_ with
    | none =>
      simp [SAXHandler.startElement, SAXHandler.handleTextDefinition, SAXHandler.characters,
        SAXHandler.endElement, SAXHandler.log, Ptr.isNonNull, Ptr.deref, assert,
        Text.handleCharacters, hstr, ht, a1, a2, a3, a4, a5, a6, hp, LAYERS, BOARD, PLAIN,
        LAYER, TEXT, DESCRIPTION]
    | some p =>
      by_cases hlang : t.language_ = Language.ENGLISH
      · simp [SAXHandler.startElement, SAXHandler.handleTextDefinition, SAXHandler.characters,
          SAXHandler.endElement, SAXHandler.log, Ptr.isNonNull, Ptr.deref, assert,
          Text.handleCharacters, hstr, ht, a1, a2, a3, a4, a5, a6, hp, LAYERS, BOARD, PLAIN,
          LAYER, TEXT, DESCRIPTION, Package.setDescription, Text.hasString, Text.getLanguage,
          Text.getString, hlang]
      · have hlang' : ¬ Language.ENGLISH = t.language_ := fun e => hlang e.symm
        simp [SAXHandler.startElement, SAXHandler.handleTextDefinition, SAXHandler.characters,
          SAXHandler.endElement, SAXHandler.log, Ptr.isNonNull, Ptr.deref, assert,
          Text.handleCharacters, hstr, ht, a1, a2, a3, a4, a5, a6, hp, LAYERS, BOARD, PLAIN,
          LAYER, TEXT, DESCRIPTION, Package.setDescription, Text.hasString, Text.getLanguage,
          Text.getString, hlang, hlang']
  · rw [if_neg h1]
    have hstart : h.startElement c "description" attrs = none := by
      simp only [not_and_or] at h1
      rcases h1 with h1 | h1 | h1 | h1 | h1 | h1 <;>
        simp [SAXHandler.startElement, assert, LAYERS, BOARD, PLAIN, LAYER, TEXT, DESCRIPTION,
          h1]
    simp [hstart]

/-- The attribute loop on a fresh text given `language="en"`. -/
theorem SAXHandler.textAttributes_language_en (c : Libc) :
    SAXHandler.textAttributes c Text.new [⟨"language", "en"⟩] = some (Text.new, []) := by
  simp [SAXHandler.textAttributes, Text.tryHandleAttribute_eq_text, Text.new]

/-- The attribute loop on a fresh text given `language="de"`. -/
theorem SAXHandler.textAttributes_language_de (c : Libc) :
    SAXHandler.textAttributes c Text.new [⟨"language", "de"⟩]
      = some ({ Text.new with language_ := Language.GERMAN }, []) := by
  simp [SAXHandler.textAttributes, Text.tryHandleAttribute_eq_text, Text.new]

/-- State after one English `description` element. -/
theorem SAXHandler.run_description_en (c : Libc) (h : SAXHandler) (chars : String)
    (length : Nat) :
    h.run c (descriptionElement "en" chars length) =
      if h.isDefiningLayers_ = false ∧ h.isDefiningDescription_ = false ∧
          h.isDefiningNote_ = false ∧ h.isDefiningText_ = false ∧
          h.isDefiningPackages_ = true ∧ h.isDefiningPackage_ = true then
        match h.currentPackage_ with
        | some p =>
          some { h with
            elementCounts_ := h.elementCounts_.increment "description"
            currentText_ := Ptr.dangling
            currentPackage_ := some { p with description_ := chars } }
        | none => none
      else none := by
  rw [descriptionElement, SAXHandler.run_description_element c h _ chars length Text.new []
    (SAXHandler.textAttributes_language_en c) rfl]
  simp [Text.new]

/-- State after one German `description` element. -/
theorem SAXHandler.run_description_de (c : Libc) (h : SAXHandler) (chars : String)
    (length : Nat) :
    h.run c (descriptionElement "de" chars length) =
      if h.isDefiningLayers_ = false ∧ h.isDefiningDescription_ = false ∧
          h.isDefiningNote_ = false ∧ h.isDefiningText_ = false ∧
          h.isDefiningPackages_ = true ∧ h.isDefiningPackage_ = true then
        match h.currentPackage_ with
        | some p =>
          some { h with
            elementCounts_ := h.elementCounts_.increment "description"
            currentText_ := Ptr.dangling
            currentPackage_ := some p }
        | none => none
      else none := by
  rw [descriptionElement, SAXHandler.run_description_element c h _ chars length
    { Text.new with language_ := Language.GERMAN } []
    (SAXHandler.textAttributes_language_de c) rfl]
  simp [Text.new]

/-! ## Start events of `description` and `text` in closed form -/

/-- Member `startElement` on `description`, in closed form. -/
theorem SAXHandler.startElement_description_eq (c : Libc) (h : SAXHandler)
    (attrs : AttributeList) :
    h.startElement c "description" attrs =
      if h.isDefiningLayers_ = false ∧ h.isDefiningDescription_ = false ∧
          h.isDefiningNote_ = false ∧ h.isDefiningText_ = false ∧
          h.isDefiningPackages_ = true ∧ h.isDefiningPackage_ = true then
        (SAXHandler.textAttributes c Text.new attrs).map fun r =>
          { h with
            elementCounts_ := h.elementCounts_.increment "description"
            currentText_ := Ptr.live r.1
            isDefiningDescription_ := true
            cerr := h.cerr ++ r.2 }
      else none := by
  by_cases hf : h.isDefiningLayers_ = false ∧ h.isDefiningDescription_ = false ∧
          h.isDefiningNote_ = false ∧ h.isDefiningText_ = false ∧
          h.isDefiningPackages_ = true ∧ h.isDefiningPackage_ = true
  · rw [if_pos hf]
    obtain ⟨a1, a2, a3, a4, a5, a6⟩ := hf
    cases hta : SAXHandler.textAttributes c Text.new attrs with
    | none =>
      simp [SAXHandler.startElement, SAXHandler.handleTextDefinition, SAXHandler.log,
        Ptr.isNonNull, Ptr.deref, assert, hta, a1, a2, a3, a4, a5, a6, LAYERS, BOARD, PLAIN,
        LAYER, TEXT, DESCRIPTION]
    | some r =>
      obtain ⟨t, out⟩ := r
      simp [SAXHandler.startElement, SAXHandler.handleTextDefinition, SAXHandler.log,
        Ptr.isNonNull, Ptr.deref, assert, hta, a1, a2, a3, a4, a5, a6, LAYERS, BOARD, PLAIN,
        LAYER, TEXT, DESCRIPTION]
  · rw [if_neg hf]
    simp only [not_and_or] at hf
    rcases hf with h1 | h1 | h1 | h1 | h1 | h1 <;>
      simp [SAXHandler.startElement, assert, LAYERS, BOARD, PLAIN, LAYER, TEXT, DESCRIPTION,
        h1]

/-- Member `startElement` on `text`, in closed form. -/
theorem SAXHandler.startElement_text_eq (c : Libc) (h : SAXHandler)
    (attrs : AttributeList) :
    h.startElement c "text" attrs =
      if h.isDefiningLayers_ = false ∧ h.isDefiningDescription_ = false then
        (SAXHandler.textAttributes c Text.new attrs).map fun r =>
          { h with
            elementCounts_ := h.elementCounts_.increment "text"
            currentText_ := Ptr.live r.1
            isDefiningText_ := true
            cerr := h.cerr ++
              [match h.locator_ with
               | some locator => "DBG starting text at " ++ toString locator.lineNumber
               | none => "DBG starting text"] ++ r.2 }
      else none := by
  by_cases hf : h.isDefiningLayers_ = false ∧ h.isDefiningDescription_ = false
  · rw [if_pos hf]
    obtain ⟨a1, a2⟩ := hf
    cases hta : SAXHandler.textAttributes c Text.new attrs with
    | none =>
      simp [SAXHandler.startElement, SAXHandler.handleTextDefinition, SAXHandler.log,
        Ptr.isNonNull, Ptr.deref, assert, hta, a1, a2, LAYERS, BOARD, PLAIN,
        LAYER, TEXT, DESCRIPTION]
    | some r =>
      obtain ⟨t, out⟩ := r
      simp [SAXHandler.startElement, SAXHandler.handleTextDefinition, SAXHandler.log,
        Ptr.isNonNull, Ptr.deref, assert, hta, a1, a2, LAYERS, BOARD, PLAIN,
        LAYER, TEXT, DESCRIPTION]
  · rw [if_neg hf]
    simp only [not_and_or] at hf
    rcases hf with h1 | h1 <;>
      simp [SAXHandler.startElement, SAXHandler.log, assert, LAYERS, BOARD, PLAIN, LAYER, TEXT,
        DESCRIPTION, h1]

/-! ## Routing of finished elements -/

/-- Claim C1, amended: in every reachable handler state with the layer-set
closed, and for every attribute list in which no attribute name occurs twice,
a `wire`, `hole` or `rectangle` start event succeeds and appends exactly one
new element of that kind, the one its attribute loop builds, to the end of the
matching sequence of the package under construction when a package is open,
and to the end of the matching sequence of the top-level board when neither a
package nor the package-set is open; besides the occurrence counter and the
diagnostic lines nothing else changes. -/
theorem C1_wire_hole_rectangle_start_appends_one (c : Libc) (h : SAXHandler)
    (attrs : AttributeList) (hr : h.Reachable c) (hl : h.isDefiningLayers_ = false)
    (hnd : (attrs.map Attribute.name).Nodup) :
    (h.isDefiningPackage_ = true →
      ∃ p, h.currentPackage_ = some p ∧
        (∃ w out, SAXHandler.wireAttributes c Wire.new attrs = some (w, out) ∧
          h.startElement c "wire" attrs = some { h with
            elementCounts_ := h.elementCounts_.increment "wire"
            cerr := h.cerr ++ out
            currentPackage_ := some { p with wireObjects_ := p.wireObjects_ ++ [w] } }) ∧
        (∃ o out, SAXHandler.holeAttributes c (Hole.new false) attrs = some (o, out) ∧
          h.startElement c "hole" attrs = some { h with
            elementCounts_ := h.elementCounts_.increment "hole"
            cerr := h.cerr ++ out
            currentPackage_ := some { p with holeObjects_ := p.holeObjects_ ++ [o] } }) ∧
        (∃ r out, SAXHandler.rectangleAttributes c Rectangle.new attrs = some (r, out) ∧
          h.startElement c "rectangle" attrs = some { h with
            elementCounts_ := h.elementCounts_.increment "rectangle"
            cerr := h.cerr ++ out
            currentPackage_ :=
              some { p with rectangleObjects_ := p.rectangleObjects_ ++ [r] } })) ∧
    (h.isDefiningPackage_ = false → h.isDefiningPackages_ = false →
        (∃ w out, SAXHandler.wireAttributes c Wire.new attrs = some (w, out) ∧
          h.startElement c "wire" attrs = some { h with
            elementCounts_ := h.elementCounts_.increment "wire"
            cerr := h.cerr ++ out
            board_ := { h.board_ with wireObjects_ := h.board_.wireObjects_ ++ [w] } }) ∧
        (∃ o out, SAXHandler.holeAttributes c (Hole.new false) attrs = some (o, out) ∧
          h.startElement c "hole" attrs = some { h with
            elementCounts_ := h.elementCounts_.increment "hole"
            cerr := h.cerr ++ out
            board_ := { h.board_ with holeObjects_ := h.board_.holeObjects_ ++ [o] } }) ∧
        (∃ r out, SAXHandler.rectangleAttributes c Rectangle.new attrs = some (r, out) ∧
          h.startElement c "rectangle" attrs = some { h with
            elementCounts_ := h.elementCounts_.increment "rectangle"
            cerr := h.cerr ++ out
            board_ := { h.board_ with
              rectangleObjects_ := h.board_.rectangleObjects_ ++ [r] } })) := by
  have hi := hr.inv
  obtain ⟨⟨w, wout⟩, hw⟩ := SAXHandler.wireAttributes_isSome c attrs Wire.new
    (by intro n hn; simp [Wire.IsSet, Wire.new] at hn) hnd
  obtain ⟨⟨o, oout⟩, ho⟩ := SAXHandler.holeAttributes_isSome c attrs (Hole.new false)
    (by intro n hn; simp [Hole.IsSet, Hole.new] at hn) hnd
  obtain ⟨⟨r, rout⟩, hrect⟩ := SAXHandler.rectangleAttributes_isSome c attrs Rectangle.new
    (by intro n hn; simp [Rectangle.IsSet, Rectangle.new] at hn) hnd
  constructor
  · intro hp
    have hsome : h.currentPackage_.isSome = true := by rw [← hi.package_iff]; exact hp
    obtain ⟨p, hcp⟩ := Option.isSome_iff_exists.mp hsome
    have hps := hi.package_packages hp
    refine ⟨p, hcp, ⟨w, wout, hw, ?_⟩, ⟨o, oout, ho, ?_⟩, ⟨r, rout, hrect, ?_⟩⟩
    · simp [SAXHandler.startElement, SAXHandler.handleWireDefinition, SAXHandler.log, hw, hl,
        hp, hps, hcp, Board.addWire, LAYERS, BOARD, PLAIN, LAYER, TEXT, DESCRIPTION, NOTE, WIRE,
        assert]
    · simp [SAXHandler.startElement, SAXHandler.handleHoleDefinition, SAXHandler.log, ho, hl,
        hp, hps, hcp, Board.addHole, LAYERS, BOARD, PLAIN, LAYER, TEXT, DESCRIPTION, NOTE, WIRE,
        HOLE, assert]
    · simp [SAXHandler.startElement, SAXHandler.handleRectangleDefinition, SAXHandler.log,
        hrect, hl, hp, hps, hcp, Board.addRectangle, LAYERS, BOARD, PLAIN, LAYER, TEXT,
        DESCRIPTION, NOTE, WIRE, HOLE, RECTANGLE, assert]
  · intro hp hps
    have hnone : h.currentPackage_ = none := by
      have := hi.package_iff
      rw [hp] at this
      exact Option.not_isSome_iff_eq_none.mp (by simp [← this])
    refine ⟨⟨w, wout, hw, ?_⟩, ⟨o, oout, ho, ?_⟩, ⟨r, rout, hrect, ?_⟩⟩
    · simp [SAXHandler.startElement, SAXHandler.handleWireDefinition, SAXHandler.log, hw, hl,
        hp, hps, hnone, Board.addWire, LAYERS, BOARD, PLAIN, LAYER, TEXT, DESCRIPTION, NOTE,
        WIRE, assert]
    · simp [SAXHandler.startElement, SAXHandler.handleHoleDefinition, SAXHandler.log, ho, hl,
        hp, hps, hnone, Board.addHole, LAYERS, BOARD, PLAIN, LAYER, TEXT, DESCRIPTION, NOTE,
        WIRE, HOLE, assert]
    · simp [SAXHandler.startElement, SAXHandler.handleRectangleDefinition, SAXHandler.log,
        hrect, hl, hp, hps, hnone, Board.addRectangle, LAYERS, BOARD, PLAIN, LAYER, TEXT,
        DESCRIPTION, NOTE, WIRE, HOLE, RECTANGLE, assert]


/-- Witness for C1: a `wire` start event with two attributes in the state
reached by opening `board`. -/
theorem C1_wire_hole_rectangle_start_appends_one_witness :
    boardOpen.Reachable sampleLibc ∧
    ∃ w out, SAXHandler.wireAttributes sampleLibc Wire.new [⟨"x1", "0"⟩, ⟨"x2", "10"⟩]
        = some (w, out) ∧
      boardOpen.startElement sampleLibc "wire" [⟨"x1", "0"⟩, ⟨"x2", "10"⟩] = some { boardOpen with
        elementCounts_ := boardOpen.elementCounts_.increment "wire"
        cerr := boardOpen.cerr ++ out
        board_ := { boardOpen.board_ with
          wireObjects_ := boardOpen.board_.wireObjects_ ++ [w] } } :=
  ⟨⟨[Event.startElement "board" []], by decide⟩,
   ((C1_wire_hole_rectangle_start_appends_one sampleLibc boardOpen
      [⟨"x1", "0"⟩, ⟨"x2", "10"⟩] ⟨[Event.startElement "board" []], by decide⟩ rfl
      (by decide)).2 rfl rfl).1⟩

/-- Counterexample to C1 as stated: in the reachable state with `board` open,
a `wire` start event whose attribute list names `x1` twice fails, and so does
a `hole` start event that names `drill` twice; nothing is appended. -/
theorem C1_counterexample_repeated_attribute_name :
    SAXHandler.new.run sampleLibc [Event.startElement "board" []] = some boardOpen ∧
    boardOpen.isDefiningLayers_ = false ∧
    boardOpen.startElement sampleLibc "wire" [⟨"x1", "0"⟩, ⟨"x1", "1"⟩] = none ∧
    boardOpen.startElement sampleLibc "hole" [⟨"drill", "1"⟩, ⟨"drill", "1"⟩] = none := by
  decide

/-- Claim C2, evaluated on the code: after `board` is opened, a `circle` start
event with x, y and radius succeeds, yet the circle sequence of the board (and
every other sequence) is as empty as before; only the occurrence counter
changed. -/
theorem C2_circle_start_stores_no_circle :
    boardOpen.startElement sampleLibc "circle" [⟨"x", "1"⟩, ⟨"y", "2"⟩, ⟨"radius", "3"⟩]
      = some { boardOpen with elementCounts_ := [("board", 1), ("circle", 1)] } ∧
    packageOpen.startElement sampleLibc "circle" [⟨"x", "1"⟩, ⟨"y", "2"⟩, ⟨"radius", "3"⟩]
      = some { packageOpen with
          elementCounts_ := [("circle", 1), ("package", 1), ("packages", 1)] } := by
  decide

/-- Counterexample to C3 as stated: with the package-set open and no package
under construction, a text is open (reachable state) and its end event fails;
so it does when the layer-set was opened after the text. -/
theorem C3_counterexample_text_end_fails_in_package_set :
    (SAXHandler.new.run sampleLibc
        [Event.startElement "packages" [], Event.startElement "text" []]).map
      (fun h => (h.isDefiningText_, h.currentText_)) = some (true, Ptr.live Text.new) ∧
    (SAXHandler.new.run sampleLibc
        [Event.startElement "packages" [], Event.startElement "text" [],
         Event.characters "label" 5]).isSome = true ∧
    SAXHandler.new.run sampleLibc
        [Event.startElement "packages" [], Event.startElement "text" [],
         Event.characters "label" 5, Event.endElement "text"] = none ∧
    (SAXHandler.new.run sampleLibc
        [Event.startElement "text" [], Event.startElement "layers" []]).map
      (fun h => (h.isDefiningText_, h.isDefiningLayers_)) = some (true, true) ∧
    SAXHandler.new.run sampleLibc
        [Event.startElement "text" [], Event.startElement "layers" [],
         Event.endElement "text"] = none := by
  decide

/-- Claim C3, amended: in every reachable handler state in which a text
element is open and the layer-set is closed, the in-progress Text exists, and
a `text` end event succeeds and appends it to the text sequence of the package
under construction when a package is open, and to the text sequence of the
top-level board when neither a package nor the package-set is open;
afterwards no text is open and the in-progress text slot is empty. -/
theorem C3_text_end_stores_text (c : Libc) (h : SAXHandler) (hr : h.Reachable c)
    (ht : h.isDefiningText_ = true) (hl : h.isDefiningLayers_ = false) :
    ∃ t, h.currentText_ = Ptr.live t ∧
      (h.isDefiningPackage_ = true →
        ∃ p, h.currentPackage_ = some p ∧
          h.endElement "text" = some { h with
            cerr := h.cerr ++ ["DBG ending text"]
            currentPackage_ := some { p with textObjects_ := p.textObjects_ ++ [t] }
            isDefiningText_ := false
            currentText_ := Ptr.null }) ∧
      (h.isDefiningPackage_ = false → h.isDefiningPackages_ = false →
        h.endElement "text" = some { h with
          cerr := h.cerr ++ ["DBG ending text"]
          board_ := { h.board_ with textObjects_ := h.board_.textObjects_ ++ [t] }
          isDefiningText_ := false
          currentText_ := Ptr.null }) := by
  have hi := hr.inv
  obtain ⟨t, hct⟩ := hi.text_live ht
  refine ⟨t, hct, ?_, ?_⟩
  · intro hp
    have hsome : h.currentPackage_.isSome = true := by rw [← hi.package_iff]; exact hp
    obtain ⟨p, hcp⟩ := Option.isSome_iff_exists.mp hsome
    refine ⟨p, hcp, ?_⟩
    simp [SAXHandler.endElement, SAXHandler.log, Ptr.isNonNull, Ptr.deref, assert, hct, ht, hl,
      hp, hcp, Board.addText, LAYERS, BOARD, PLAIN, TEXT]
  · intro hp hps
    have hnone : h.currentPackage_ = none := by
      have := hi.package_iff
      rw [hp] at this
      exact Option.not_isSome_iff_eq_none.mp (by simp [← this])
    simp [SAXHandler.endElement, SAXHandler.log, Ptr.isNonNull, Ptr.deref, assert, hct, ht, hl,
      hp, hps, hnone, Board.addText, LAYERS, BOARD, PLAIN, TEXT]

/-- Witness for C3: the `text` end event in the state reached by opening
`board` and `text` and delivering the character data `R1`. -/
theorem C3_text_end_stores_text_witness :
    textOpen.Reachable sampleLibc ∧
    ∃ t, textOpen.currentText_ = Ptr.live t ∧
      textOpen.endElement "text" = some { textOpen with
        cerr := textOpen.cerr ++ ["DBG ending text"]
        board_ := { textOpen.board_ with textObjects_ := textOpen.board_.textObjects_ ++ [t] }
        isDefiningText_ := false
        currentText_ := Ptr.null } := by
  have hr : textOpen.Reachable sampleLibc :=
    ⟨[Event.startElement "board" [], Event.startElement "text" [], Event.characters "R1" 2],
      by decide⟩
  obtain ⟨t, ht, -, hboard⟩ := C3_text_end_stores_text sampleLibc textOpen hr rfl rfl
  exact ⟨hr, t, ht, hboard rfl rfl⟩

/-- Counterexample to C4 as stated: for the document with one `board` holding
one `wire`, the run returns 0 but the text written to standard output holds no
wire record at all. -/
theorem C4_counterexample_no_wire_record_written :
    (main sampleLibc (CommandLine.accepted false) { events := wireDocument }).map
      (fun r => ((r.stdout.filter isWireRecord).length, r.result)) = some (0, 0) := by
  decide

/-- Claim C4, amended: for the document consisting of one `board` containing
one `wire` with x1=0, y1=0, x2=10, y2=0, width=10, layer=1, the text written to
standard output is the fixed header only (generated-by comment, empty line,
file version, layout flags, layer groups) and contains no wire record, and the
run's exit status is 0. -/
theorem C4_wire_document_output_is_fixed_header (c : Libc) :
    (main c (CommandLine.accepted false) { events := wireDocument }).map
      (fun r => (r.stdout, r.result))
      = some (["# Output generated from Eagle .brd file automatically by eagle2gedapcb.",
               "", "FileVersion[20070407]",
               "Flags(\"nameonpcb,uniquename,clearnew,snappin\")",
               "Groups(\"1,c:2:3:4:5:6,s:7:8\")"], 0) := by
  simp [main, wireDocument, SAXHandler.run, SAXHandler.step, SAXHandler.startElement,
    SAXHandler.endElement, SAXHandler.handleWireDefinition, SAXHandler.wireAttributes,
    Wire.tryHandleAttribute_eq_wire, Wire.new, SAXHandler.new, SAXHandler.log, assert,
    LAYERS, BOARD, PLAIN, LAYER, TEXT, DESCRIPTION, NOTE, WIRE, PACKAGE, PACKAGES,
    FILE_VERSION, LAYOUT_FLAGS, LAYOUT_GROUPS]


/-! ## Rounding to `double` -/

/-- Rounding to an integer moves a number by at most one half. -/
theorem binary64.abs_roundHalfEven_sub_le (y : ℚ) :
    |((binary64.roundHalfEven y : ℤ) : ℚ) - y| ≤ 1 / 2 := by
  have h1 : ((⌊y⌋ : ℤ) : ℚ) ≤ y := Int.floor_le y
  have h2 : y < ((⌊y⌋ : ℤ) : ℚ) + 1 := Int.lt_floor_add_one y
  unfold binary64.roundHalfEven
  split_ifs with a b c
  · rw [abs_le]; constructor <;> linarith
  · rw [abs_le]; push_cast; constructor <;> linarith
  · rw [abs_le]; constructor <;> linarith
  · rw [abs_le]; push_cast; constructor <;> linarith

/-- An integer is its own rounding. -/
theorem binary64.roundHalfEven_intCast (n : ℤ) : binary64.roundHalfEven (n : ℚ) = n := by
  simp [binary64.roundHalfEven]

/-- Rounding to the spacing around `x` moves `x` by at most half the spacing. -/
theorem binary64.abs_rounded_sub_le (x : ℚ) :
    |((binary64.roundHalfEven (x / 2 ^ binary64.spacingExponent x) : ℤ) : ℚ)
        * 2 ^ binary64.spacingExponent x - x|
      ≤ 2 ^ binary64.spacingExponent x / 2 := by
  have hpos : (0 : ℚ) < 2 ^ binary64.spacingExponent x := zpow_pos (by norm_num) _
  have h := binary64.abs_roundHalfEven_sub_le (x / 2 ^ binary64.spacingExponent x)
  have hx : x = x / 2 ^ binary64.spacingExponent x * 2 ^ binary64.spacingExponent x := by
    field_simp
  calc |((binary64.roundHalfEven (x / 2 ^ binary64.spacingExponent x) : ℤ) : ℚ)
          * 2 ^ binary64.spacingExponent x - x|
      = |((binary64.roundHalfEven (x / 2 ^ binary64.spacingExponent x) : ℤ) : ℚ)
            - x / 2 ^ binary64.spacingExponent x| * 2 ^ binary64.spacingExponent x := by
        rw [← abs_of_pos hpos, ← abs_mul, abs_of_pos hpos, sub_mul, ← hx]
    _ ≤ 1 / 2 * 2 ^ binary64.spacingExponent x := by
        exact mul_le_mul_of_nonneg_right h hpos.le
    _ = 2 ^ binary64.spacingExponent x / 2 := by ring

/-- Below `2^52` the spacing of the `double` values is at most one half. -/
theorem binary64.spacingExponent_le_neg_one (x : ℚ) (hx : |x| < 2 ^ 52) :
    binary64.spacingExponent x ≤ -1 := by
  unfold binary64.spacingExponent
  apply max_le _ (by norm_num)
  rcases eq_or_lt_of_le (abs_nonneg x) with h0 | hpos
  · rw [← h0]; simp
  · have hlt : Int.log 2 |x| < 52 := by
      rw [← Int.lt_zpow_iff_log_lt (by norm_num) hpos]
      exact_mod_cast hx
    omega

/-- Rounding a number of magnitude below `2^52` gives a finite `double` at
most one quarter away. -/
theorem binary64.roundToNearest_of_lt (x : ℚ) (hx : |x| < 2 ^ 52) :
    ∃ v : ℚ, binary64.roundToNearest x = DoubleValue.finite v ∧ |v - x| ≤ 1 / 4 := by
  have hp := binary64.spacingExponent_le_neg_one x hx
  have herr := binary64.abs_rounded_sub_le x
  have hsp : (2 : ℚ) ^ binary64.spacingExponent x ≤ 2 ^ (-1 : ℤ) :=
    zpow_le_zpow_right₀ (by norm_num) hp
  have hquarter : |((binary64.roundHalfEven (x / 2 ^ binary64.spacingExponent x) : ℤ) : ℚ)
        * 2 ^ binary64.spacingExponent x - x| ≤ 1 / 4 := by
    refine herr.trans ?_
    have : (2 : ℚ) ^ (-1 : ℤ) = 1 / 2 := by norm_num
    rw [this] at hsp
    linarith
  refine ⟨_, ?_, hquarter⟩
  unfold binary64.roundToNearest
  simp only
  rw [if_neg]
  rw [not_lt]
  have habs : |((binary64.roundHalfEven (x / 2 ^ binary64.spacingExponent x) : ℤ) : ℚ)
        * 2 ^ binary64.spacingExponent x| ≤ |x| + 1 / 4 := by
    have := abs_sub_abs_le_abs_sub
      (((binary64.roundHalfEven (x / 2 ^ binary64.spacingExponent x) : ℤ) : ℚ)
        * 2 ^ binary64.spacingExponent x) x
    linarith
  have hmax : (2 : ℚ) ^ 52 + 1 / 4 ≤ binary64.maxFinite := by
    unfold binary64.maxFinite
    norm_num
  linarith

/-- A positive exact result of at least `2^1025` overflows to `+inf`. -/
theorem binary64.roundToNearest_overflow (x : ℚ) (hx : 2 ^ 1025 ≤ x) :
    binary64.roundToNearest x = DoubleValue.infinity false := by
  have hxpos : (0 : ℚ) < x := lt_of_lt_of_le (by positivity) hx
  have habs : |x| = x := abs_of_pos hxpos
  have hkey : ∀ e : ℕ, (2 : ℚ) ^ e ≤ |x| → (e : ℤ) ≤ Int.log 2 |x| := by
    intro e he
    rw [← Int.zpow_le_iff_le_log (by norm_num) (by rw [habs]; exact hxpos), zpow_natCast]
    exact_mod_cast he
  have hlog : (1025 : ℤ) ≤ Int.log 2 |x| := by
    simpa using hkey 1025 (by rw [habs]; exact hx)
  have hsp : binary64.spacingExponent x = Int.log 2 |x| - 52 := by
    unfold binary64.spacingExponent
    apply max_eq_left
    omega
  have hle : (2 : ℚ) ^ Int.log 2 |x| ≤ x := by
    have := Int.zpow_log_le_self (b := 2) (r := |x|) (by norm_num) (by rw [habs]; exact hxpos)
    rw [habs] at this ⊢
    exact_mod_cast this
  have herr := binary64.abs_rounded_sub_le x
  rw [hsp, zpow_sub₀ (by norm_num : (2 : ℚ) ≠ 0)] at herr
  have h52 : (2 : ℚ) ^ (52 : ℤ) = 2 ^ 52 := by norm_cast
  rw [h52] at herr
  have hlow : x - x / 2 ^ 53 ≤
      ((binary64.roundHalfEven (x / (2 ^ Int.log 2 |x| / 2 ^ 52)) : ℤ) : ℚ)
        * (2 ^ Int.log 2 |x| / 2 ^ 52) := by
    have h1 := (abs_le.mp herr).1
    have h2 : (2 : ℚ) ^ Int.log 2 |x| / 2 ^ 52 / 2 ≤ x / 2 ^ 53 := by
      rw [div_div, div_le_div_iff₀ (by positivity) (by positivity)]
      nlinarith [hle]
    linarith
  have hbig : binary64.maxFinite < x - x / 2 ^ 53 := by
    have : (2 : ℚ) ^ 1025 - 2 ^ 1025 / 2 ^ 53 ≤ x - x / 2 ^ 53 := by
      have h53 : (0 : ℚ) < 1 - 1 / 2 ^ 53 := by norm_num
      nlinarith [hx, h53]
    refine lt_of_lt_of_le ?_ this
    unfold binary64.maxFinite
    norm_num
  unfold binary64.roundToNearest
  simp only
  rw [hsp, zpow_sub₀ (by norm_num : (2 : ℚ) ≠ 0), h52, if_pos]
  · simp [not_lt.mpr hxpos.le]
  · exact lt_of_lt_of_le (lt_of_lt_of_le hbig hlow) (le_abs_self _)

/-- A value `n * 2^q` with `|n| < 2^53`, `-1074 ≤ q` and magnitude within the
range is a `double`: rounding leaves it as it is. -/
theorem binary64.roundToNearest_representable (n q : ℤ) (hn : |n| < 2 ^ 53)
    (hq : -1074 ≤ q) (hmax : |(n : ℚ) * 2 ^ q| ≤ binary64.maxFinite) :
    binary64.roundToNearest ((n : ℚ) * 2 ^ q) = DoubleValue.finite ((n : ℚ) * 2 ^ q) := by
  have h2pos : (0 : ℚ) < 2 ^ q := zpow_pos (by norm_num) _
  have hfin : ∀ r : ℚ, r = (n : ℚ) * 2 ^ q →
      (if binary64.maxFinite < |r| then
          DoubleValue.infinity (decide ((n : ℚ) * 2 ^ q < 0))
        else DoubleValue.finite r) = DoubleValue.finite ((n : ℚ) * 2 ^ q) := by
    intro r hr
    rw [hr, if_neg (not_lt.mpr hmax)]
  unfold binary64.roundToNearest
  simp only
  apply hfin
  rcases eq_or_ne n 0 with hn0 | hn0
  · subst hn0
    simp [binary64.roundHalfEven]
  have hpos : 0 < |(n : ℚ) * 2 ^ q| := by
    rw [abs_pos]
    exact mul_ne_zero (by exact_mod_cast hn0) h2pos.ne'
  have hsp : binary64.spacingExponent ((n : ℚ) * 2 ^ q) ≤ q := by
    unfold binary64.spacingExponent
    apply max_le _ hq
    have hlt : |(n : ℚ) * 2 ^ q| < 2 ^ (53 + q) := by
      rw [abs_mul, abs_of_pos h2pos, zpow_add₀ (by norm_num : (2 : ℚ) ≠ 0)]
      apply mul_lt_mul_of_pos_right _ h2pos
      have : |(n : ℚ)| < 2 ^ 53 := by exact_mod_cast hn
      exact_mod_cast this
    have : Int.log 2 |(n : ℚ) * 2 ^ q| < 53 + q := by
      rw [← Int.lt_zpow_iff_log_lt (by norm_num) hpos]
      exact_mod_cast hlt
    omega
  generalize binary64.spacingExponent ((n : ℚ) * 2 ^ q) = p at hsp ⊢
  obtain ⟨d, rfl⟩ := Int.le.dest hsp
  have hspos : (0 : ℚ) < 2 ^ p := zpow_pos (by norm_num) _
  have hsplit : (2 : ℚ) ^ (p + (d : ℤ)) = 2 ^ p * 2 ^ d := by
    rw [zpow_add₀ (by norm_num : (2 : ℚ) ≠ 0), zpow_natCast]
  have hquot : (n : ℚ) * 2 ^ (p + (d : ℤ)) / 2 ^ p = ((n * 2 ^ d : ℤ) : ℚ) := by
    rw [div_eq_iff hspos.ne', hsplit]
    push_cast
    ring
  rw [hquot, binary64.roundHalfEven_intCast, hsplit]
  push_cast
  ring

/-- A number less than one half away from an integer rounds to it. -/
theorem binary64.roundHalfEven_eq_of_abs_sub_lt (y : ℚ) (n : ℤ) (h : |y - n| < 1 / 2) :
    binary64.roundHalfEven y = n := by
  rw [abs_lt] at h
  obtain ⟨h1, h2⟩ := h
  rcases le_or_lt (n : ℚ) y with hle | hlt
  · have hfloor : ⌊y⌋ = n := by
      rw [Int.floor_eq_iff]
      constructor <;> linarith
    unfold binary64.roundHalfEven
    rw [hfloor, if_pos (by linarith)]
  · have hfloor : ⌊y⌋ = n - 1 := by
      rw [Int.floor_eq_iff]
      push_cast
      constructor <;> linarith
    unfold binary64.roundHalfEven
    rw [hfloor, if_neg (by push_cast; linarith), if_pos (by push_cast; linarith)]
    ring

/-- Evaluation of the rounding: for `x` in the binade `[2^e, 2^(e+1))` of the
normal range, when `x` lies less than half a spacing away from `n * 2^(e-52)`,
the result is that value. -/
theorem binary64.roundToNearest_eq (x : ℚ) (e n : ℤ) (he : -1022 ≤ e)
    (hlo : (2 : ℚ) ^ e ≤ |x|) (hhi : |x| < 2 ^ (e + 1))
    (hn : |x / 2 ^ (e - 52) - n| < 1 / 2)
    (hmax : |(n : ℚ) * 2 ^ (e - 52)| ≤ binary64.maxFinite) :
    binary64.roundToNearest x = DoubleValue.finite ((n : ℚ) * 2 ^ (e - 52)) := by
  have hpos : 0 < |x| := lt_of_lt_of_le (zpow_pos (by norm_num) _) hlo
  have hlog : Int.log 2 |x| = e := by
    apply le_antisymm
    · have := (Int.lt_zpow_iff_log_lt (b := 2) (by norm_num) hpos).mp (by exact_mod_cast hhi)
      omega
    · exact (Int.zpow_le_iff_le_log (b := 2) (by norm_num) hpos).mp (by exact_mod_cast hlo)
  have hsp : binary64.spacingExponent x = e - 52 := by
    unfold binary64.spacingExponent
    rw [hlog]
    apply max_eq_left
    omega
  unfold binary64.roundToNearest
  simp only
  rw [hsp, binary64.roundHalfEven_eq_of_abs_sub_lt _ n hn, if_neg (not_lt.mpr hmax)]

/-- Between `2^54` and `2^55` the `double` values are the multiples of four:
rounding a number of that magnitude gives a finite multiple of four. -/
theorem binary64.roundToNearest_multiple_of_four (x : ℚ) (hlo : 2 ^ 54 ≤ |x|)
    (hhi : |x| < 2 ^ 55) :
    ∃ n : ℤ, binary64.roundToNearest x = DoubleValue.finite (4 * (n : ℚ)) := by
  have hpos : 0 < |x| := lt_of_lt_of_le (by norm_num) hlo
  have hlog : Int.log 2 |x| = 54 := by
    apply le_antisymm
    · have := (Int.lt_zpow_iff_log_lt (b := 2) (r := |x|) (x := 55) (by norm_num) hpos).mp
        (by exact_mod_cast hhi)
      omega
    · exact (Int.zpow_le_iff_le_log (b := 2) (r := |x|) (x := 54) (by norm_num) hpos).mp
        (by exact_mod_cast hlo)
  have hsp : binary64.spacingExponent x = 2 := by
    unfold binary64.spacingExponent
    rw [hlog]
    norm_num
  have herr := binary64.abs_rounded_sub_le x
  rw [hsp] at herr
  have h4 : (2 : ℚ) ^ (2 : ℤ) = 4 := by norm_num
  rw [h4] at herr
  refine ⟨binary64.roundHalfEven (x / 4), ?_⟩
  unfold binary64.roundToNearest
  simp only
  rw [hsp, h4, if_neg, mul_comm]
  rw [not_lt]
  have habs := abs_sub_abs_le_abs_sub (((binary64.roundHalfEven (x / 4) : ℤ) : ℚ) * 4) x
  have hmax : (2 : ℚ) ^ 55 + 4 / 2 ≤ binary64.maxFinite := by
    unfold binary64.maxFinite
    norm_num
  linarith

/-- The exact ratio of the millimetre to the centimil. -/
theorem exactConversionFactor_eq : exactConversionFactor = 500000 / 127 := by
  unfold exactConversionFactor mmBaseUnitInMeters centimilBaseUnitInMeters milBaseUnitInMeters
  norm_num

/-! ## Unit conversion -/

/-- The raw value after the cast: the product with the conversion factor,
rounded to `double`. -/
theorem Centimils.value_ofMillimeters (lib : UnitsLib) (mm : Millimeters) :
    (Centimils.ofMillimeters lib mm).value
      = binary64.roundToNearest (mm.value * lib.conversionFactor) := rfl

/-- Counterexample to C5 as stated. The `double` nearest to the exact ratio
is a conversion factor within the relative error `2^-53` of it; and for every
conversion factor within the relative error `2^-50`: for the finite scalar
`m = 2^1014` the product exceeds the range of `double` and the raw value is
`+inf`, no number at all; for the finite scalar `m = 8727373545474`, whose
conversion lies between `2^54` and `2^55` centimils, where neighbouring
`double` values are four apart, the raw value is finite but more than one
centimil away from `round(m / 25.4 * 1000 * 100) = 34359738368007874`. -/
theorem C5_counterexample_large_scalar :
    |sampleUnitsLib.conversionFactor - exactConversionFactor|
      ≤ exactConversionFactor / 2 ^ 53 ∧
    ∀ lib : UnitsLib,
      |lib.conversionFactor - exactConversionFactor| ≤ exactConversionFactor / 2 ^ 50 →
      (Centimils.ofMillimeters lib (Millimeters.mk (2 ^ 1014))).value
        = DoubleValue.infinity false ∧
      round ((8727373545474 : ℚ) / (254 / 10) * 1000 * 100) = 34359738368007874 ∧
      ∃ v : ℚ, (Centimils.ofMillimeters lib (Millimeters.mk 8727373545474)).value
          = DoubleValue.finite v ∧
        1 < |v - ((round ((8727373545474 : ℚ) / (254 / 10) * 1000 * 100) : ℤ) : ℚ)| := by
  refine ⟨by rw [exactConversionFactor_eq]; norm_num [sampleUnitsLib, abs_le], ?_⟩
  intro lib hk
  rw [exactConversionFactor_eq, abs_le] at hk
  obtain ⟨hk1, hk2⟩ := hk
  have hround : round ((8727373545474 : ℚ) / (254 / 10) * 1000 * 100) = 34359738368007874 := by
    rw [round_eq, Int.floor_eq_iff]
    norm_num
  refine ⟨?_, hround, ?_⟩
  · have hv : (Millimeters.mk (2 ^ 1014)).value = 2 ^ 1014 := rfl
    rw [Centimils.value_ofMillimeters]
    apply binary64.roundToNearest_overflow
    rw [hv]
    have hk11 : (2 : ℚ) ^ 11 ≤ lib.conversionFactor := by
      have : (2 : ℚ) ^ 11 ≤ 500000 / 127 - 500000 / 127 / 2 ^ 50 := by norm_num
      linarith
    have h : (2 : ℚ) ^ 1025 = 2 ^ 1014 * 2 ^ 11 := by rw [← pow_add]
    rw [h]
    have ha : (0 : ℚ) ≤ 2 ^ 1014 := pow_nonneg (by norm_num) _
    generalize (2 : ℚ) ^ 1014 = a at ha ⊢
    exact mul_le_mul_of_nonneg_left hk11 ha
  · have hv : (Millimeters.mk 8727373545474).value = 8727373545474 := rfl
    have hxlo : (2 : ℚ) ^ 54 ≤ 8727373545474 * lib.conversionFactor := by
      have : (2 : ℚ) ^ 54 ≤ 8727373545474 * (500000 / 127 - 500000 / 127 / 2 ^ 50) := by
        norm_num
      linarith
    have hxhi : 8727373545474 * lib.conversionFactor < (2 : ℚ) ^ 55 := by
      have : 8727373545474 * (500000 / 127 + 500000 / 127 / 2 ^ 50) < (2 : ℚ) ^ 55 := by
        norm_num
      linarith
    have hxpos : (0 : ℚ) < 8727373545474 * lib.conversionFactor :=
      lt_of_lt_of_le (by norm_num) hxlo
    obtain ⟨n, hn⟩ := binary64.roundToNearest_multiple_of_four
      (8727373545474 * lib.conversionFactor) (by rw [abs_of_pos hxpos]; exact hxlo)
      (by rw [abs_of_pos hxpos]; exact hxhi)
    refine ⟨4 * (n : ℚ), ?_, ?_⟩
    · rw [Centimils.value_ofMillimeters, hv, hn]
    · rw [hround]
      have hcast : (4 * (n : ℚ) - ((34359738368007874 : ℤ) : ℚ))
          = ((4 * n - 34359738368007874 : ℤ) : ℚ) := by push_cast; ring
      rw [hcast, ← Int.cast_abs]
      have hint : (2 : ℤ) ≤ |4 * n - 34359738368007874| := by
        rw [le_abs]
        omega
      have : (2 : ℚ) ≤ ((|4 * n - 34359738368007874| : ℤ) : ℚ) := by exact_mod_cast hint
      linarith

/-- Claim C5, amended: for every exponent `t ≤ 51`, every scalar `m` whose
exact conversion `m / 25.4 * 1000 * 100` has magnitude at most `2^t`, and every
conversion factor that is within the relative error `2^-(t+2)` of the exact
ratio of the two base units, the raw value of `Centimils(Millimeters(m))` is a
finite `double` that differs from `round(m / 25.4 * 1000 * 100)` by at most
one centimil. -/
theorem C5_millimeters_to_centimils_within_one (lib : UnitsLib) (m : ℚ) (t : ℕ)
    (ht : t ≤ 51)
    (hk : |lib.conversionFactor - exactConversionFactor|
      ≤ exactConversionFactor / 2 ^ (t + 2))
    (hm : |m / (254 / 10) * 1000 * 100| ≤ 2 ^ t) :
    ∃ v : ℚ, (Centimils.ofMillimeters lib (Millimeters.mk m)).value = DoubleValue.finite v ∧
      |v - ((round (m / (254 / 10) * 1000 * 100) : ℤ) : ℚ)| ≤ 1 := by
  rw [exactConversionFactor_eq] at hk
  have hexact : m / (254 / 10) * 1000 * 100 = m * (500000 / 127) := by ring
  rw [hexact] at hm ⊢
  have htpos : (0 : ℚ) < 2 ^ t := pow_pos (by norm_num) t
  have hfac : |m * lib.conversionFactor - m * (500000 / 127)| ≤ 1 / 4 := by
    rw [← mul_sub, abs_mul]
    have hmK : |m| * (500000 / 127) ≤ 2 ^ t := by
      rw [abs_mul, abs_of_pos (by norm_num : (0 : ℚ) < 500000 / 127)] at hm
      exact hm
    calc |m| * |lib.conversionFactor - 500000 / 127|
        ≤ |m| * (500000 / 127 / 2 ^ (t + 2)) := mul_le_mul_of_nonneg_left hk (abs_nonneg m)
      _ = |m| * (500000 / 127) / 2 ^ (t + 2) := by ring
      _ ≤ 2 ^ t / 2 ^ (t + 2) := by
          apply div_le_div_of_nonneg_right hmK (by positivity)
      _ = 1 / 4 := by
          rw [pow_add]
          field_simp
          ring
  have h51 : (2 : ℚ) ^ t ≤ 2 ^ 51 := pow_le_pow_right₀ (by norm_num) ht
  have hlt : |m * lib.conversionFactor| < 2 ^ 52 := by
    have := abs_sub_abs_le_abs_sub (m * lib.conversionFactor) (m * (500000 / 127))
    have h52 : (2 : ℚ) ^ 51 + 1 / 4 < 2 ^ 52 := by norm_num
    linarith
  obtain ⟨v, hv, hround⟩ := binary64.roundToNearest_of_lt (m * lib.conversionFactor) hlt
  refine ⟨v, hv, ?_⟩
  have hr := abs_sub_round (m * (500000 / 127))
  have h1 := abs_sub_le v (m * lib.conversionFactor)
    ((round (m * (500000 / 127)) : ℤ) : ℚ)
  have h2 := abs_sub_le (m * lib.conversionFactor) (m * (500000 / 127))
    ((round (m * (500000 / 127)) : ℤ) : ℚ)
  linarith

/-- Witness for C5: one millimetre and the bound `2^51`, with the conversion
factor the `double` nearest to the exact ratio. -/
theorem C5_millimeters_to_centimils_within_one_witness :
    |sampleUnitsLib.conversionFactor - exactConversionFactor|
      ≤ exactConversionFactor / 2 ^ (51 + 2) ∧
    |(1 : ℚ) / (254 / 10) * 1000 * 100| ≤ 2 ^ 51 ∧
    ∃ v : ℚ, (Centimils.ofMillimeters sampleUnitsLib (Millimeters.mk 1)).value
        = DoubleValue.finite v ∧
      |v - ((round ((1 : ℚ) / (254 / 10) * 1000 * 100) : ℤ) : ℚ)| ≤ 1 :=
  ⟨by rw [exactConversionFactor_eq]; norm_num [sampleUnitsLib, abs_le],
   by norm_num [abs_le],
   C5_millimeters_to_centimils_within_one sampleUnitsLib 1 51 (by norm_num)
     (by rw [exactConversionFactor_eq]; norm_num [sampleUnitsLib, abs_le])
     (by norm_num [abs_le])⟩

/-! ## Attribute consumption -/

/-- Claim C6: an attribute whose name the element kind does not recognize is
refused by `tryHandleAttribute` (result `false`) and the object comes back
with every field and every has-flag as it was; this holds for Text, Hole,
Wire, Rectangle, Circle and Package, in every object state. -/
theorem C6_unrecognized_attribute_refused_unchanged (c : Libc) (attr : Attribute) :
    (attr.name ∉ ["layer", "x", "y", "rot", "size", "ratio", "language", "font", "align"] →
      ∀ t : Text, Text.tryHandleAttribute c t attr = some (false, t, [])) ∧
    (attr.name ∉ ["layer", "x", "y", "rot", "drill"] →
      ∀ h : Hole, Hole.tryHandleAttribute c h attr = some (false, h)) ∧
    (attr.name ∉ ["layer", "width", "x1", "y1", "x2", "y2", "curve"] →
      ∀ w : Wire, Wire.tryHandleAttribute c w attr = some (false, w)) ∧
    (attr.name ∉ ["layer", "width", "x1", "y1", "x2", "y2", "rot"] →
      ∀ r : Rectangle, Rectangle.tryHandleAttribute c r attr = some (false, r)) ∧
    (attr.name ∉ ["layer", "x", "y", "rot", "width", "radius"] →
      ∀ o : Circle, Circle.tryHandleAttribute c o attr = some (false, o)) ∧
    (attr.name ∉ ["name"] →
      ∀ p : Package, Package.tryHandleAttribute p attr = some (false, p)) := by
  refine ⟨?_, ?_, ?_, ?_, ?_, ?_⟩ <;> intro h <;>
    simp only [List.mem_cons, List.mem_singleton, List.not_mem_nil, or_false, not_or,
      @eq_comm _ attr.name] at h <;> intro o <;>
    simp [Text.tryHandleAttribute, Hole.tryHandleAttribute, Wire.tryHandleAttribute,
      Rectangle.tryHandleAttribute, Circle.tryHandleAttribute, Package.tryHandleAttribute,
      Pose.tryHandleAttribute, EndPoints.tryHandleAttribute, InLayer.tryHandleAttribute,
      HasWidth.tryHandleAttribute, Attribute.getName, h]

/-- Witness for C6: `cap="round"` is refused by every element kind and by a
package, and the object is returned as it was. -/
theorem C6_unrecognized_attribute_refused_unchanged_witness :
    Text.tryHandleAttribute sampleLibc {} ⟨"cap", "round"⟩ = some (false, {}, []) ∧
    Wire.tryHandleAttribute sampleLibc { hasX1_ := true, x1_ := 3 } ⟨"cap", "round"⟩
      = some (false, { hasX1_ := true, x1_ := 3 }) ∧
    Package.tryHandleAttribute { hasName_ := true, name_ := "name" } ⟨"cap", "round"⟩
      = some (false, { hasName_ := true, name_ := "name" }) :=
  ⟨(C6_unrecognized_attribute_refused_unchanged sampleLibc ⟨"cap", "round"⟩).1
      (by decide) {},
   (C6_unrecognized_attribute_refused_unchanged sampleLibc ⟨"cap", "round"⟩).2.2.1
      (by decide) { hasX1_ := true, x1_ := 3 },
   (C6_unrecognized_attribute_refused_unchanged sampleLibc ⟨"cap", "round"⟩).2.2.2.2.2
      (by decide) { hasName_ := true, name_ := "name" }⟩

/-- Counterexample to C8 as stated: on a Text, a second `language` attribute
is accepted and replaces the language recorded by the first, and a second
`font` attribute is accepted as well; neither call fails. -/
theorem C8_counterexample_text_language_set_twice :
    Text.tryHandleAttribute sampleLibc {} ⟨"language", "de"⟩
      = some (true, { language_ := Language.GERMAN }, []) ∧
    Text.tryHandleAttribute sampleLibc { language_ := Language.GERMAN } ⟨"language", "en"⟩
      = some (true, { language_ := Language.ENGLISH }, []) ∧
    Text.tryHandleAttribute sampleLibc {} ⟨"font", "vector"⟩ = some (true, {}, []) := by
  decide

/-- Claim C8, amended: for every element kind and every recognized attribute
name that has a has-flag (all recognized names except `language`, `font` and
`align` of Text), once a call with that name has returned `true`, a second
call with the same name fails and returns nothing, so the stored value is
never replaced; for `language`, `font` and `align` a call on a Text never
fails and returns `true`. -/
theorem C8_duplicate_flagged_attribute_fails (c : Libc) (a b : Attribute)
    (hname : b.name = a.name) :
    (a.name ∈ ["layer", "x", "y", "rot", "size", "ratio"] →
      ∀ (t t' : Text) (out : List String),
        Text.tryHandleAttribute c t a = some (true, t', out) →
        Text.tryHandleAttribute c t' b = none) ∧
    (a.name ∈ ["layer", "x", "y", "rot", "drill"] →
      ∀ h h' : Hole, Hole.tryHandleAttribute c h a = some (true, h') →
        Hole.tryHandleAttribute c h' b = none) ∧
    (a.name ∈ ["layer", "width", "x1", "y1", "x2", "y2", "curve"] →
      ∀ w w' : Wire, Wire.tryHandleAttribute c w a = some (true, w') →
        Wire.tryHandleAttribute c w' b = none) ∧
    (a.name ∈ ["layer", "width", "x1", "y1", "x2", "y2", "rot"] →
      ∀ r r' : Rectangle, Rectangle.tryHandleAttribute c r a = some (true, r') →
        Rectangle.tryHandleAttribute c r' b = none) ∧
    (a.name ∈ ["layer", "x", "y", "rot", "width", "radius"] →
      ∀ o o' : Circle, Circle.tryHandleAttribute c o a = some (true, o') →
        Circle.tryHandleAttribute c o' b = none) ∧
    (a.name ∈ ["name"] →
      ∀ p p' : Package, Package.tryHandleAttribute p a = some (true, p') →
        Package.tryHandleAttribute p' b = none) ∧
    (a.name ∈ ["language", "font", "align"] →
      ∀ t : Text, ∃ (t' : Text) (out : List String),
        Text.tryHandleAttribute c t a = some (true, t', out)) := by
  refine ⟨?_, ?_, ?_, ?_, ?_, ?_, ?_⟩
  · intro hmem t t' out h1
    simp only [List.mem_cons, List.mem_singleton, List.not_mem_nil, or_false] at hmem
    rw [Text.tryHandleAttribute_eq_text] at h1 ⊢
    rcases hmem with hn | hn | hn | hn | hn | hn <;> simp [hn, hname] at h1 ⊢ <;>
      (obtain ⟨_, h1⟩ := h1; simp [← h1])
  · intro hmem h h' h1
    simp only [List.mem_cons, List.mem_singleton, List.not_mem_nil, or_false] at hmem
    rw [Hole.tryHandleAttribute_eq_hole] at h1 ⊢
    rcases hmem with hn | hn | hn | hn | hn <;> simp [hn, hname] at h1 ⊢ <;>
      (obtain ⟨_, h1⟩ := h1; simp [← h1])
  · intro hmem w w' h1
    simp only [List.mem_cons, List.mem_singleton, List.not_mem_nil, or_false] at hmem
    rw [Wire.tryHandleAttribute_eq_wire] at h1 ⊢
    rcases hmem with hn | hn | hn | hn | hn | hn | hn <;> simp [hn, hname] at h1 ⊢ <;>
      (obtain ⟨_, h1⟩ := h1; simp [← h1])
  · intro hmem r r' h1
    simp only [List.mem_cons, List.mem_singleton, List.not_mem_nil, or_false] at hmem
    rw [Rectangle.tryHandleAttribute_eq_rectangle] at h1 ⊢
    rcases hmem with hn | hn | hn | hn | hn | hn | hn <;> simp [hn, hname] at h1 ⊢ <;>
      (obtain ⟨_, h1⟩ := h1; simp [← h1])
  · intro hmem o o' h1
    simp only [List.mem_cons, List.mem_singleton, List.not_mem_nil, or_false] at hmem
    rw [Circle.tryHandleAttribute_eq_circle] at h1 ⊢
    rcases hmem with hn | hn | hn | hn | hn | hn <;> simp [hn, hname] at h1 ⊢ <;>
      (obtain ⟨_, h1⟩ := h1; simp [← h1])
  · intro hmem p p' h1
    simp only [List.mem_singleton] at hmem
    cases hf : p.hasName_ <;>
      simp [Package.tryHandleAttribute, Attribute.getName, NAME, hmem, hf] at h1
    subst h1
    simp [Package.tryHandleAttribute, Attribute.getName, NAME, hmem, hname]
  · intro hmem t
    simp only [List.mem_cons, List.mem_singleton, List.not_mem_nil, or_false] at hmem
    rw [Text.tryHandleAttribute_eq_text]
    rcases hmem with hn | hn | hn
    · simp [hn]
      split_ifs <;> simp
    · simp [hn]
    · simp [hn]

/-- Witness for C8: `x1` given twice to a wire, and `name` given twice to a
package. -/
theorem C8_duplicate_flagged_attribute_fails_witness :
    Wire.tryHandleAttribute sampleLibc Wire.new ⟨"x1", "0"⟩
      = some (true, { Wire.new with x1_ := 0, hasX1_ := true }) ∧
    Wire.tryHandleAttribute sampleLibc { Wire.new with x1_ := 0, hasX1_ := true } ⟨"x1", "5"⟩
      = none ∧
    Package.tryHandleAttribute { Package.new with name_ := "name", hasName_ := true }
      ⟨"name", "DIP8"⟩ = none :=
  ⟨by decide,
   (C8_duplicate_flagged_attribute_fails sampleLibc ⟨"x1", "0"⟩ ⟨"x1", "5"⟩ rfl).2.2.1
      (by decide) Wire.new _ (by decide),
   (C8_duplicate_flagged_attribute_fails sampleLibc ⟨"name", "SO8"⟩ ⟨"name", "DIP8"⟩
      rfl).2.2.2.2.2.1 (by decide) Package.new _ (by decide)⟩

/-! ## Inside a `description` element -/

/-- A start event accepted inside a `description` element keeps the facts. -/
theorem SAXHandler.startElement_inDescription (c : Libc) (h h' : SAXHandler) (name : String)
    (attrs : AttributeList) (language : Language) (description : String) (hasString : Bool)
    (hj : h.InDescription language description hasString)
    (hs : h.startElement c name attrs = some h') :
    h'.InDescription language description hasString := by
  obtain ⟨j1, j2, j3, j4, j5, ⟨t, jt, jl, jh⟩, ⟨p, jp, jd⟩⟩ := hj
  unfold SAXHandler.startElement at hs
  by_cases h1 : "layers" = name
  · subst h1
    simp [LAYERS, BOARD, PLAIN, LAYER, TEXT, DESCRIPTION, NOTE, WIRE, HOLE, RECTANGLE, CIRCLE, PACKAGES, PACKAGE] at hs
    repeat (obtain ⟨hfact, hs⟩ := hs)
    try subst hs
    (constructor <;> simp_all)
  by_cases h2 : "board" = name
  · subst h2
    simp [LAYERS, BOARD, PLAIN, LAYER, TEXT, DESCRIPTION, NOTE, WIRE, HOLE, RECTANGLE, CIRCLE, PACKAGES, PACKAGE] at hs
    repeat (obtain ⟨hfact, hs⟩ := hs)
    try subst hs
    (constructor <;> simp_all)
  by_cases h3 : "plain" = name
  · subst h3
    simp [LAYERS, BOARD, PLAIN, LAYER, TEXT, DESCRIPTION, NOTE, WIRE, HOLE, RECTANGLE, CIRCLE, PACKAGES, PACKAGE] at hs
    repeat (obtain ⟨hfact, hs⟩ := hs)
    try subst hs
    (constructor <;> simp_all)
  by_cases h4 : "layer" = name
  · subst h4
    simp [LAYERS, BOARD, PLAIN, LAYER, TEXT, DESCRIPTION, NOTE, WIRE, HOLE, RECTANGLE, CIRCLE, PACKAGES, PACKAGE] at hs
    repeat (obtain ⟨hfact, hs⟩ := hs)
    try subst hs
    (constructor <;> simp_all)
  by_cases h5 : "text" = name
  · subst h5
    simp [LAYERS, BOARD, PLAIN, LAYER, TEXT, DESCRIPTION, NOTE, WIRE, HOLE, RECTANGLE, CIRCLE, PACKAGES, PACKAGE, SAXHandler.handleTextDefinition, SAXHandler.log, Ptr.isNonNull, Ptr.deref,
      Option.bind_eq_some] at hs
    repeat (obtain ⟨hfact, hs⟩ := hs)
    try subst hs
    (constructor <;> simp_all)
  by_cases h6 : "description" = name
  · subst h6
    simp [LAYERS, BOARD, PLAIN, LAYER, TEXT, DESCRIPTION, NOTE, WIRE, HOLE, RECTANGLE, CIRCLE, PACKAGES, PACKAGE, SAXHandler.handleTextDefinition, SAXHandler.log, Ptr.isNonNull, Ptr.deref,
      Option.bind_eq_some] at hs
    repeat (obtain ⟨hfact, hs⟩ := hs)
    try subst hs
    (constructor <;> simp_all)
  by_cases h7 : "note" = name
  · subst h7
    simp [LAYERS, BOARD, PLAIN, LAYER, TEXT, DESCRIPTION, NOTE, WIRE, HOLE, RECTANGLE, CIRCLE, PACKAGES, PACKAGE] at hs
    repeat (obtain ⟨hfact, hs⟩ := hs)
    try subst hs
    (constructor <;> simp_all)
  by_cases h8 : "wire" = name
  · subst h8
    simp [LAYERS, BOARD, PLAIN, LAYER, TEXT, DESCRIPTION, NOTE, WIRE, HOLE, RECTANGLE, CIRCLE, PACKAGES, PACKAGE, SAXHandler.handleWireDefinition, SAXHandler.log, Option.bind_eq_some] at hs
    obtain ⟨hl, w, out, hw, hs⟩ := hs
    split_ifs at hs
    simp [Option.bind_eq_some] at hs
    repeat (obtain ⟨hfact, hs⟩ := hs)
    (constructor <;> simp_all [Board.addWire, Board.addHole, Board.addRectangle])
  by_cases h9 : "hole" = name
  · subst h9
    simp [LAYERS, BOARD, PLAIN, LAYER, TEXT, DESCRIPTION, NOTE, WIRE, HOLE, RECTANGLE, CIRCLE, PACKAGES, PACKAGE, SAXHandler.handleHoleDefinition, SAXHandler.log, Option.bind_eq_some] at hs
    obtain ⟨hl, w, out, hw, hs⟩ := hs
    split_ifs at hs
    simp [Option.bind_eq_some] at hs
    repeat (obtain ⟨hfact, hs⟩ := hs)
    (constructor <;> simp_all [Board.addWire, Board.addHole, Board.addRectangle])
  by_cases h10 : "rectangle" = name
  · subst h10
    simp [LAYERS, BOARD, PLAIN, LAYER, TEXT, DESCRIPTION, NOTE, WIRE, HOLE, RECTANGLE, CIRCLE, PACKAGES, PACKAGE, SAXHandler.handleRectangleDefinition, SAXHandler.log, Option.bind_eq_some] at hs
    obtain ⟨hl, w, out, hw, hs⟩ := hs
    split_ifs at hs
    simp [Option.bind_eq_some] at hs
    repeat (obtain ⟨hfact, hs⟩ := hs)
    (constructor <;> simp_all [Board.addWire, Board.addHole, Board.addRectangle])
  by_cases h11 : "circle" = name
  · subst h11
    simp [LAYERS, BOARD, PLAIN, LAYER, TEXT, DESCRIPTION, NOTE, WIRE, HOLE, RECTANGLE, CIRCLE, PACKAGES, PACKAGE, SAXHandler.handleCircleDefinition, SAXHandler.log, Option.bind_eq_some] at hs
    repeat (obtain ⟨hfact, hs⟩ := hs)
    try subst hs
    (constructor <;> simp_all)
  by_cases h12 : "packages" = name
  · subst h12
    simp [LAYERS, BOARD, PLAIN, LAYER, TEXT, DESCRIPTION, NOTE, WIRE, HOLE, RECTANGLE, CIRCLE, PACKAGES, PACKAGE] at hs
    repeat (obtain ⟨hfact, hs⟩ := hs)
    try subst hs
    (constructor <;> simp_all)
  by_cases h13 : "package" = name
  · subst h13
    simp [LAYERS, BOARD, PLAIN, LAYER, TEXT, DESCRIPTION, NOTE, WIRE, HOLE, RECTANGLE, CIRCLE, PACKAGES, PACKAGE] at hs
    repeat (obtain ⟨hfact, hs⟩ := hs)
    try subst hs
    (constructor <;> simp_all)
  simp [LAYERS, BOARD, PLAIN, LAYER, TEXT, DESCRIPTION, NOTE, WIRE, HOLE, RECTANGLE, CIRCLE, PACKAGES, PACKAGE, h1, h2, h3, h4, h5, h6, h7, h8, h9, h10, h11, h12, h13] at hs
  subst hs
  have g12 : ¬ name = "packages" := fun e => h12 e.symm
  have g13 : ¬ name = "package" := fun e => h13 e.symm
  (constructor <;> simp_all)

/-- An end event other than the end of the description or of the package,
accepted inside a `description` element, keeps the facts. -/
theorem SAXHandler.endElement_inDescription (h h' : SAXHandler) (name : String)
    (language : Language) (description : String) (hasString : Bool)
    (hj : h.InDescription language description hasString)
    (hn1 : name ≠ "description") (hn2 : name ≠ "package")
    (hs : h.endElement name = some h') :
    h'.InDescription language description hasString := by
  obtain ⟨j1, j2, j3, j4, j5, ⟨t, jt, jl, jh⟩, ⟨p, jp, jd⟩⟩ := hj
  unfold SAXHandler.endElement at hs
  by_cases h1 : "layers" = name
  · subst h1
    simp [LAYERS, BOARD, PLAIN, TEXT, DESCRIPTION, NOTE, PACKAGES, PACKAGE, SAXHandler.log, Ptr.isNonNull, Option.bind_eq_some] at hs
    repeat (obtain ⟨hfact, hs⟩ := hs)
    try subst hs
    (constructor <;> simp_all)
  by_cases h2 : "board" = name
  · subst h2
    simp [LAYERS, BOARD, PLAIN, TEXT, DESCRIPTION, NOTE, PACKAGES, PACKAGE, SAXHandler.log, Ptr.isNonNull, Option.bind_eq_some] at hs
    repeat (obtain ⟨hfact, hs⟩ := hs)
    try subst hs
    (constructor <;> simp_all)
  by_cases h3 : "plain" = name
  · subst h3
    simp [LAYERS, BOARD, PLAIN, TEXT, DESCRIPTION, NOTE, PACKAGES, PACKAGE, SAXHandler.log, Ptr.isNonNull, Option.bind_eq_some] at hs
    repeat (obtain ⟨hfact, hs⟩ := hs)
    try subst hs
    (constructor <;> simp_all)
  by_cases h4 : "text" = name
  · subst h4
    simp [LAYERS, BOARD, PLAIN, TEXT, DESCRIPTION, NOTE, PACKAGES, PACKAGE, SAXHandler.log, Ptr.isNonNull, Option.bind_eq_some] at hs
    obtain ⟨hl, hnn, ht, text, htext, hs⟩ := hs
    split_ifs at hs
    simp [Option.bind_eq_some] at hs
    repeat (obtain ⟨hfact, hs⟩ := hs)
    (constructor <;> simp_all [Board.addText])
  by_cases h5 : "description" = name
  · subst h5
    simp [LAYERS, BOARD, PLAIN, TEXT, DESCRIPTION, NOTE, PACKAGES, PACKAGE, SAXHandler.log, Ptr.isNonNull, Option.bind_eq_some] at hs
    repeat (obtain ⟨hfact, hs⟩ := hs)
    try subst hs
    (constructor <;> simp_all)
  by_cases h6 : "note" = name
  · subst h6
    simp [LAYERS, BOARD, PLAIN, TEXT, DESCRIPTION, NOTE, PACKAGES, PACKAGE, SAXHandler.log, Ptr.isNonNull, Option.bind_eq_some] at hs
    repeat (obtain ⟨hfact, hs⟩ := hs)
    try subst hs
    (constructor <;> simp_all)
  by_cases h7 : "package" = name
  · subst h7
    simp [LAYERS, BOARD, PLAIN, TEXT, DESCRIPTION, NOTE, PACKAGES, PACKAGE, SAXHandler.log, Ptr.isNonNull, Option.bind_eq_some] at hs
    repeat (obtain ⟨hfact, hs⟩ := hs)
    try subst hs
    (constructor <;> simp_all)
  by_cases h8 : "packages" = name
  · subst h8
    simp [LAYERS, BOARD, PLAIN, TEXT, DESCRIPTION, NOTE, PACKAGES, PACKAGE, SAXHandler.log, Ptr.isNonNull, Option.bind_eq_some] at hs
    repeat (obtain ⟨hfact, hs⟩ := hs)
    try subst hs
    (constructor <;> simp_all)
  simp [LAYERS, BOARD, PLAIN, TEXT, DESCRIPTION, NOTE, PACKAGES, PACKAGE, h1, h2, h3, h4, h5, h6, h7, h8] at hs
  subst hs
  have g4 : ¬ name = "text" := fun e => h4 e.symm
  have g7 : ¬ name = "package" := fun e => h7 e.symm
  (constructor <;> simp_all)


/-- Character data accepted inside a `description` element goes to the
in-progress text, which had no string before and has one afterwards. -/
theorem SAXHandler.characters_inDescription (h h' : SAXHandler) (chars : String)
    (length : Nat) (language : Language) (description : String) (hasString : Bool)
    (hj : h.InDescription language description hasString)
    (hs : h.characters chars length = some h') :
    hasString = false ∧ h'.InDescription language description true := by
  obtain ⟨j1, j2, j3, j4, j5, ⟨t, jt, jl, jh⟩, ⟨p, jp, jd⟩⟩ := hj
  cases hasString with
  | true =>
    simp [SAXHandler.characters, j1, j2, jt, Ptr.deref, Text.handleCharacters, jh, assert] at hs
  | false =>
    simp [SAXHandler.characters, j1, j2, jt, Ptr.deref, Text.handleCharacters, jh, assert] at hs
    subst hs
    exact ⟨rfl, by constructor <;> simp_all⟩

/-- Any callback other than the end of the description or of the package,
accepted inside a `description` element, keeps the facts; character data sets
the string of the in-progress text. -/
theorem SAXHandler.step_inDescription (c : Libc) (h h' : SAXHandler) (e : Event)
    (language : Language) (description : String) (hasString : Bool)
    (hj : h.InDescription language description hasString)
    (he : e ≠ Event.endElement "description" ∧ e ≠ Event.endElement "package")
    (hs : h.step c e = some h') :
    h'.InDescription language description (hasString || e.isCharacters) := by
  cases e with
  | startElement n attrs =>
    simpa [Event.isCharacters] using
      SAXHandler.startElement_inDescription c h h' n attrs language description hasString hj hs
  | endElement n =>
    have hn1 : n ≠ "description" := fun hn => he.1 (by rw [hn])
    have hn2 : n ≠ "package" := fun hn => he.2 (by rw [hn])
    simpa [Event.isCharacters] using
      SAXHandler.endElement_inDescription h h' n language description hasString hj hn1 hn2 hs
  | characters chars length =>
    simpa [Event.isCharacters] using
      (SAXHandler.characters_inDescription h h' chars length language description hasString
        hj hs).2
  | _ =>
    simp [SAXHandler.step, SAXHandler.log, SAXHandler.setDocumentLocator] at hs
    subst hs
    obtain ⟨j1, j2, j3, j4, j5, j6, j7⟩ := hj
    simp only [Event.isCharacters, Bool.or_false]
    constructor <;> simp_all

/-- A sequence of callbacks accepted inside a `description` element keeps the
facts; the in-progress text has its string afterwards exactly when it had one
before or character data was among the callbacks. -/
theorem SAXHandler.run_inDescription (c : Libc) (es : List Event) (language : Language)
    (description : String) :
    ∀ (h h' : SAXHandler) (hasString : Bool), h.InDescription language description hasString →
      (∀ e ∈ es, e ≠ Event.endElement "description" ∧ e ≠ Event.endElement "package") →
      h.run c es = some h' →
      h'.InDescription language description (hasString || es.any Event.isCharacters) := by
  induction es with
  | nil =>
    intro h h' s hj _ hs
    simp [SAXHandler.run] at hs
    subst hs
    simpa using hj
  | cons e es ih =>
    intro h h' s hj hes hs
    simp only [SAXHandler.run] at hs
    cases hstep : h.step c e with
    | none => simp [hstep] at hs
    | some next =>
      simp only [hstep] at hs
      have hnext := SAXHandler.step_inDescription c h next e language description s hj
        (hes e (List.mem_cons_self _ _)) hstep
      have := ih next h' _ hnext (fun e' he' => hes e' (List.mem_cons_of_mem _ he')) hs
      simpa [Bool.or_assoc] using this

/-- One attribute consumed by a text: the string is untouched; a `language`
attribute with the value `de` makes the text German, an attribute of another
name leaves the language as it was. -/
theorem Text.tryHandleAttribute_language (c : Libc) (w w' : Text) (a : Attribute) (r : Bool)
    (out : List String) (h : Text.tryHandleAttribute c w a = some (r, w', out)) :
    w'.hasString_ = w.hasString_ ∧
    (a.name = "language" → a.value = "de" → w'.language_ = Language.GERMAN) ∧
    (a.name ≠ "language" → w'.language_ = w.language_) := by
  rw [Text.tryHandleAttribute_eq_text] at h
  obtain ⟨m, v⟩ := a
  simp only at h
  split_ifs at h <;> cases h <;> refine ⟨rfl, ?_, ?_⟩ <;> intros <;> simp_all

/-- The attribute loop of a text leaves the string untouched, and yields a
German text when the text was German or the list has a `language` attribute,
provided every `language` attribute in the list has the value `de`. -/
theorem SAXHandler.textAttributes_german (c : Libc) (attrs : AttributeList) :
    ∀ (w t : Text) (out : List String), SAXHandler.textAttributes c w attrs = some (t, out) →
      (∀ a ∈ attrs, a.name = "language" → a.value = "de") →
      t.hasString_ = w.hasString_ ∧
      ((w.language_ = Language.GERMAN ∨ ∃ a ∈ attrs, a.name = "language") →
        t.language_ = Language.GERMAN) := by
  induction attrs with
  | nil =>
    intro w t out h _
    simp [SAXHandler.textAttributes] at h
    obtain ⟨rfl, -⟩ := h
    exact ⟨rfl, fun hg => by simpa using hg⟩
  | cons a rest ih =>
    intro w t out h hall
    simp only [SAXHandler.textAttributes] at h
    cases htry : Text.tryHandleAttribute c w a with
    | none => simp [htry] at h
    | some res =>
      obtain ⟨r, w', o⟩ := res
      obtain ⟨hstr, hde, hother⟩ := Text.tryHandleAttribute_language c w w' a r o htry
      have hrest : ∃ out', SAXHandler.textAttributes c w' rest = some (t, out') := by
        cases r <;> simp [htry, Option.map_eq_some'] at h <;>
          obtain ⟨t', o', ht', rfl, -⟩ := h <;> exact ⟨o', ht'⟩
      obtain ⟨out', hrest⟩ := hrest
      obtain ⟨h1, h2⟩ := ih w' t out' hrest
        (fun b hb => hall b (List.mem_cons_of_mem _ hb))
      refine ⟨h1.trans hstr, ?_⟩
      intro hg
      apply h2
      by_cases hname : a.name = "language"
      · exact Or.inl (hde hname (hall a (List.mem_cons_self _ _) hname))
      · rcases hg with hg | ⟨b, hb, hbn⟩
        · exact Or.inl ((hother hname).trans hg)
        · rcases List.mem_cons.mp hb with rfl | hb'
          · exact absurd hbn hname
          · exact Or.inr ⟨b, hb', hbn⟩

/-- The end of a German `description`: accepted exactly when the in-progress
text has received its string, and then only the text slot and the
in-description flag change. -/
theorem SAXHandler.endElement_description_german (h : SAXHandler) (description : String)
    (hasString : Bool) (hj : h.InDescription Language.GERMAN description hasString) :
    h.endElement "description" =
      if hasString = true then
        some { h with currentText_ := Ptr.dangling, isDefiningDescription_ := false }
      else none := by
  obtain ⟨j1, j2, j3, j4, j5, ⟨t, jt, jl, jh⟩, ⟨p, jp, jd⟩⟩ := hj
  cases hasString <;>
    simp [SAXHandler.endElement, assert, Ptr.deref, Package.setDescription, Text.hasString,
      Text.getLanguage, Text.getString, j1, j2, j3, j4, j5, jt, jl, jh, jp, LAYERS, BOARD,
      PLAIN, TEXT, DESCRIPTION]

/-! ## Package descriptions -/

/-- Claim C9: for every reachable state with a package under construction and
all strings A and B, whenever the package receives two `description`
elements, one with language="en" and character data A and one with
language="de" and character data B, in either order, the package afterwards
is the same package with description A; and the two elements are accepted
whenever layer-set, description, note and text are closed. -/
theorem C9_english_description_is_retained (c : Libc) (h : SAXHandler) (A B : String)
    (m n : Nat) (hr : h.Reachable c) (hp : h.isDefiningPackage_ = true) :
    ∃ p, h.currentPackage_ = some p ∧
      (∀ h', (h.run c (descriptionElement "en" A m ++ descriptionElement "de" B n) = some h' ∨
              h.run c (descriptionElement "de" B n ++ descriptionElement "en" A m) = some h') →
        h'.currentPackage_ = some { p with description_ := A }) ∧
      (h.isDefiningLayers_ = false → h.isDefiningDescription_ = false →
        h.isDefiningNote_ = false → h.isDefiningText_ = false →
        (h.run c (descriptionElement "en" A m ++ descriptionElement "de" B n)).isSome = true ∧
        (h.run c (descriptionElement "de" B n ++ descriptionElement "en" A m)).isSome
          = true) := by
  have hi := hr.inv
  have hsome : h.currentPackage_.isSome = true := by rw [← hi.package_iff]; exact hp
  obtain ⟨p, hcp⟩ := Option.isSome_iff_exists.mp hsome
  have hps := hi.package_packages hp
  refine ⟨p, hcp, ?_, ?_⟩
  · intro h' hrun
    by_cases hf : h.isDefiningLayers_ = false ∧ h.isDefiningDescription_ = false ∧
          h.isDefiningNote_ = false ∧ h.isDefiningText_ = false ∧
          h.isDefiningPackages_ = true ∧ h.isDefiningPackage_ = true
    · rcases hrun with hrun | hrun
      · rw [SAXHandler.run_append, SAXHandler.run_description_en, if_pos hf, hcp] at hrun
        simp only [Option.some_bind] at hrun
        rw [SAXHandler.run_description_de, if_pos hf] at hrun
        simp at hrun
        subst hrun
        rfl
      · rw [SAXHandler.run_append, SAXHandler.run_description_de, if_pos hf, hcp] at hrun
        simp only [Option.some_bind] at hrun
        rw [SAXHandler.run_description_en, if_pos hf] at hrun
        simp at hrun
        subst hrun
        rfl
    · rcases hrun with hrun | hrun
      · rw [SAXHandler.run_append, SAXHandler.run_description_en, if_neg hf] at hrun
        simp at hrun
      · rw [SAXHandler.run_append, SAXHandler.run_description_de, if_neg hf] at hrun
        simp at hrun
  · intro a1 a2 a3 a4
    have hf : h.isDefiningLayers_ = false ∧ h.isDefiningDescription_ = false ∧
          h.isDefiningNote_ = false ∧ h.isDefiningText_ = false ∧
          h.isDefiningPackages_ = true ∧ h.isDefiningPackage_ = true :=
      ⟨a1, a2, a3, a4, hps, hp⟩
    constructor
    · rw [SAXHandler.run_append, SAXHandler.run_description_en, if_pos hf, hcp]
      simp only [Option.some_bind]
      rw [SAXHandler.run_description_de, if_pos hf]
      simp
    · rw [SAXHandler.run_append, SAXHandler.run_description_de, if_pos hf, hcp]
      simp only [Option.some_bind]
      rw [SAXHandler.run_description_en, if_pos hf]
      simp

/-- Witness for C9: the package opened by `packages`, `package`. -/
theorem C9_english_description_is_retained_witness :
    packageOpen.Reachable sampleLibc ∧
    (packageOpen.run sampleLibc
        (descriptionElement "en" "A" 1 ++ descriptionElement "de" "B" 1)).map
      (fun h => h.currentPackage_) = some (some { Package.new with description_ := "A" }) ∧
    (packageOpen.run sampleLibc
        (descriptionElement "de" "B" 1 ++ descriptionElement "en" "A" 1)).map
      (fun h => h.currentPackage_) = some (some { Package.new with description_ := "A" }) ∧
    ∃ p, packageOpen.currentPackage_ = some p ∧
      (∀ h',
        (packageOpen.run sampleLibc
            (descriptionElement "en" "A" 1 ++ descriptionElement "de" "B" 1) = some h' ∨
         packageOpen.run sampleLibc
            (descriptionElement "de" "B" 1 ++ descriptionElement "en" "A" 1) = some h') →
        h'.currentPackage_ = some { p with description_ := "A" }) :=
  ⟨⟨[Event.startElement "packages" [], Event.startElement "package" []], by decide⟩,
   by decide, by decide,
   (C9_english_description_is_retained sampleLibc packageOpen "A" "B" 1 1
      ⟨[Event.startElement "packages" [], Event.startElement "package" []], by decide⟩
      rfl).imp fun _ hp => ⟨hp.1, hp.2.1⟩⟩

/-- Counterexample to C10 as stated: a package that holds the description
"English" receives a `description` element with language="fr"; closing it
replaces the retained description by the French text. -/
theorem C10_counterexample_french_description_replaces :
    (SAXHandler.new.run sampleLibc
        ([Event.startElement "packages" [], Event.startElement "package" []]
          ++ descriptionElement "en" "English" 7)).map
      (fun h => h.currentPackage_.map fun p => p.description_) = some (some "English") ∧
    (SAXHandler.new.run sampleLibc
        ([Event.startElement "packages" [], Event.startElement "package" []]
          ++ descriptionElement "en" "English" 7
          ++ descriptionElement "fr" "Francais" 8)).map
      (fun h => h.currentPackage_.map fun p => p.description_) = some (some "Francais") := by
  decide

/-- Claim C10, amended: for every handler state with a package under
construction, and every accepted `description` start event that carries a
`language` attribute and whose `language` attributes all have the value `de`,
whatever its other attributes, and for every accepted sequence of callbacks
after it up to its end (the content of the element, which holds neither the
end of the description nor the end of the package): the package then under
construction has the description the package had before the element started,
and closing the description is accepted exactly when character data was
delivered, and changes nothing but the in-progress text slot and the
in-description flag, so the package and its retained description are as
before the closing. -/
theorem C10_german_description_leaves_package_unchanged (c : Libc) (h h₁ h₂ : SAXHandler)
    (p : Package) (attrs : AttributeList) (es : List Event)
    (hp : h.currentPackage_ = some p)
    (hde : ∃ a ∈ attrs, a.name = "language")
    (hall : ∀ a ∈ attrs, a.name = "language" → a.value = "de")
    (hes : ∀ e ∈ es, e ≠ Event.endElement "description" ∧ e ≠ Event.endElement "package")
    (hstart : h.startElement c "description" attrs = some h₁)
    (hrun : h₁.run c es = some h₂) :
    ∃ p₂, h₂.currentPackage_ = some p₂ ∧ p₂.description_ = p.description_ ∧
      h₂.endElement "description" =
        if es.any Event.isCharacters = true then
          some { h₂ with currentText_ := Ptr.dangling, isDefiningDescription_ := false }
        else none := by
  rw [SAXHandler.startElement_description_eq] at hstart
  split_ifs at hstart with hflags
  obtain ⟨a1, a2, a3, a4, a5, a6⟩ := hflags
  obtain ⟨⟨t, out⟩, ht, rfl⟩ := Option.map_eq_some'.mp hstart
  obtain ⟨hstr, hlang⟩ := SAXHandler.textAttributes_german c attrs Text.new t out ht hall
  have hj : SAXHandler.InDescription
      { h with
        elementCounts_ := h.elementCounts_.increment "description"
        currentText_ := Ptr.live t
        isDefiningDescription_ := true
        cerr := h.cerr ++ out } Language.GERMAN p.description_ false := by
    constructor <;> simp_all [Text.new]
  have hj₂ := SAXHandler.run_inDescription c es Language.GERMAN p.description_ _ h₂ false hj
    hes hrun
  obtain ⟨p₂, hp₂, hd₂⟩ := hj₂.package
  refine ⟨p₂, hp₂, hd₂, ?_⟩
  rw [SAXHandler.endElement_description_german h₂ p.description_ _ hj₂]
  simp

/-- Witness for C10: a package that holds the description `English` receives
a German description with a second attribute, character data and a nested
wire; closing it is accepted and the description is still `English`. -/
theorem C10_german_description_leaves_package_unchanged_witness :
    ∃ h h₁ h₂ p p₂, SAXHandler.new.run sampleLibc englishThenGerman = some h ∧
      h.startElement sampleLibc "description" [⟨"language", "de"⟩, ⟨"x", "1"⟩] = some h₁ ∧
      h₁.run sampleLibc germanContent = some h₂ ∧
      h.currentPackage_ = some p ∧ p.description_ = "English" ∧
      h₂.currentPackage_ = some p₂ ∧ p₂.description_ = p.description_ ∧
      h₂.endElement "description" =
        if germanContent.any Event.isCharacters = true then
          some { h₂ with currentText_ := Ptr.dangling, isDefiningDescription_ := false }
        else none := by
  have e0 : (SAXHandler.new.run sampleLibc englishThenGerman).isSome = true := by decide
  obtain ⟨h, hh⟩ := Option.isSome_iff_exists.mp e0
  have e1 : ((SAXHandler.new.run sampleLibc englishThenGerman).bind fun g =>
      g.startElement sampleLibc "description" [⟨"language", "de"⟩, ⟨"x", "1"⟩]).isSome
        = true := by decide
  rw [hh] at e1
  simp only [Option.some_bind] at e1
  obtain ⟨h₁, hh₁⟩ := Option.isSome_iff_exists.mp e1
  have e2 : ((SAXHandler.new.run sampleLibc englishThenGerman).bind fun g =>
      (g.startElement sampleLibc "description" [⟨"language", "de"⟩, ⟨"x", "1"⟩]).bind
        fun g₁ => g₁.run sampleLibc germanContent).isSome = true := by decide
  rw [hh] at e2
  simp only [Option.some_bind] at e2
  rw [hh₁] at e2
  obtain ⟨h₂, hh₂⟩ := Option.isSome_iff_exists.mp e2
  have e3 : (SAXHandler.new.run sampleLibc englishThenGerman).bind
      (fun g => g.currentPackage_.map fun q => q.description_) = some "English" := by decide
  rw [hh] at e3
  simp only [Option.some_bind, Option.map_eq_some'] at e3
  obtain ⟨p, hp, hdesc⟩ := e3
  obtain ⟨p₂, hp₂, hd, hend⟩ :=
    C10_german_description_leaves_package_unchanged sampleLibc h h₁ h₂ p
      [⟨"language", "de"⟩, ⟨"x", "1"⟩] germanContent hp
      ⟨⟨"language", "de"⟩, by simp, rfl⟩ (by simp) (by decide) hh₁ hh₂
  exact ⟨h, h₁, h₂, p, p₂, hh, hh₁, hh₂, hp, hdesc, hp₂, hd, hend⟩


/-! ## Grammar nesting -/

/-- Claim C11: in every handler state (reachable or not) in which no `text`
element is open, a `text` end event fails; the handler state it would have
produced does not exist, so nothing is added to any container. -/
theorem C11_text_end_without_open_text_fails (h : SAXHandler)
    (ht : h.isDefiningText_ = false) : h.endElement "text" = none := by
  simp [SAXHandler.endElement, SAXHandler.log, assert, ht, LAYERS, BOARD, PLAIN, TEXT]

/-- Witness for C11: a `text` end event right after `board` was opened. -/
theorem C11_text_end_without_open_text_fails_witness :
    boardOpen.Reachable sampleLibc ∧ boardOpen.isDefiningText_ = false ∧
    boardOpen.endElement "text" = none :=
  ⟨⟨[Event.startElement "board" []], by decide⟩, rfl,
   C11_text_end_without_open_text_fails boardOpen rfl⟩

/-- Claim C12: in every handler state (reachable or not) in which no package
is under construction, whether that is read off the in-package flag or off the
current-package slot, a `package` end event fails, so the document-level
package collection is not extended. -/
theorem C12_package_end_without_package_fails (h : SAXHandler)
    (hp : h.isDefiningPackage_ = false ∨ h.currentPackage_ = none) :
    h.endElement "package" = none := by
  rcases hp with hp | hp <;>
    simp [SAXHandler.endElement, assert, hp, LAYERS, BOARD, PLAIN, TEXT, DESCRIPTION, NOTE,
      PACKAGE]

/-- Witness for C12: a `package` end event right after `board` was opened. -/
theorem C12_package_end_without_package_fails_witness :
    boardOpen.Reachable sampleLibc ∧ boardOpen.isDefiningPackage_ = false ∧
    boardOpen.endElement "package" = none :=
  ⟨⟨[Event.startElement "board" []], by decide⟩, rfl,
   C12_package_end_without_package_fails boardOpen (Or.inl rfl)⟩

/-- Claim C13: in every handler state reachable from the initial state by
callbacks none of which fails, the in-text and in-description flags are not
both true. -/
theorem C13_text_and_description_never_both_open (c : Libc) (h : SAXHandler)
    (hr : h.Reachable c) :
    ¬ (h.isDefiningText_ = true ∧ h.isDefiningDescription_ = true) := by
  intro hboth
  have := hr.inv.text_description hboth.1
  rw [hboth.2] at this
  exact Bool.noConfusion this

/-- Witness for C13: the state with `board` and `text` open. -/
theorem C13_text_and_description_never_both_open_witness :
    textOpen.Reachable sampleLibc ∧
    ¬ (textOpen.isDefiningText_ = true ∧ textOpen.isDefiningDescription_ = true) :=
  ⟨⟨[Event.startElement "board" [], Event.startElement "text" [], Event.characters "R1" 2],
      by decide⟩,
   C13_text_and_description_never_both_open sampleLibc textOpen
     ⟨[Event.startElement "board" [], Event.startElement "text" [],
       Event.characters "R1" 2], by decide⟩⟩

/-- Claim C14: in every handler state and for every attribute list, a
`package` start event is accepted exactly when the package-set is open and no
package is under construction; when accepted it counts the element, sets the
in-package flag and makes a fresh Package the current one, with empty element
sequences, no name and an empty description, and changes nothing else; the
single current-package slot holds the one package under construction. -/
theorem C14_package_start_accepted_iff (c : Libc) (h : SAXHandler) (attrs : AttributeList) :
    h.startElement c "package" attrs =
      if h.isDefiningPackages_ = true ∧ h.isDefiningPackage_ = false then
        some { h with
          elementCounts_ := h.elementCounts_.increment "package"
          isDefiningPackage_ := true
          currentPackage_ := some
            { textObjects_ := [], holeObjects_ := [], wireObjects_ := [], circleObjects_ := [],
              rectangleObjects_ := [], name_ := "", description_ := "", hasName_ := false,
              hasDescription_ := false } }
      else none := by
  cases hps : h.isDefiningPackages_ <;> cases hp : h.isDefiningPackage_ <;>
    simp [SAXHandler.startElement, assert, hps, hp, Package.new, LAYERS, BOARD, PLAIN, LAYER,
      TEXT, DESCRIPTION, NOTE, WIRE, HOLE, RECTANGLE, CIRCLE, PACKAGES, PACKAGE]

/-- Counterexample to C15 as stated: with the package-set and a package open
(a reachable state), a `board` start event is accepted and opens the board. -/
theorem C15_counterexample_board_start_inside_package :
    packageOpen.isDefiningPackages_ = true ∧ packageOpen.isDefiningPackage_ = true ∧
    packageOpen.startElement sampleLibc "board" [] = some { packageOpen with
      elementCounts_ := [("board", 1), ("package", 1), ("packages", 1)]
      isDefiningBoard_ := true } := by
  decide

/-- Claim C15, amended: in every handler state a `board` start event is
accepted exactly when none of layer-set, board and plain-region is open,
whether or not the package-set or a package is open; when accepted it counts
the element and sets the in-board flag; in every other state it is
rejected. -/
theorem C15_board_start_accepted_iff (c : Libc) (h : SAXHandler) (attrs : AttributeList) :
    h.startElement c "board" attrs =
      if h.isDefiningLayers_ = false ∧ h.isDefiningBoard_ = false ∧
          h.isDefiningPlain_ = false then
        some { h with
          elementCounts_ := h.elementCounts_.increment "board"
          isDefiningBoard_ := true }
      else none := by
  cases hl : h.isDefiningLayers_ <;> cases hb : h.isDefiningBoard_ <;>
    cases hp : h.isDefiningPlain_ <;>
    simp [SAXHandler.startElement, assert, hl, hb, hp, LAYERS, BOARD]

/-- Claim C16: in every handler state in which the board region is not open,
both a `plain` start event and a `plain` end event fail; a `plain` start
event is accepted exactly when board is open and neither layer-set nor
plain-region is open. -/
theorem C16_plain_needs_open_board (c : Libc) (h : SAXHandler) (attrs : AttributeList) :
    (h.isDefiningBoard_ = false →
      h.startElement c "plain" attrs = none ∧ h.endElement "plain" = none) ∧
    ((h.startElement c "plain" attrs).isSome = true ↔
      h.isDefiningBoard_ = true ∧ h.isDefiningLayers_ = false ∧
        h.isDefiningPlain_ = false) := by
  cases hl : h.isDefiningLayers_ <;> cases hb : h.isDefiningBoard_ <;>
    cases hp : h.isDefiningPlain_ <;>
    simp [SAXHandler.startElement, SAXHandler.endElement, assert, hl, hb, hp, LAYERS, BOARD,
      PLAIN]

/-- Witness for C16: `plain` before and after `board` was opened. -/
theorem C16_plain_needs_open_board_witness :
    SAXHandler.new.startElement sampleLibc "plain" [] = none ∧
    SAXHandler.new.endElement "plain" = none ∧
    (boardOpen.startElement sampleLibc "plain" []).isSome = true :=
  ⟨((C16_plain_needs_open_board sampleLibc SAXHandler.new []).1 rfl).1,
   ((C16_plain_needs_open_board sampleLibc SAXHandler.new []).1 rfl).2,
   (C16_plain_needs_open_board sampleLibc boardOpen []).2.mpr ⟨rfl, rfl, rfl⟩⟩

/-- Counterexample to C17 as stated: with the package-set and a package open
and layer-set, description, note and text closed, a `description` start event
whose attribute list names `x` twice fails. -/
theorem C17_counterexample_description_start_repeated_name :
    packageOpen.isDefiningPackages_ = true ∧ packageOpen.isDefiningPackage_ = true ∧
    packageOpen.isDefiningLayers_ = false ∧ packageOpen.isDefiningDescription_ = false ∧
    packageOpen.isDefiningNote_ = false ∧ packageOpen.isDefiningText_ = false ∧
    packageOpen.startElement sampleLibc "description" [⟨"x", "1"⟩, ⟨"x", "2"⟩] = none := by
  decide

/-- Claim C17, amended: a `description` start event fails in every state in
which no package is under construction; for an attribute list in which no
attribute name occurs twice it is accepted exactly when the package-set and a
package are open and none of layer-set, description, note and text is open;
and whenever it is accepted it counts the element, sets the in-description
flag and begins a new in-progress Text that is the Text a `text` start event
with the same attributes begins, with the same attribute diagnostics. -/
theorem C17_description_start_accepted_iff (c : Libc) (h : SAXHandler)
    (attrs : AttributeList) :
    (h.isDefiningPackage_ = false → h.startElement c "description" attrs = none) ∧
    ((attrs.map Attribute.name).Nodup →
      ((h.startElement c "description" attrs).isSome = true ↔
        h.isDefiningPackages_ = true ∧ h.isDefiningPackage_ = true ∧
        h.isDefiningLayers_ = false ∧ h.isDefiningDescription_ = false ∧
        h.isDefiningNote_ = false ∧ h.isDefiningText_ = false)) ∧
    (∀ h', h.startElement c "description" attrs = some h' →
      ∃ t out, SAXHandler.textAttributes c Text.new attrs = some (t, out) ∧
        h' = { h with
          elementCounts_ := h.elementCounts_.increment "description"
          currentText_ := Ptr.live t
          isDefiningDescription_ := true
          cerr := h.cerr ++ out } ∧
        ∀ g : SAXHandler, g.isDefiningLayers_ = false → g.isDefiningDescription_ = false →
          g.startElement c "text" attrs = some { g with
            elementCounts_ := g.elementCounts_.increment "text"
            currentText_ := Ptr.live t
            isDefiningText_ := true
            cerr := g.cerr ++
              [match g.locator_ with
               | some locator => "DBG starting text at " ++ toString locator.lineNumber
               | none => "DBG starting text"] ++ out }) := by
  refine ⟨?_, ?_, ?_⟩
  · intro hp
    rw [SAXHandler.startElement_description_eq, if_neg]
    simp [hp]
  · intro hnd
    obtain ⟨r, hr⟩ := SAXHandler.textAttributes_isSome c attrs Text.new
      (by intro n hn; simp [Text.IsSet, Text.new] at hn) hnd
    rw [SAXHandler.startElement_description_eq]
    constructor
    · intro hs
      split_ifs at hs with hf
      · exact ⟨hf.2.2.2.2.1, hf.2.2.2.2.2, hf.1, hf.2.1, hf.2.2.1, hf.2.2.2.1⟩
      · simp at hs
    · rintro ⟨a5, a6, a1, a2, a3, a4⟩
      rw [if_pos ⟨a1, a2, a3, a4, a5, a6⟩, hr]
      rfl
  · intro h' hs
    rw [SAXHandler.startElement_description_eq] at hs
    split_ifs at hs with hf
    cases hta : SAXHandler.textAttributes c Text.new attrs with
    | none => simp [hta] at hs
    | some r =>
      obtain ⟨t, out⟩ := r
      simp only [hta, Option.map_some', Option.some.injEq] at hs
      refine ⟨t, out, rfl, hs.symm, ?_⟩
      intro g g1 g2
      rw [SAXHandler.startElement_text_eq, if_pos ⟨g1, g2⟩, hta]
      rfl

/-- Witness for C17: a German `description` in an open package, and the same
event with only `board` open. -/
theorem C17_description_start_accepted_iff_witness :
    packageOpen.startElement sampleLibc "description" [⟨"language", "de"⟩]
      = some { packageOpen with
          elementCounts_ := [("description", 1), ("package", 1), ("packages", 1)]
          currentText_ := Ptr.live { Text.new with language_ := Language.GERMAN }
          isDefiningDescription_ := true } ∧
    boardOpen.startElement sampleLibc "description" [⟨"language", "de"⟩] = none ∧
    (packageOpen.startElement sampleLibc "description" [⟨"language", "de"⟩]).isSome = true :=
  ⟨by decide,
   (C17_description_start_accepted_iff sampleLibc boardOpen [⟨"language", "de"⟩]).1 rfl,
   ((C17_description_start_accepted_iff sampleLibc packageOpen [⟨"language", "de"⟩]).2.1
      (by decide)).mpr ⟨rfl, rfl, rfl, rfl, rfl, rfl⟩⟩

/-- Claim C18: in every handler state reachable from the initial state by
callbacks none of which fails, the layer-set region is not open at the same
time as the board region or the plain region. -/
theorem C18_layers_excludes_board_and_plain (c : Libc) (h : SAXHandler)
    (hr : h.Reachable c) :
    ¬ (h.isDefiningLayers_ = true ∧
        (h.isDefiningBoard_ = true ∨ h.isDefiningPlain_ = true)) := by
  rintro ⟨hl, hb | hp⟩
  · have := hr.inv.layers_board hl
    rw [hb] at this
    exact Bool.noConfusion this
  · have := hr.inv.layers_board hl
    rw [hr.inv.plain_board hp] at this
    exact Bool.noConfusion this

/-- Witness for C18: the state with the layer-set open. -/
theorem C18_layers_excludes_board_and_plain_witness :
    layersOpen.Reachable sampleLibc ∧ layersOpen.isDefiningLayers_ = true ∧
    ¬ (layersOpen.isDefiningLayers_ = true ∧
        (layersOpen.isDefiningBoard_ = true ∨ layersOpen.isDefiningPlain_ = true)) :=
  ⟨⟨[Event.startElement "layers" []], by decide⟩, rfl,
   C18_layers_excludes_board_and_plain sampleLibc layersOpen
     ⟨[Event.startElement "layers" []], by decide⟩⟩

/-! ## Character data -/

/-- Claim C19: for every handler state and every character-data event, if a
text or a description is open and the in-progress Text has no string yet, the
event sets that Text's string to the data, marks it as set and changes nothing
else; if neither is open the event never fails: with a note open the state is
unchanged, otherwise one warning line is written, and in both cases the board,
the packages, the in-progress objects and all region flags are unchanged. -/
theorem C19_characters_routing (h : SAXHandler) (chars : String) (length : Nat) :
    (∀ t : Text, h.currentText_ = Ptr.live t → t.hasString_ = false →
      (h.isDefiningText_ = true ∨ h.isDefiningDescription_ = true) →
      h.characters chars length = some { h with
        currentText_ := Ptr.live { t with string_ := chars, hasString_ := true } }) ∧
    (h.isDefiningText_ = false → h.isDefiningDescription_ = false →
      h.characters chars length = some
        (if h.isDefiningNote_ = true then h
         else { h with cerr := h.cerr ++
           ["WARN " ++ toString length ++ " unexpected characters: '" ++ chars ++ "'"] })) := by
  constructor
  · intro t hct hs hopen
    cases ht : h.isDefiningText_
    · have hd : h.isDefiningDescription_ = true := by
        rcases hopen with h1 | h1
        · rw [ht] at h1; exact Bool.noConfusion h1
        · exact h1
      simp [SAXHandler.characters, Ptr.deref, Text.handleCharacters, assert, hct, hs, ht, hd]
    · simp [SAXHandler.characters, Ptr.deref, Text.handleCharacters, hct, hs, ht]
  · intro ht hd
    unfold SAXHandler.characters
    rw [if_neg (by simp [ht]), if_neg (by simp [hd])]
    cases hn : h.isDefiningNote_ <;> simp [SAXHandler.log, hn]

/-- Witness for C19: character data inside an open text, and with only
`board` open. -/
theorem C19_characters_routing_witness :
    textStarted.characters "R1" 2 = some textOpen ∧
    boardOpen.characters "R1" 2 = some { boardOpen with
      cerr := ["WARN 2 unexpected characters: 'R1'"] } :=
  ⟨(C19_characters_routing textStarted "R1" 2).1 Text.new rfl rfl (Or.inl rfl),
   (C19_characters_routing boardOpen "R1" 2).2 rfl rfl⟩

/-- The result of `Wire::tryHandleAttribute` is `true` exactly for the names
it tests for. -/
theorem Wire.tryHandleAttribute_true_iff (c : Libc) (w w' : Wire) (a : Attribute) (r : Bool)
    (h : Wire.tryHandleAttribute c w a = some (r, w')) :
    (r = true ↔ a.name ∈ wireAttributeNames) ∧ (r = false → w' = w) := by
  rw [Wire.tryHandleAttribute_eq_wire] at h
  obtain ⟨m, v⟩ := a
  simp only at h
  by_cases h1 : "layer" = m
  · rw [if_pos h1] at h
    subst h1
    split_ifs at h
    cases h
    simp [wireAttributeNames]
  rw [if_neg h1] at h
  by_cases h2 : "width" = m
  · rw [if_pos h2] at h
    subst h2
    split_ifs at h
    cases h
    simp [wireAttributeNames]
  rw [if_neg h2] at h
  by_cases h3 : "x1" = m
  · rw [if_pos h3] at h
    subst h3
    split_ifs at h
    cases h
    simp [wireAttributeNames]
  rw [if_neg h3] at h
  by_cases h4 : "y1" = m
  · rw [if_pos h4] at h
    subst h4
    split_ifs at h
    cases h
    simp [wireAttributeNames]
  rw [if_neg h4] at h
  by_cases h5 : "x2" = m
  · rw [if_pos h5] at h
    subst h5
    split_ifs at h
    cases h
    simp [wireAttributeNames]
  rw [if_neg h5] at h
  by_cases h6 : "y2" = m
  · rw [if_pos h6] at h
    subst h6
    split_ifs at h
    cases h
    simp [wireAttributeNames]
  rw [if_neg h6] at h
  by_cases h7 : "curve" = m
  · rw [if_pos h7] at h
    subst h7
    split_ifs at h
    cases h
    simp [wireAttributeNames]
  rw [if_neg h7] at h
  cases h
  simp [wireAttributeNames, Ne.symm h1, Ne.symm h2, Ne.symm h3, Ne.symm h4, Ne.symm h5,
    Ne.symm h6, Ne.symm h7]

/-- The wire built by the attribute loop does not depend on the attributes
`Wire::tryHandleAttribute` refuses. -/
theorem SAXHandler.wireAttributes_filter (c : Libc) (attrs : AttributeList) :
    ∀ w : Wire, (SAXHandler.wireAttributes c w attrs).map Prod.fst
      = (SAXHandler.wireAttributes c w
          (attrs.filter fun a => a.name ∈ wireAttributeNames)).map Prod.fst := by
  induction attrs with
  | nil => intro w; rfl
  | cons a rest ih =>
    intro w
    cases htry : Wire.tryHandleAttribute c w a with
    | none =>
      have hmem : a.name ∈ wireAttributeNames := by
        have := Wire.isSet_of_none_wire c w a htry
        simp only [Wire.IsSet] at this
        rcases this with ⟨h, -⟩ | ⟨h, -⟩ | ⟨h, -⟩ | ⟨h, -⟩ | ⟨h, -⟩ | ⟨h, -⟩ | ⟨h, -⟩ <;>
          simp [wireAttributeNames, h]
      simp [List.filter, hmem, SAXHandler.wireAttributes, htry]
    | some res =>
      obtain ⟨r, w'⟩ := res
      obtain ⟨hiff, hsame⟩ := Wire.tryHandleAttribute_true_iff c w w' a r htry
      cases r with
      | true =>
        have hmem : a.name ∈ wireAttributeNames := hiff.mp rfl
        simp [List.filter, hmem, SAXHandler.wireAttributes, htry, ih w']
      | false =>
        have hmem : a.name ∉ wireAttributeNames := fun hm => Bool.noConfusion (hiff.mpr hm)
        have hw : w' = w := hsame rfl
        subst hw
        simp [List.filter, hmem, SAXHandler.wireAttributes, htry, ← ih w', Option.map_map,
          Function.comp_def]

/-- The diagnostics of the attribute loop of a wire: one warning for each
attribute that is refused and is neither `cap` nor `style`. -/
theorem SAXHandler.wireAttributes_warnings (c : Libc) (attrs : AttributeList) :
    ∀ (w w' : Wire) (out : List String),
      SAXHandler.wireAttributes c w attrs = some (w', out) →
      out = (attrs.filter fun a =>
          a.name ∉ wireAttributeNames ∧ a.name ≠ "cap" ∧ a.name ≠ "style").map
        fun a => "WARN unexpected attribute '" ++ a.name ++ "' in wire definition" := by
  induction attrs with
  | nil => intro w w' out h; simp [SAXHandler.wireAttributes] at h; simp [h.2]
  | cons a rest ih =>
    intro w w' out h
    cases htry : Wire.tryHandleAttribute c w a with
    | none => simp [SAXHandler.wireAttributes, htry] at h
    | some res =>
      obtain ⟨r, w₁⟩ := res
      obtain ⟨hiff, -⟩ := Wire.tryHandleAttribute_true_iff c w w₁ a r htry
      cases r with
      | true =>
        have hmem : a.name ∈ wireAttributeNames := hiff.mp rfl
        simp only [SAXHandler.wireAttributes, htry] at h
        rw [ih w₁ w' out h]
        simp [List.filter, hmem]
      | false =>
        have hmem : a.name ∉ wireAttributeNames := fun hm => Bool.noConfusion (hiff.mpr hm)
        simp only [SAXHandler.wireAttributes, htry, Option.map_eq_some'] at h
        obtain ⟨⟨w₂, out₂⟩, hrest, heq⟩ := h
        simp only [Prod.mk.injEq] at heq
        obtain ⟨rfl, rfl⟩ := heq
        rw [ih w₁ w₂ out₂ hrest]
        by_cases hcap : a.name = "cap"
        · simp [List.filter, hmem, hcap, Attribute.getName, CAP]
        · by_cases hstyle : a.name = "style"
          · simp [List.filter, hmem, hstyle, Attribute.getName, CAP, STYLE]
          · simp [List.filter, hmem, hcap, hstyle, Attribute.getName, CAP, STYLE,
              Ne.symm hcap, Ne.symm hstyle, fun e => hcap (Eq.symm e),
              fun e => hstyle (Eq.symm e)]

/-! ## Effect of the callbacks on the containers -/

/-- Member `Package::setDescription` changes at most the description. -/
theorem Package.setDescription_toBoard (p p' : Package) (t : Text)
    (h : p.setDescription t = some p') :
    p'.toBoard = p.toBoard ∧ p'.name_ = p.name_ ∧ p'.hasName_ = p.hasName_ := by
  unfold Package.setDescription at h
  split_ifs at h
  · cases hs : t.getString with
    | none => simp [hs] at h
    | some s =>
      simp only [hs, Option.some.injEq] at h
      subst h
      exact ⟨rfl, rfl, rfl⟩
  · cases h
    exact ⟨rfl, rfl, rfl⟩


/-- Effect of a start event on the containers. -/
theorem SAXHandler.startElement_containers (c : Libc) (h h' : SAXHandler) (name : String)
    (attrs : AttributeList) (hs : h.startElement c name attrs = some h') :
    h'.packages_ = h.packages_ ∧
    h'.textLists
      = expectedTextLists (Event.startElement name attrs) h.currentText_.deref h.textLists ∧
    (h'.board_ = h.board_ ∨
      (h.isDefiningLayers_ = false ∧ h.isDefiningPackages_ = false ∧
        h.isDefiningPackage_ = false)) := by
  unfold SAXHandler.startElement at hs
  by_cases h1 : "layers" = name
  · subst h1
    simp [LAYERS, BOARD, PLAIN, LAYER, TEXT, DESCRIPTION, NOTE, WIRE, HOLE, RECTANGLE, CIRCLE, PACKAGES, PACKAGE] at hs
    repeat (obtain ⟨hfact, hs⟩ := hs)
    try subst hs
    (refine ⟨?_, ?_, ?_⟩ <;> simp_all [SAXHandler.textLists, expectedTextLists, Board.addWire, Board.addHole, Board.addRectangle, Package.new])
  by_cases h2 : "board" = name
  · subst h2
    simp [LAYERS, BOARD, PLAIN, LAYER, TEXT, DESCRIPTION, NOTE, WIRE, HOLE, RECTANGLE, CIRCLE, PACKAGES, PACKAGE] at hs
    repeat (obtain ⟨hfact, hs⟩ := hs)
    try subst hs
    (refine ⟨?_, ?_, ?_⟩ <;> simp_all [SAXHandler.textLists, expectedTextLists, Board.addWire, Board.addHole, Board.addRectangle, Package.new])
  by_cases h3 : "plain" = name
  · subst h3
    simp [LAYERS, BOARD, PLAIN, LAYER, TEXT, DESCRIPTION, NOTE, WIRE, HOLE, RECTANGLE, CIRCLE, PACKAGES, PACKAGE] at hs
    repeat (obtain ⟨hfact, hs⟩ := hs)
    try subst hs
    (refine ⟨?_, ?_, ?_⟩ <;> simp_all [SAXHandler.textLists, expectedTextLists, Board.addWire, Board.addHole, Board.addRectangle, Package.new])
  by_cases h4 : "layer" = name
  · subst h4
    simp [LAYERS, BOARD, PLAIN, LAYER, TEXT, DESCRIPTION, NOTE, WIRE, HOLE, RECTANGLE, CIRCLE, PACKAGES, PACKAGE] at hs
    repeat (obtain ⟨hfact, hs⟩ := hs)
    try subst hs
    (refine ⟨?_, ?_, ?_⟩ <;> simp_all [SAXHandler.textLists, expectedTextLists, Board.addWire, Board.addHole, Board.addRectangle, Package.new])
  by_cases h5 : "text" = name
  · subst h5
    simp [LAYERS, BOARD, PLAIN, LAYER, TEXT, DESCRIPTION, NOTE, WIRE, HOLE, RECTANGLE, CIRCLE, PACKAGES, PACKAGE, SAXHandler.handleTextDefinition, SAXHandler.log, Ptr.isNonNull, Ptr.deref,
      Option.bind_eq_some] at hs
    repeat (obtain ⟨hfact, hs⟩ := hs)
    try subst hs
    (refine ⟨?_, ?_, ?_⟩ <;> simp_all [SAXHandler.textLists, expectedTextLists, Board.addWire, Board.addHole, Board.addRectangle, Package.new])
  by_cases h6 : "description" = name
  · subst h6
    simp [LAYERS, BOARD, PLAIN, LAYER, TEXT, DESCRIPTION, NOTE, WIRE, HOLE, RECTANGLE, CIRCLE, PACKAGES, PACKAGE, SAXHandler.handleTextDefinition, SAXHandler.log, Ptr.isNonNull, Ptr.deref,
      Option.bind_eq_some] at hs
    repeat (obtain ⟨hfact, hs⟩ := hs)
    try subst hs
    (refine ⟨?_, ?_, ?_⟩ <;> simp_all [SAXHandler.textLists, expectedTextLists, Board.addWire, Board.addHole, Board.addRectangle, Package.new])
  by_cases h7 : "note" = name
  · subst h7
    simp [LAYERS, BOARD, PLAIN, LAYER, TEXT, DESCRIPTION, NOTE, WIRE, HOLE, RECTANGLE, CIRCLE, PACKAGES, PACKAGE] at hs
    repeat (obtain ⟨hfact, hs⟩ := hs)
    try subst hs
    (refine ⟨?_, ?_, ?_⟩ <;> simp_all [SAXHandler.textLists, expectedTextLists, Board.addWire, Board.addHole, Board.addRectangle, Package.new])
  by_cases h8 : "wire" = name
  · subst h8
    simp [LAYERS, BOARD, PLAIN, LAYER, TEXT, DESCRIPTION, NOTE, WIRE, HOLE, RECTANGLE, CIRCLE, PACKAGES, PACKAGE, SAXHandler.handleWireDefinition, SAXHandler.log, Option.bind_eq_some] at hs
    obtain ⟨hl, w, out, hw, hs⟩ := hs
    split_ifs at hs <;> simp [Option.bind_eq_some] at hs <;>
      (repeat (obtain ⟨hfact, hs⟩ := hs)) <;> (refine ⟨?_, ?_, ?_⟩ <;> simp_all [SAXHandler.textLists, expectedTextLists, Board.addWire, Board.addHole, Board.addRectangle, Package.new])
  by_cases h9 : "hole" = name
  · subst h9
    simp [LAYERS, BOARD, PLAIN, LAYER, TEXT, DESCRIPTION, NOTE, WIRE, HOLE, RECTANGLE, CIRCLE, PACKAGES, PACKAGE, SAXHandler.handleHoleDefinition, SAXHandler.log, Option.bind_eq_some] at hs
    obtain ⟨hl, w, out, hw, hs⟩ := hs
    split_ifs at hs <;> simp [Option.bind_eq_some] at hs <;>
      (repeat (obtain ⟨hfact, hs⟩ := hs)) <;> (refine ⟨?_, ?_, ?_⟩ <;> simp_all [SAXHandler.textLists, expectedTextLists, Board.addWire, Board.addHole, Board.addRectangle, Package.new])
  by_cases h10 : "rectangle" = name
  · subst h10
    simp [LAYERS, BOARD, PLAIN, LAYER, TEXT, DESCRIPTION, NOTE, WIRE, HOLE, RECTANGLE, CIRCLE, PACKAGES, PACKAGE, SAXHandler.handleRectangleDefinition, SAXHandler.log, Option.bind_eq_some] at hs
    obtain ⟨hl, w, out, hw, hs⟩ := hs
    split_ifs at hs <;> simp [Option.bind_eq_some] at hs <;>
      (repeat (obtain ⟨hfact, hs⟩ := hs)) <;> (refine ⟨?_, ?_, ?_⟩ <;> simp_all [SAXHandler.textLists, expectedTextLists, Board.addWire, Board.addHole, Board.addRectangle, Package.new])
  by_cases h11 : "circle" = name
  · subst h11
    simp [LAYERS, BOARD, PLAIN, LAYER, TEXT, DESCRIPTION, NOTE, WIRE, HOLE, RECTANGLE, CIRCLE, PACKAGES, PACKAGE, SAXHandler.handleCircleDefinition, SAXHandler.log, Option.bind_eq_some] at hs
    repeat (obtain ⟨hfact, hs⟩ := hs)
    try subst hs
    (refine ⟨?_, ?_, ?_⟩ <;> simp_all [SAXHandler.textLists, expectedTextLists, Board.addWire, Board.addHole, Board.addRectangle, Package.new])
  by_cases h12 : "packages" = name
  · subst h12
    simp [LAYERS, BOARD, PLAIN, LAYER, TEXT, DESCRIPTION, NOTE, WIRE, HOLE, RECTANGLE, CIRCLE, PACKAGES, PACKAGE] at hs
    repeat (obtain ⟨hfact, hs⟩ := hs)
    try subst hs
    (refine ⟨?_, ?_, ?_⟩ <;> simp_all [SAXHandler.textLists, expectedTextLists, Board.addWire, Board.addHole, Board.addRectangle, Package.new])
  by_cases h13 : "package" = name
  · subst h13
    simp [LAYERS, BOARD, PLAIN, LAYER, TEXT, DESCRIPTION, NOTE, WIRE, HOLE, RECTANGLE, CIRCLE, PACKAGES, PACKAGE] at hs
    repeat (obtain ⟨hfact, hs⟩ := hs)
    try subst hs
    (refine ⟨?_, ?_, ?_⟩ <;> simp_all [SAXHandler.textLists, expectedTextLists, Board.addWire, Board.addHole, Board.addRectangle, Package.new])
  simp [LAYERS, BOARD, PLAIN, LAYER, TEXT, DESCRIPTION, NOTE, WIRE, HOLE, RECTANGLE, CIRCLE, PACKAGES, PACKAGE, h1, h2, h3, h4, h5, h6, h7, h8, h9, h10, h11, h12, h13] at hs
  subst hs
  have g12 : ¬ name = "packages" := fun e => h12 e.symm
  have g13 : ¬ name = "package" := fun e => h13 e.symm
  (refine ⟨?_, ?_, ?_⟩ <;> simp_all [SAXHandler.textLists, expectedTextLists, Board.addWire, Board.addHole, Board.addRectangle, Package.new])

/-- Effect of an end event on the containers. -/
theorem SAXHandler.endElement_containers (h h' : SAXHandler) (name : String)
    (hs : h.endElement name = some h') :
    h'.packages_ = h.packages_ ++
      (if name = "package" then h.currentPackage_.toList else []) ∧
    h'.textLists
      = expectedTextLists (Event.endElement name) h.currentText_.deref h.textLists ∧
    (h'.board_ = h.board_ ∨
      (h.isDefiningLayers_ = false ∧ h.isDefiningPackages_ = false ∧
        h.isDefiningPackage_ = false)) := by
  unfold SAXHandler.endElement at hs
  by_cases h1 : "layers" = name
  · subst h1
    simp [LAYERS, BOARD, PLAIN, TEXT, DESCRIPTION, NOTE, PACKAGES, PACKAGE, SAXHandler.log, Ptr.isNonNull, Option.bind_eq_some] at hs
    repeat (obtain ⟨hfact, hs⟩ := hs)
    try subst hs
    (refine ⟨?_, ?_, ?_⟩ <;> simp_all [SAXHandler.textLists, expectedTextLists, Board.addText, Ptr.deref])
  by_cases h2 : "board" = name
  · subst h2
    simp [LAYERS, BOARD, PLAIN, TEXT, DESCRIPTION, NOTE, PACKAGES, PACKAGE, SAXHandler.log, Ptr.isNonNull, Option.bind_eq_some] at hs
    repeat (obtain ⟨hfact, hs⟩ := hs)
    try subst hs
    (refine ⟨?_, ?_, ?_⟩ <;> simp_all [SAXHandler.textLists, expectedTextLists, Board.addText, Ptr.deref])
  by_cases h3 : "plain" = name
  · subst h3
    simp [LAYERS, BOARD, PLAIN, TEXT, DESCRIPTION, NOTE, PACKAGES, PACKAGE, SAXHandler.log, Ptr.isNonNull, Option.bind_eq_some] at hs
    repeat (obtain ⟨hfact, hs⟩ := hs)
    try subst hs
    (refine ⟨?_, ?_, ?_⟩ <;> simp_all [SAXHandler.textLists, expectedTextLists, Board.addText, Ptr.deref])
  by_cases h4 : "text" = name
  · subst h4
    simp [LAYERS, BOARD, PLAIN, TEXT, DESCRIPTION, NOTE, PACKAGES, PACKAGE, SAXHandler.log, Ptr.isNonNull, Option.bind_eq_some] at hs
    obtain ⟨hl, hnn, ht, text, htext, hs⟩ := hs
    split_ifs at hs <;> simp [Option.bind_eq_some] at hs <;>
      (repeat (obtain ⟨hfact, hs⟩ := hs)) <;> (refine ⟨?_, ?_, ?_⟩ <;> simp_all [SAXHandler.textLists, expectedTextLists, Board.addText, Ptr.deref])
  by_cases h5 : "description" = name
  · subst h5
    simp [LAYERS, BOARD, PLAIN, TEXT, DESCRIPTION, NOTE, PACKAGES, PACKAGE, SAXHandler.log, Ptr.isNonNull, Option.bind_eq_some] at hs
    obtain ⟨a1, a2, a3, a4, a5, a6, p, hp, t, ht, p', hset, rfl⟩ := hs
    obtain ⟨hb, hname, hhas⟩ := Package.setDescription_toBoard p p' t hset
    (refine ⟨?_, ?_, ?_⟩ <;> simp [SAXHandler.textLists, expectedTextLists, hp, hb])
  by_cases h6 : "note" = name
  · subst h6
    simp [LAYERS, BOARD, PLAIN, TEXT, DESCRIPTION, NOTE, PACKAGES, PACKAGE, SAXHandler.log, Ptr.isNonNull, Option.bind_eq_some] at hs
    repeat (obtain ⟨hfact, hs⟩ := hs)
    try subst hs
    (refine ⟨?_, ?_, ?_⟩ <;> simp_all [SAXHandler.textLists, expectedTextLists, Board.addText, Ptr.deref])
  by_cases h7 : "package" = name
  · subst h7
    simp [LAYERS, BOARD, PLAIN, TEXT, DESCRIPTION, NOTE, PACKAGES, PACKAGE, SAXHandler.log, Ptr.isNonNull, Option.bind_eq_some] at hs
    repeat (obtain ⟨hfact, hs⟩ := hs)
    try subst hs
    (refine ⟨?_, ?_, ?_⟩ <;> simp_all [SAXHandler.textLists, expectedTextLists, Board.addText, Ptr.deref])
  by_cases h8 : "packages" = name
  · subst h8
    simp [LAYERS, BOARD, PLAIN, TEXT, DESCRIPTION, NOTE, PACKAGES, PACKAGE, SAXHandler.log, Ptr.isNonNull, Option.bind_eq_some] at hs
    repeat (obtain ⟨hfact, hs⟩ := hs)
    try subst hs
    (refine ⟨?_, ?_, ?_⟩ <;> simp_all [SAXHandler.textLists, expectedTextLists, Board.addText, Ptr.deref])
  simp [LAYERS, BOARD, PLAIN, TEXT, DESCRIPTION, NOTE, PACKAGES, PACKAGE, h1, h2, h3, h4, h5, h6, h7, h8] at hs
  subst hs
  have g4 : ¬ name = "text" := fun e => h4 e.symm
  have g7 : ¬ name = "package" := fun e => h7 e.symm
  (refine ⟨?_, ?_, ?_⟩ <;> simp_all [SAXHandler.textLists, expectedTextLists, Board.addText, Ptr.deref])

/-- Effect of a character-data event on the containers. -/
theorem SAXHandler.characters_containers (h h' : SAXHandler) (chars : String) (length : Nat)
    (hs : h.characters chars length = some h') :
    h'.packages_ = h.packages_ ∧ h'.currentPackage_ = h.currentPackage_ ∧
      h'.board_ = h.board_ := by
  unfold SAXHandler.characters at hs
  split_ifs at hs <;> simp [Option.bind_eq_some, SAXHandler.log] at hs <;>
    (repeat (obtain ⟨hfact, hs⟩ := hs)) <;> exact ⟨rfl, rfl, rfl⟩

/-- Effect of any callback on the containers. -/
theorem SAXHandler.step_containers (c : Libc) (h h' : SAXHandler) (e : Event)
    (hs : h.step c e = some h') :
    h'.packages_ = h.packages_ ++
      (if e = Event.endElement "package" then h.currentPackage_.toList else []) ∧
    h'.textLists = expectedTextLists e h.currentText_.deref h.textLists ∧
    (h'.board_ = h.board_ ∨
      (h.isDefiningLayers_ = false ∧ h.isDefiningPackages_ = false ∧
        h.isDefiningPackage_ = false)) := by
  cases e with
  | startElement n attrs =>
    obtain ⟨h1, h2, h3⟩ := SAXHandler.startElement_containers c h h' n attrs hs
    exact ⟨by simp [h1], h2, h3⟩
  | endElement n =>
    obtain ⟨h1, h2, h3⟩ := SAXHandler.endElement_containers h h' n hs
    refine ⟨?_, h2, h3⟩
    rw [h1]
    by_cases hn : n = "package" <;> simp [hn]
  | characters chars length =>
    obtain ⟨h1, h2, h3⟩ := SAXHandler.characters_containers h h' chars length hs
    exact ⟨by simp [h1], by simp [SAXHandler.textLists, expectedTextLists, h1, h2, h3],
      Or.inl h3⟩
  | _ =>
    simp [SAXHandler.step, SAXHandler.log, SAXHandler.setDocumentLocator] at hs
    subst hs
    exact ⟨by simp, by simp [SAXHandler.textLists, expectedTextLists], Or.inl rfl⟩

/-- The package collection after a run is the one before it followed by the
packages closed during the run. -/
theorem SAXHandler.run_packages (c : Libc) (es : List Event) :
    ∀ h h' : SAXHandler, h.run c es = some h' →
      h'.packages_ = h.packages_ ++ closedPackages c h es := by
  induction es with
  | nil => intro h h' hs; simp [SAXHandler.run] at hs; subst hs; simp [closedPackages]
  | cons e es ih =>
    intro h h' hs
    simp only [SAXHandler.run] at hs
    cases hstep : h.step c e with
    | none => simp [hstep] at hs
    | some next =>
      simp only [hstep] at hs
      rw [ih next h' hs, (SAXHandler.step_containers c h next e hstep).1]
      simp [closedPackages, hstep]

/-- The text sequences after a run are those of the reference model. -/
theorem SAXHandler.run_textLists (c : Libc) (es : List Event) :
    ∀ h h' : SAXHandler, h.run c es = some h' →
      h'.textLists = expectedTextListsRun c h es h.textLists := by
  induction es with
  | nil => intro h h' hs; simp [SAXHandler.run] at hs; subst hs; simp [expectedTextListsRun]
  | cons e es ih =>
    intro h h' hs
    simp only [SAXHandler.run] at hs
    cases hstep : h.step c e with
    | none => simp [hstep] at hs
    | some next =>
      simp only [hstep] at hs
      rw [ih next h' hs, (SAXHandler.step_containers c h next e hstep).2.1]
      simp [expectedTextListsRun, hstep]


/-! ## Stored elements: completeness, order, scope -/

/-- Claim C21, evaluated on the code: a `text` element that is opened and
closed without any character data in between is stored, on the board and in a
package alike, with its string not set (hasString is false). -/
theorem C21_text_stored_without_string :
    SAXHandler.new.run sampleLibc
        [Event.startElement "board" [], Event.startElement "text" [⟨"x", "1"⟩, ⟨"y", "2"⟩],
         Event.endElement "text"]
      = some { boardOpen with
          elementCounts_ := [("board", 1), ("text", 1)]
          cerr := ["DBG starting text", "DBG ending text"]
          board_ := { textObjects_ :=
            [{ Text.new with x_ := ⟨1⟩, hasX_ := true, y_ := 2, hasY_ := true,
                             hasString_ := false }] } } ∧
    (packageOpen.run sampleLibc
        [Event.startElement "text" [], Event.endElement "text",
         Event.endElement "package"]).map
      (fun h => h.packages_.map fun p => p.textObjects_.map Text.hasString)
      = some [[false]] := by
  decide

/-- Claim C25: for every event sequence none of whose events fails, the
package collection afterwards is the collection before followed by the
packages closed during the run, in the order of their `package` end events,
and the text sequences of the board, of the package under construction and of
the closed packages are those of the reference model, in which each `text` end
event appends the text in progress at the end of the sequence of its container
and nothing else touches a text sequence. -/
theorem C25_insertion_order_is_preserved (c : Libc) (h h' : SAXHandler) (es : List Event)
    (hrun : h.run c es = some h') :
    h'.packages_ = h.packages_ ++ closedPackages c h es ∧
    h'.textLists = expectedTextListsRun c h es h.textLists :=
  ⟨SAXHandler.run_packages c es h h' hrun, SAXHandler.run_textLists c es h h' hrun⟩

/-- Witness for C25: two packages, each with one text; the closed packages
hold the texts `A` and `B` in input order. -/
theorem C25_insertion_order_is_preserved_witness :
    (closedPackages sampleLibc SAXHandler.new twoPackageDocument).map
        (fun p => p.textObjects_.map Text.getString) = [[some "A"], [some "B"]] ∧
    ∃ h', SAXHandler.new.run sampleLibc twoPackageDocument = some h' ∧
      h'.packages_ = SAXHandler.new.packages_
        ++ closedPackages sampleLibc SAXHandler.new twoPackageDocument ∧
      h'.textLists
        = expectedTextListsRun sampleLibc SAXHandler.new twoPackageDocument
            SAXHandler.new.textLists := by
  refine ⟨by decide, ?_⟩
  have hsome : (SAXHandler.new.run sampleLibc twoPackageDocument).isSome = true := by decide
  obtain ⟨h', hrun⟩ := Option.isSome_iff_exists.mp hsome
  exact ⟨h', hrun,
    C25_insertion_order_is_preserved sampleLibc SAXHandler.new h' twoPackageDocument hrun⟩

/-- Counterexample to C26 as stated: a `wire` start event arriving before any
`board` start event is stored on the top-level board, and so is a `hole`
arriving after the `board` end event; in both states the board region is not
open. -/
theorem C26_counterexample_wire_outside_board :
    (SAXHandler.new.run sampleLibc [Event.startElement "wire" [⟨"x1", "0"⟩]]).map
      (fun h => (h.isDefiningBoard_, h.board_.wireObjects_))
      = some (false, [{ Wire.new with x1_ := 0, hasX1_ := true }]) ∧
    (SAXHandler.new.run sampleLibc
        [Event.startElement "board" [], Event.endElement "board",
         Event.startElement "hole" []]).map
      (fun h => (h.isDefiningBoard_, h.board_.holeObjects_))
      = some (false, [Hole.new false]) := by
  decide

/-- Claim C26, amended: the board's sequences are empty in the initial state,
and every callback that changes the top-level board occurs while the
layer-set, the package-set and every package are closed; the board region need
not be open. -/
theorem C26_board_grows_only_outside_packages (c : Libc) (h h' : SAXHandler) (e : Event)
    (hs : h.step c e = some h') (hne : h'.board_ ≠ h.board_) :
    h.isDefiningLayers_ = false ∧ h.isDefiningPackages_ = false ∧
      h.isDefiningPackage_ = false ∧ SAXHandler.new.board_ = {} := by
  rcases (SAXHandler.step_containers c h h' e hs).2.2 with hb | ⟨h1, h2, h3⟩
  · exact absurd hb hne
  · exact ⟨h1, h2, h3, rfl⟩

/-- Witness for C26: a `wire` start event with `board` open. -/
theorem C26_board_grows_only_outside_packages_witness :
    boardOpen.step sampleLibc (Event.startElement "wire" []) = some boardWithWire ∧
    boardWithWire.board_ ≠ boardOpen.board_ ∧
    (boardOpen.isDefiningLayers_ = false ∧ boardOpen.isDefiningPackages_ = false ∧
      boardOpen.isDefiningPackage_ = false ∧ SAXHandler.new.board_ = {}) :=
  ⟨by decide, by decide,
   C26_board_grows_only_outside_packages sampleLibc boardOpen boardWithWire
     (Event.startElement "wire" []) (by decide) (by decide)⟩

/-- Claim C27: for every event sequence none of whose events fails, the
package collection afterwards is the collection before with packages added at
its end; every package already in the collection is still there, at the same
position and with the same element sequences, name and description. -/
theorem C27_closed_packages_are_frozen (c : Libc) (h h' : SAXHandler) (es : List Event)
    (hrun : h.run c es = some h') :
    (∃ added, h'.packages_ = h.packages_ ++ added) ∧
    (∀ (i : Nat) (p : Package), h.packages_[i]? = some p → h'.packages_[i]? = some p) := by
  have hp := SAXHandler.run_packages c es h h' hrun
  refine ⟨⟨_, hp⟩, ?_⟩
  intro i p hi
  rw [hp]
  have hlt : i < h.packages_.length := by
    by_contra hge
    rw [List.getElem?_eq_none (Nat.le_of_not_lt hge)] at hi
    cases hi
  rw [List.getElem?_append_left hlt]
  exact hi

/-- Witness for C27: the first of two packages, once closed, is unchanged by
the events that build and close the second. -/
theorem C27_closed_packages_are_frozen_witness :
    (SAXHandler.new.run sampleLibc (twoPackageDocument.take 6)).map
      (fun h => h.packages_.map fun p => p.textObjects_.map Text.getString)
      = some [[some "A"]] ∧
    ∃ h h', SAXHandler.new.run sampleLibc (twoPackageDocument.take 6) = some h ∧
      h.run sampleLibc (twoPackageDocument.drop 6) = some h' ∧
      (∃ added, h'.packages_ = h.packages_ ++ added) ∧
      (∀ (i : Nat) (p : Package), h.packages_[i]? = some p → h'.packages_[i]? = some p) := by
  refine ⟨by decide, ?_⟩
  have h1 : (SAXHandler.new.run sampleLibc (twoPackageDocument.take 6)).isSome = true := by
    decide
  obtain ⟨h, hrun⟩ := Option.isSome_iff_exists.mp h1
  have h2 : ((SAXHandler.new.run sampleLibc (twoPackageDocument.take 6)).bind
      fun m => m.run sampleLibc (twoPackageDocument.drop 6)).isSome = true := by decide
  rw [hrun] at h2
  obtain ⟨h', hrun'⟩ := Option.isSome_iff_exists.mp h2
  exact ⟨h, h', hrun, hrun',
    C27_closed_packages_are_frozen sampleLibc h h' (twoPackageDocument.drop 6) hrun'⟩

/-! ## Accessors, package name, wire attributes -/

/-- Claim C22, evaluated on the code: on a wire whose curve is not set,
`getCurve` returns the initial value 0 instead of failing, while the sibling
accessors of the same object fail on their unset fields. -/
theorem C22_getCurve_returns_on_unset_curve :
    Wire.new.hasCurve_ = false ∧ Wire.new.getCurve = some 0 ∧
    Wire.new.getX1 = none ∧ Wire.new.getY1 = none ∧ Wire.new.getX2 = none ∧
    Wire.new.getY2 = none ∧ Wire.new.getWidth = none ∧ Wire.new.getLayer = none ∧
    Rectangle.new.getRotationDegrees = none ∧ Text.new.getString = none ∧
    Text.new.getSize = none ∧ Text.new.getRatio = none ∧ Text.new.getX = none ∧
    Text.new.getY = none ∧ Text.new.getRotationDegrees = none ∧
    (Hole.new false).getDrill = none ∧ Circle.new.getRadius = none ∧
    Package.new.getName = none := by
  decide

/-- Claim C23: for every handler state and every attribute list, the Wire
built by the attribute loop of a `wire` start event is the Wire built from the
list with every attribute the Wire does not recognize removed (both exist or
neither does); the handler states after the two events agree in everything
but the diagnostic lines, and one event is accepted exactly when the other
is, so such attributes never make the event fail. -/
theorem C23_refused_attributes_do_not_alter_wire (c : Libc) (h : SAXHandler)
    (attrs : AttributeList) :
    (SAXHandler.wireAttributes c Wire.new attrs).map Prod.fst
      = (SAXHandler.wireAttributes c Wire.new
          (attrs.filter fun a => a.name ∈ wireAttributeNames)).map Prod.fst ∧
    (h.startElement c "wire" attrs).map (fun s => { s with cerr := [] })
      = (h.startElement c "wire" (attrs.filter fun a => a.name ∈ wireAttributeNames)).map
          (fun s => { s with cerr := [] }) ∧
    ((h.startElement c "wire" attrs).isSome
      = (h.startElement c "wire" (attrs.filter fun a => a.name ∈ wireAttributeNames)).isSome) := by
  have hf := SAXHandler.wireAttributes_filter c attrs Wire.new
  have key : (h.startElement c "wire" attrs).map (fun s => { s with cerr := [] })
      = (h.startElement c "wire" (attrs.filter fun a => a.name ∈ wireAttributeNames)).map
          (fun s => { s with cerr := [] }) := by
    cases hA : SAXHandler.wireAttributes c Wire.new attrs with
    | none =>
      rw [hA] at hf
      have hB : SAXHandler.wireAttributes c Wire.new
          (attrs.filter fun a => a.name ∈ wireAttributeNames) = none := by
        simpa using hf.symm
      simp [SAXHandler.startElement, SAXHandler.handleWireDefinition, hA, hB, LAYERS, BOARD,
        PLAIN, LAYER, TEXT, DESCRIPTION, NOTE, WIRE]
    | some r =>
      obtain ⟨w, out⟩ := r
      rw [hA] at hf
      cases hB : SAXHandler.wireAttributes c Wire.new
          (attrs.filter fun a => a.name ∈ wireAttributeNames) with
      | none => simp [hB] at hf
      | some r' =>
        obtain ⟨w', out'⟩ := r'
        simp only [hB, Option.map_some', Option.some.injEq] at hf
        subst hf
        cases hl : h.isDefiningLayers_ <;> cases hp : h.isDefiningPackage_ <;>
          cases hps : h.isDefiningPackages_ <;> cases hcp : h.currentPackage_ <;>
          simp [SAXHandler.startElement, SAXHandler.handleWireDefinition, SAXHandler.log,
            assert, hA, hB, hl, hp, hps, hcp, LAYERS, BOARD, PLAIN, LAYER, TEXT, DESCRIPTION,
            NOTE, WIRE]
  refine ⟨hf, key, ?_⟩
  have := congrArg Option.isSome key
  simpa using this

/-- Counterexample to C24 as stated: a `wire` start event with cap="round"
writes no warning, nor does one with style="shortdash"; an attribute named
`extent` does get its warning. -/
theorem C24_counterexample_cap_adds_no_warning :
    boardOpen.cerr = [] ∧
    (boardOpen.startElement sampleLibc "wire" [⟨"x1", "0"⟩, ⟨"cap", "round"⟩]).map
      (fun h => h.cerr) = some [] ∧
    (boardOpen.startElement sampleLibc "wire" [⟨"style", "shortdash"⟩]).map
      (fun h => h.cerr) = some [] ∧
    (boardOpen.startElement sampleLibc "wire" [⟨"x1", "0"⟩, ⟨"extent", "1-16"⟩]).map
      (fun h => h.cerr) = some ["WARN unexpected attribute 'extent' in wire definition"] := by
  decide

/-- Claim C24, amended: for every `wire` start event that is accepted, the
diagnostic stream grows by exactly one warning, naming the attribute, for each
attribute in its list that the Wire does not recognize and that is neither
`cap` nor `style`, in list order; `cap`, `style` and the attributes the Wire
recognizes add none. -/
theorem C24_wire_start_warnings (c : Libc) (h h' : SAXHandler) (attrs : AttributeList)
    (hs : h.startElement c "wire" attrs = some h') :
    h'.cerr = h.cerr ++
      (attrs.filter fun a =>
          a.name ∉ wireAttributeNames ∧ a.name ≠ "cap" ∧ a.name ≠ "style").map
        fun a => "WARN unexpected attribute '" ++ a.name ++ "' in wire definition" := by
  unfold SAXHandler.startElement at hs
  simp [LAYERS, BOARD, PLAIN, LAYER, TEXT, DESCRIPTION, NOTE, WIRE,
    SAXHandler.handleWireDefinition, SAXHandler.log, Option.bind_eq_some] at hs
  obtain ⟨hl, w, out, hw, hs⟩ := hs
  have hout := SAXHandler.wireAttributes_warnings c attrs Wire.new w out hw
  split_ifs at hs <;> simp [Option.bind_eq_some] at hs <;>
    (repeat (obtain ⟨hfact, hs⟩ := hs)) <;> simp [hout]

/-- Witness for C24: a wire with `x1`, `cap` and an attribute named
`extent`. -/
theorem C24_wire_start_warnings_witness :
    boardOpen.startElement sampleLibc "wire"
        [⟨"x1", "0"⟩, ⟨"cap", "round"⟩, ⟨"extent", "1-16"⟩]
      = some { boardOpen with
          elementCounts_ := [("board", 1), ("wire", 1)]
          board_ := { wireObjects_ := [{ Wire.new with x1_ := 0, hasX1_ := true }] }
          cerr := ["WARN unexpected attribute 'extent' in wire definition"] } ∧
    ({ boardOpen with
          elementCounts_ := [("board", 1), ("wire", 1)]
          board_ := { wireObjects_ := [{ Wire.new with x1_ := 0, hasX1_ := true }] }
          cerr := ["WARN unexpected attribute 'extent' in wire definition"] } : SAXHandler).cerr
      = boardOpen.cerr ++
        (([⟨"x1", "0"⟩, ⟨"cap", "round"⟩, ⟨"extent", "1-16"⟩] : AttributeList).filter fun a =>
            a.name ∉ wireAttributeNames ∧ a.name ≠ "cap" ∧ a.name ≠ "style").map
          fun a => "WARN unexpected attribute '" ++ a.name ++ "' in wire definition" :=
  ⟨by decide,
   C24_wire_start_warnings sampleLibc boardOpen _
     [⟨"x1", "0"⟩, ⟨"cap", "round"⟩, ⟨"extent", "1-16"⟩] (by decide)⟩

/-- Claim C28: for every package with no name and every string v,
`tryHandleAttribute` with the attribute named "name" and value v returns true,
marks the name as set and stores the literal string "name" as the package
name, whatever v is; nothing else changes. -/
theorem C28_package_name_is_attribute_name (p : Package) (v : String)
    (hn : p.hasName_ = false) :
    Package.tryHandleAttribute p ⟨"name", v⟩
      = some (true, { p with name_ := "name", hasName_ := true }) := by
  simp [Package.tryHandleAttribute, Attribute.getName, NAME, hn]

/-- Witness for C28: the attribute name="DIP8" on a fresh package. -/
theorem C28_package_name_is_attribute_name_witness :
    Package.new.hasName_ = false ∧
    Package.tryHandleAttribute Package.new ⟨"name", "DIP8"⟩
      = some (true, { Package.new with name_ := "name", hasName_ := true }) :=
  ⟨rfl, C28_package_name_is_attribute_name Package.new "DIP8" rfl⟩

/-! ## Diagnostics and exit status -/

/-- Claim C29, evaluated on the code: after one start event named `library`,
a name the handler does not otherwise act on, the occurrence counter for
`library` is 2 and the end-of-run diagnostic says so; after one start event
named `board` the counter for `board` is 1. -/
theorem C29_unhandled_element_counted_twice :
    (SAXHandler.new.run sampleLibc [Event.startElement "library" []]).map
      (fun h => (h.elementCounts_.count "library", h.finalize.cerr))
      = some (2, ["DBG element library -> 2"]) ∧
    (SAXHandler.new.run sampleLibc [Event.startElement "board" []]).map
      (fun h => (h.elementCounts_.count "board", h.finalize.cerr))
      = some (1, ["DBG element board -> 1"]) := by
  decide

/-- Claim C30: whenever `main` returns, its result is 0 if and only if help was
not requested and no exception reached the top-level handler (neither from
setting up the XML platform nor from parsing); a help request yields -1, and
an out-of-memory exception, an XML exception and any other exception each
yield -2. -/
theorem C30_exit_status (c : Libc) (parser : ParserRun) :
    (∀ args r, main c args parser = some r →
      (r.result = 0 ↔
        args = CommandLine.accepted false ∧ parser.platformThrows = none ∧
          parser.parseThrows = none)) ∧
    (∃ r, main c (CommandLine.accepted true) parser = some r ∧ r.result = -1) ∧
    (∃ r, main c (CommandLine.accepted false)
        { parser with platformThrows := some TopLevelException.OutOfMemoryException } = some r ∧
      r.result = -2) ∧
    (∀ message, ∃ r, main c (CommandLine.accepted false)
        { parser with platformThrows := some (TopLevelException.XMLException message) }
          = some r ∧ r.result = -2) ∧
    (∃ r, main c (CommandLine.accepted false)
        { parser with platformThrows := some TopLevelException.other } = some r ∧
      r.result = -2) ∧
    (∀ exc handler, parser.platformThrows = none →
      SAXHandler.new.run c parser.events = some handler →
      ∃ r, main c (CommandLine.accepted false) { parser with parseThrows := some exc } = some r ∧
        r.result = -2) := by
  refine ⟨?_, ⟨_, rfl, rfl⟩, ⟨_, rfl, rfl⟩, fun _ => ⟨_, rfl, rfl⟩, ⟨_, rfl, rfl⟩, ?_⟩
  · intro args r hmain
    unfold main at hmain
    cases args with
    | rejected => simp at hmain
    | accepted help =>
      cases help with
      | true =>
        simp only [Option.some.injEq] at hmain
        subst hmain
        simp
      | false =>
        cases hp : parser.platformThrows with
        | some exc =>
          simp only [hp, Option.some.injEq] at hmain
          subst hmain
          cases exc <;> simp [catchTopLevel]
        | none =>
          simp only [hp] at hmain
          cases hrun : SAXHandler.new.run c parser.events with
          | none => simp [hrun] at hmain
          | some handler =>
            simp only [hrun] at hmain
            cases hq : parser.parseThrows with
            | some exc =>
              simp only [hq, Option.some.injEq] at hmain
              subst hmain
              cases exc <;> simp [catchTopLevel]
            | none =>
              simp only [hq, Option.some.injEq] at hmain
              subst hmain
              simp
  · intro exc handler hp hrun
    cases exc <;> exact ⟨_, by simp [main, hp, hrun, catchTopLevel]; rfl, rfl⟩

/-- Witness for C30: the document with one wire, parsed to the end and parsed
with an XML exception thrown by the parser. -/
theorem C30_exit_status_witness :
    (∃ r, main sampleLibc (CommandLine.accepted false) { events := wireDocument } = some r ∧
      r.result = 0) ∧
    (main sampleLibc (CommandLine.accepted false)
        { events := wireDocument,
          parseThrows := some (TopLevelException.XMLException "bad") }).map
      (fun r => r.result) = some (-2) := by
  refine ⟨?_, by decide⟩
  have hs : (main sampleLibc (CommandLine.accepted false)
      { events := wireDocument }).isSome = true := by decide
  obtain ⟨r, hr⟩ := Option.isSome_iff_exists.mp hs
  exact ⟨r, hr, ((C30_exit_status sampleLibc { events := wireDocument }).1 _ r hr).mpr
    ⟨rfl, rfl, rfl⟩⟩

/-! ## The emitter -/

/-- Claim C31, evaluated on the code: a `PCB` whose three references name
live objects prints exactly `PCB["n" W H]` and a newline, name first and in
double quotes, then width, then height; the object of the test case,
`PCB("Test", 10000, 10000)`, holds references to temporaries that are
destroyed before it is printed, and printing it has no defined result. -/
theorem C31_pcb_print_reads_destroyed_temporaries (lib : geda_pcb.StreamLib) :
    (∀ (n : String) (w h : Centimils) (strm : geda_pcb.ostream),
      (geda_pcb.PCB.new (geda_pcb.Reference.live n) (geda_pcb.Reference.live w)
          (geda_pcb.Reference.live h)).print lib strm
        = some (strm ++ "PCB[\"" ++ n ++ "\" " ++ lib.quantity w ++ " " ++ lib.quantity h
                  ++ "]" ++ "\n")) ∧
    geda_pcb.testCase lib = none :=
  ⟨fun _ _ _ _ => rfl, rfl⟩

/-- Claim C32, evaluated on the code: for `Layer(1, "top")` holding one
element, `print` writes the character with code 1 where the claim has the
decimal number 1, and on the element's line the address held in the list,
whatever the element is; with the sample renderings the text written differs
from the one the claim describes, which holds the record of the line. -/
theorem C32_layer_print_writes_character_and_address (lib : geda_pcb.StreamLib)
    (e : geda_pcb.Printable) :
    ((geda_pcb.Layer.new 1 "top").addElement { address := 4096, object := e }).print lib ""
      = "Layer (\x01 \"top\")\n(\n\t" ++ lib.pointer 4096 ++ "\n)\n" ∧
    sampleLayer.print sampleStreamLib "" = "Layer (\x01 \"top\")\n(\n\t0x1000\n)\n" ∧
    sampleLayer.expectedPrint sampleStreamLib
      = some ("Layer (1 \"top\")\n(\n\tLine[ 0 cmil 0 cmil 1000 cmil 0 cmil"
                ++ " \"1000 cmil\" \"2000 cmil\" clearline]\n)\n") ∧
    some (sampleLayer.print sampleStreamLib "") ≠ sampleLayer.expectedPrint sampleStreamLib := by
  refine ⟨?_, by decide, by decide, by decide⟩
  simp [geda_pcb.Layer.print, geda_pcb.Layer.new, geda_pcb.Layer.addElement,
    geda_pcb.insertUnsignedChar, String.append_assoc]
  rfl

/-! ## The text written to standard output -/

/-- Claim C33: for any two parser runs that complete (no exception from the
platform or from parsing, no callback aborting), `main` returns for both, and
the text written to standard output is the same for both: the generated-by
comment line, an empty line, the file version, the layout flags and the layer
groups, whatever board or packages were parsed. -/
theorem C33_stdout_is_the_fixed_header (c : Libc) (p q : ParserRun)
    (hp : p.platformThrows = none ∧ p.parseThrows = none ∧
      (SAXHandler.new.run c p.events).isSome = true)
    (hq : q.platformThrows = none ∧ q.parseThrows = none ∧
      (SAXHandler.new.run c q.events).isSome = true) :
    ∃ r s, main c (CommandLine.accepted false) p = some r ∧
      main c (CommandLine.accepted false) q = some s ∧
      r.stdout = s.stdout ∧
      r.stdout = ["# Output generated from Eagle .brd file automatically by eagle2gedapcb.",
                  "", "FileVersion[20070407]",
                  "Flags(\"nameonpcb,uniquename,clearnew,snappin\")",
                  "Groups(\"1,c:2:3:4:5:6,s:7:8\")"] := by
  obtain ⟨hp1, hp2, hp3⟩ := hp
  obtain ⟨hq1, hq2, hq3⟩ := hq
  obtain ⟨hp', hprun⟩ := Option.isSome_iff_exists.mp hp3
  obtain ⟨hq', hqrun⟩ := Option.isSome_iff_exists.mp hq3
  have hmain : ∀ (x : ParserRun) (hx : SAXHandler), x.platformThrows = none →
      x.parseThrows = none → SAXHandler.new.run c x.events = some hx →
      main c (CommandLine.accepted false) x =
        some { stdout :=
                 ["# Output generated from Eagle .brd file automatically by eagle2gedapcb.",
                  "", FILE_VERSION, LAYOUT_FLAGS, LAYOUT_GROUPS]
               stderr := ((hx.log ["Parsing complete with " ++ toString x.errorCount
                                     ++ " errors"]).finalize).cerr
               result := 0 } := by
    intro x hx h1 h2 h3
    simp only [main, h1, h2, h3]
  exact ⟨_, _, hmain p hp' hp1 hp2 hprun, hmain q hq' hq1 hq2 hqrun, rfl, rfl⟩

/-- Witness for C33: the document with one board and one wire, and the
document with two packages. -/
theorem C33_stdout_is_the_fixed_header_witness :
    ∃ r s, main sampleLibc (CommandLine.accepted false) { events := wireDocument } = some r ∧
      main sampleLibc (CommandLine.accepted false) { events := twoPackageDocument } = some s ∧
      r.stdout = s.stdout ∧
      r.stdout = ["# Output generated from Eagle .brd file automatically by eagle2gedapcb.",
                  "", "FileVersion[20070407]",
                  "Flags(\"nameonpcb,uniquename,clearnew,snappin\")",
                  "Groups(\"1,c:2:3:4:5:6,s:7:8\")"] :=
  C33_stdout_is_the_fixed_header sampleLibc { events := wireDocument }
    { events := twoPackageDocument } ⟨rfl, rfl, by decide⟩ ⟨rfl, rfl, by decide⟩

/-! ## Packages stay without a name -/

/-- A start event leaves the package under construction without a name. -/
theorem SAXHandler.startElement_hasName (c : Libc) (h h' : SAXHandler) (name : String)
    (attrs : AttributeList) (hs : h.startElement c name attrs = some h')
    (hcur : ∀ p, h.currentPackage_ = some p → p.hasName_ = false) :
    ∀ p, h'.currentPackage_ = some p → p.hasName_ = false := by
  unfold SAXHandler.startElement at hs
  by_cases h1 : "layers" = name
  · subst h1
    simp [LAYERS, BOARD, PLAIN, LAYER, TEXT, DESCRIPTION, NOTE, WIRE, HOLE, RECTANGLE, CIRCLE, PACKAGES, PACKAGE] at hs
    repeat (obtain ⟨hfact, hs⟩ := hs)
    try subst hs
    (intro q hq; simp_all [Package.new])
  by_cases h2 : "board" = name
  · subst h2
    simp [LAYERS, BOARD, PLAIN, LAYER, TEXT, DESCRIPTION, NOTE, WIRE, HOLE, RECTANGLE, CIRCLE, PACKAGES, PACKAGE] at hs
    repeat (obtain ⟨hfact, hs⟩ := hs)
    try subst hs
    (intro q hq; simp_all [Package.new])
  by_cases h3 : "plain" = name
  · subst h3
    simp [LAYERS, BOARD, PLAIN, LAYER, TEXT, DESCRIPTION, NOTE, WIRE, HOLE, RECTANGLE, CIRCLE, PACKAGES, PACKAGE] at hs
    repeat (obtain ⟨hfact, hs⟩ := hs)
    try subst hs
    (intro q hq; simp_all [Package.new])
  by_cases h4 : "layer" = name
  · subst h4
    simp [LAYERS, BOARD, PLAIN, LAYER, TEXT, DESCRIPTION, NOTE, WIRE, HOLE, RECTANGLE, CIRCLE, PACKAGES, PACKAGE] at hs
    repeat (obtain ⟨hfact, hs⟩ := hs)
    try subst hs
    (intro q hq; simp_all [Package.new])
  by_cases h5 : "text" = name
  · subst h5
    simp [LAYERS, BOARD, PLAIN, LAYER, TEXT, DESCRIPTION, NOTE, WIRE, HOLE, RECTANGLE, CIRCLE, PACKAGES, PACKAGE, SAXHandler.handleTextDefinition, SAXHandler.log, Ptr.isNonNull, Ptr.deref,
      Option.bind_eq_some] at hs
    repeat (obtain ⟨hfact, hs⟩ := hs)
    try subst hs
    (intro q hq; simp_all [Package.new])
  by_cases h6 : "description" = name
  · subst h6
    simp [LAYERS, BOARD, PLAIN, LAYER, TEXT, DESCRIPTION, NOTE, WIRE, HOLE, RECTANGLE, CIRCLE, PACKAGES, PACKAGE, SAXHandler.handleTextDefinition, SAXHandler.log, Ptr.isNonNull, Ptr.deref,
      Option.bind_eq_some] at hs
    repeat (obtain ⟨hfact, hs⟩ := hs)
    try subst hs
    (intro q hq; simp_all [Package.new])
  by_cases h7 : "note" = name
  · subst h7
    simp [LAYERS, BOARD, PLAIN, LAYER, TEXT, DESCRIPTION, NOTE, WIRE, HOLE, RECTANGLE, CIRCLE, PACKAGES, PACKAGE] at hs
    repeat (obtain ⟨hfact, hs⟩ := hs)
    try subst hs
    (intro q hq; simp_all [Package.new])
  by_cases h8 : "wire" = name
  · subst h8
    simp [LAYERS, BOARD, PLAIN, LAYER, TEXT, DESCRIPTION, NOTE, WIRE, HOLE, RECTANGLE, CIRCLE, PACKAGES, PACKAGE, SAXHandler.handleWireDefinition, SAXHandler.log, Option.bind_eq_some] at hs
    obtain ⟨hl, w, out, hw, hs⟩ := hs
    split_ifs at hs <;> simp [Option.bind_eq_some] at hs <;>
      (repeat (obtain ⟨hfact, hs⟩ := hs)) <;> (intro q hq; simp_all [Board.addWire, Board.addHole, Board.addRectangle]; try (subst hq; rfl))
  by_cases h9 : "hole" = name
  · subst h9
    simp [LAYERS, BOARD, PLAIN, LAYER, TEXT, DESCRIPTION, NOTE, WIRE, HOLE, RECTANGLE, CIRCLE, PACKAGES, PACKAGE, SAXHandler.handleHoleDefinition, SAXHandler.log, Option.bind_eq_some] at hs
    obtain ⟨hl, w, out, hw, hs⟩ := hs
    split_ifs at hs <;> simp [Option.bind_eq_some] at hs <;>
      (repeat (obtain ⟨hfact, hs⟩ := hs)) <;> (intro q hq; simp_all [Board.addWire, Board.addHole, Board.addRectangle]; try (subst hq; rfl))
  by_cases h10 : "rectangle" = name
  · subst h10
    simp [LAYERS, BOARD, PLAIN, LAYER, TEXT, DESCRIPTION, NOTE, WIRE, HOLE, RECTANGLE, CIRCLE, PACKAGES, PACKAGE, SAXHandler.handleRectangleDefinition, SAXHandler.log, Option.bind_eq_some] at hs
    obtain ⟨hl, w, out, hw, hs⟩ := hs
    split_ifs at hs <;> simp [Option.bind_eq_some] at hs <;>
      (repeat (obtain ⟨hfact, hs⟩ := hs)) <;> (intro q hq; simp_all [Board.addWire, Board.addHole, Board.addRectangle]; try (subst hq; rfl))
  by_cases h11 : "circle" = name
  · subst h11
    simp [LAYERS, BOARD, PLAIN, LAYER, TEXT, DESCRIPTION, NOTE, WIRE, HOLE, RECTANGLE, CIRCLE, PACKAGES, PACKAGE, SAXHandler.handleCircleDefinition, SAXHandler.log, Option.bind_eq_some] at hs
    repeat (obtain ⟨hfact, hs⟩ := hs)
    try subst hs
    (intro q hq; simp_all [Package.new])
  by_cases h12 : "packages" = name
  · subst h12
    simp [LAYERS, BOARD, PLAIN, LAYER, TEXT, DESCRIPTION, NOTE, WIRE, HOLE, RECTANGLE, CIRCLE, PACKAGES, PACKAGE] at hs
    repeat (obtain ⟨hfact, hs⟩ := hs)
    try subst hs
    (intro q hq; simp_all [Package.new])
  by_cases h13 : "package" = name
  · subst h13
    simp [LAYERS, BOARD, PLAIN, LAYER, TEXT, DESCRIPTION, NOTE, WIRE, HOLE, RECTANGLE, CIRCLE, PACKAGES, PACKAGE] at hs
    repeat (obtain ⟨hfact, hs⟩ := hs)
    try subst hs
    (intro q hq; simp_all [Package.new]; subst hq; rfl)
  simp [LAYERS, BOARD, PLAIN, LAYER, TEXT, DESCRIPTION, NOTE, WIRE, HOLE, RECTANGLE, CIRCLE, PACKAGES, PACKAGE, h1, h2, h3, h4, h5, h6, h7, h8, h9, h10, h11, h12, h13] at hs
  subst hs
  have g12 : ¬ name = "packages" := fun e => h12 e.symm
  have g13 : ¬ name = "package" := fun e => h13 e.symm
  (intro q hq; simp_all [Package.new])

/-- An end event leaves the package under construction without a name. -/
theorem SAXHandler.endElement_hasName (h h' : SAXHandler) (name : String)
    (hs : h.endElement name = some h')
    (hcur : ∀ p, h.currentPackage_ = some p → p.hasName_ = false) :
    ∀ p, h'.currentPackage_ = some p → p.hasName_ = false := by
  unfold SAXHandler.endElement at hs
  by_cases h1 : "layers" = name
  · subst h1
    simp [LAYERS, BOARD, PLAIN, TEXT, DESCRIPTION, NOTE, PACKAGES, PACKAGE, SAXHandler.log, Ptr.isNonNull, Option.bind_eq_some] at hs
    repeat (obtain ⟨hfact, hs⟩ := hs)
    try subst hs
    (intro q hq; simp_all)
  by_cases h2 : "board" = name
  · subst h2
    simp [LAYERS, BOARD, PLAIN, TEXT, DESCRIPTION, NOTE, PACKAGES, PACKAGE, SAXHandler.log, Ptr.isNonNull, Option.bind_eq_some] at hs
    repeat (obtain ⟨hfact, hs⟩ := hs)
    try subst hs
    (intro q hq; simp_all)
  by_cases h3 : "plain" = name
  · subst h3
    simp [LAYERS, BOARD, PLAIN, TEXT, DESCRIPTION, NOTE, PACKAGES, PACKAGE, SAXHandler.log, Ptr.isNonNull, Option.bind_eq_some] at hs
    repeat (obtain ⟨hfact, hs⟩ := hs)
    try subst hs
    (intro q hq; simp_all)
  by_cases h4 : "text" = name
  · subst h4
    simp [LAYERS, BOARD, PLAIN, TEXT, DESCRIPTION, NOTE, PACKAGES, PACKAGE, SAXHandler.log, Ptr.isNonNull, Option.bind_eq_some] at hs
    obtain ⟨hl, hnn, ht, text, htext, hs⟩ := hs
    split_ifs at hs <;> simp [Option.bind_eq_some] at hs <;>
      (repeat (obtain ⟨hfact, hs⟩ := hs)) <;> (intro q hq; simp_all [Board.addText]; try (subst hq; rfl))
  by_cases h5 : "description" = name
  · subst h5
    simp [LAYERS, BOARD, PLAIN, TEXT, DESCRIPTION, NOTE, PACKAGES, PACKAGE, SAXHandler.log, Ptr.isNonNull, Option.bind_eq_some] at hs
    obtain ⟨a1, a2, a3, a4, a5, a6, p, hp, t, ht, p', hset, rfl⟩ := hs
    obtain ⟨hb, hname, hhas⟩ := Package.setDescription_toBoard p p' t hset
    intro q hq; simp at hq; subst hq; rw [hhas]; exact hcur p hp
  by_cases h6 : "note" = name
  · subst h6
    simp [LAYERS, BOARD, PLAIN, TEXT, DESCRIPTION, NOTE, PACKAGES, PACKAGE, SAXHandler.log, Ptr.isNonNull, Option.bind_eq_some] at hs
    repeat (obtain ⟨hfact, hs⟩ := hs)
    try subst hs
    (intro q hq; simp_all)
  by_cases h7 : "package" = name
  · subst h7
    simp [LAYERS, BOARD, PLAIN, TEXT, DESCRIPTION, NOTE, PACKAGES, PACKAGE, SAXHandler.log, Ptr.isNonNull, Option.bind_eq_some] at hs
    repeat (obtain ⟨hfact, hs⟩ := hs)
    try subst hs
    (intro q hq; simp_all)
  by_cases h8 : "packages" = name
  · subst h8
    simp [LAYERS, BOARD, PLAIN, TEXT, DESCRIPTION, NOTE, PACKAGES, PACKAGE, SAXHandler.log, Ptr.isNonNull, Option.bind_eq_some] at hs
    repeat (obtain ⟨hfact, hs⟩ := hs)
    try subst hs
    (intro q hq; simp_all)
  simp [LAYERS, BOARD, PLAIN, TEXT, DESCRIPTION, NOTE, PACKAGES, PACKAGE, h1, h2, h3, h4, h5, h6, h7, h8] at hs
  subst hs
  have g4 : ¬ name = "text" := fun e => h4 e.symm
  have g7 : ¬ name = "package" := fun e => h7 e.symm
  (intro q hq; simp_all)

/-- Any callback leaves the packages of the collection and the package under
construction without a name. -/
theorem SAXHandler.step_hasName (c : Libc) (h h' : SAXHandler) (e : Event)
    (hs : h.step c e = some h')
    (hall : ∀ p ∈ h.packages_, p.hasName_ = false)
    (hcur : ∀ p, h.currentPackage_ = some p → p.hasName_ = false) :
    (∀ p ∈ h'.packages_, p.hasName_ = false) ∧
    (∀ p, h'.currentPackage_ = some p → p.hasName_ = false) := by
  have hpk := (SAXHandler.step_containers c h h' e hs).1
  constructor
  · intro p hp
    rw [hpk] at hp
    rcases List.mem_append.mp hp with hp | hp
    · exact hall p hp
    · split_ifs at hp
      · exact hcur p (by simpa using hp)
      · simp at hp
  · cases e with
    | startElement n attrs => exact SAXHandler.startElement_hasName c h h' n attrs hs hcur
    | endElement n => exact SAXHandler.endElement_hasName h h' n hs hcur
    | characters chars length =>
      rw [(SAXHandler.characters_containers h h' chars length hs).2.1]
      exact hcur
    | _ =>
      simp [SAXHandler.step, SAXHandler.log, SAXHandler.setDocumentLocator] at hs
      subst hs
      exact hcur

/-- A sequence of callbacks leaves the packages of the collection and the
package under construction without a name. -/
theorem SAXHandler.run_hasName (c : Libc) (es : List Event) :
    ∀ h h' : SAXHandler, h.run c es = some h' →
      (∀ p ∈ h.packages_, p.hasName_ = false) →
      (∀ p, h.currentPackage_ = some p → p.hasName_ = false) →
      (∀ p ∈ h'.packages_, p.hasName_ = false) ∧
      (∀ p, h'.currentPackage_ = some p → p.hasName_ = false) := by
  induction es with
  | nil => intro h h' hs hall hcur; simp [SAXHandler.run] at hs; subst hs; exact ⟨hall, hcur⟩
  | cons e es ih =>
    intro h h' hs hall hcur
    simp only [SAXHandler.run] at hs
    cases hstep : h.step c e with
    | none => simp [hstep] at hs
    | some next =>
      simp only [hstep] at hs
      obtain ⟨hall', hcur'⟩ := SAXHandler.step_hasName c h next e hstep hall hcur
      exact ih next h' hs hall' hcur'

/-! ## Package names -/

/-- Claim C34: after every sequence of callbacks none of which fails, every
package in the document-level package collection and the package under
construction, if any, has no name set, so that `getName` has no result on it;
the state a `package` start event produces is the same for every attribute
list, the one for the empty list: the attributes are not looked at. -/
theorem C34_packages_never_get_a_name (c : Libc) (es : List Event) (h : SAXHandler)
    (hrun : SAXHandler.new.run c es = some h) :
    (∀ p ∈ h.packages_, p.hasName_ = false ∧ p.getName = none) ∧
    (∀ p, h.currentPackage_ = some p → p.hasName_ = false ∧ p.getName = none) ∧
    (∀ (g : SAXHandler) (attrs : AttributeList),
      g.startElement c "package" attrs = g.startElement c "package" []) := by
  obtain ⟨hall, hcur⟩ := SAXHandler.run_hasName c es SAXHandler.new h hrun
    (by simp [SAXHandler.new]) (by simp [SAXHandler.new])
  refine ⟨fun p hp => ⟨hall p hp, by simp [Package.getName, hall p hp]⟩,
    fun p hp => ⟨hcur p hp, by simp [Package.getName, hcur p hp]⟩, ?_⟩
  intro g attrs
  simp [SAXHandler.startElement, LAYERS, BOARD, PLAIN, LAYER, TEXT, DESCRIPTION, NOTE, WIRE, HOLE,
    RECTANGLE, CIRCLE, PACKAGES, PACKAGE]

/-- Witness for C34: one package closed and one open, both started with a
`name` attribute. -/
theorem C34_packages_never_get_a_name_witness :
    (SAXHandler.new.run sampleLibc namedPackagesDocument).map
        (fun h => (h.packages_.map Package.getName, h.currentPackage_.map Package.getName))
      = some ([none], some none) ∧
    ∃ h, SAXHandler.new.run sampleLibc namedPackagesDocument = some h ∧
      (∀ p ∈ h.packages_, p.hasName_ = false ∧ p.getName = none) ∧
      (∀ p, h.currentPackage_ = some p → p.hasName_ = false ∧ p.getName = none) := by
  refine ⟨by decide, ?_⟩
  have hs : (SAXHandler.new.run sampleLibc namedPackagesDocument).isSome = true := by decide
  obtain ⟨h, hrun⟩ := Option.isSome_iff_exists.mp hs
  have hthm := C34_packages_never_get_a_name sampleLibc namedPackagesDocument h hrun
  exact ⟨h, hrun, hthm.1, hthm.2.1⟩

/-! ## A `text` start event while a text is open -/

/-- A `text` start event that is accepted, field by field. -/
theorem SAXHandler.startElement_text_fields (c : Libc) (g : SAXHandler) (attrs : AttributeList)
    (t : Text) (out : List String)
    (hl : g.isDefiningLayers_ = false) (hd : g.isDefiningDescription_ = false)
    (ht : SAXHandler.textAttributes c Text.new attrs = some (t, out)) :
    ∃ g', g.startElement c "text" attrs = some g' ∧
      g'.currentText_ = Ptr.live t ∧ g'.isDefiningText_ = true ∧
      g'.isDefiningLayers_ = false ∧ g'.isDefiningDescription_ = false ∧
      g'.isDefiningPackage_ = g.isDefiningPackage_ ∧
      g'.isDefiningPackages_ = g.isDefiningPackages_ ∧
      g'.currentPackage_ = g.currentPackage_ ∧ g'.board_ = g.board_ ∧
      g'.packages_ = g.packages_ := by
  have hs := SAXHandler.startElement_text_eq c g attrs
  rw [if_pos ⟨hl, hd⟩, ht] at hs
  simp only [Option.map_some'] at hs
  exact ⟨_, hs, by simp [hl, hd]⟩

/-- A `text` end event that is accepted, field by field. -/
theorem SAXHandler.endElement_text_fields (g : SAXHandler) (t : Text) (hi : g.Inv)
    (ht : g.isDefiningText_ = true) (hl : g.isDefiningLayers_ = false)
    (hct : g.currentText_ = Ptr.live t)
    (hroute : g.isDefiningPackage_ = true ∨ g.isDefiningPackages_ = false) :
    ∃ g', g.endElement "text" = some g' ∧
      g'.isDefiningText_ = false ∧ g'.currentText_ = Ptr.null ∧ g'.packages_ = g.packages_ ∧
      ((∃ p, g.currentPackage_ = some p ∧
          g'.currentPackage_ = some { p with textObjects_ := p.textObjects_ ++ [t] } ∧
          g'.board_ = g.board_) ∨
       (g.currentPackage_ = none ∧ g'.currentPackage_ = none ∧
          g'.board_ = { g.board_ with textObjects_ := g.board_.textObjects_ ++ [t] })) := by
  by_cases hp : g.isDefiningPackage_ = true
  · have hsome : g.currentPackage_.isSome = true := by rw [← hi.package_iff]; exact hp
    obtain ⟨p, hcp⟩ := Option.isSome_iff_exists.mp hsome
    have hs : g.endElement "text" = some { g with
        cerr := g.cerr ++ ["DBG ending text"]
        currentPackage_ := some { p with textObjects_ := p.textObjects_ ++ [t] }
        isDefiningText_ := false
        currentText_ := Ptr.null } := by
      simp [SAXHandler.endElement, SAXHandler.log, Ptr.isNonNull, Ptr.deref, assert, hct, ht,
        hl, hp, hcp, Board.addText, LAYERS, BOARD, PLAIN, TEXT]
    exact ⟨_, hs, by simp [hcp]⟩
  · have hp' : g.isDefiningPackage_ = false := by simpa using hp
    have hps : g.isDefiningPackages_ = false := by
      rcases hroute with h1 | h1
      · exact absurd h1 hp
      · exact h1
    have hnone : g.currentPackage_ = none := by
      have := hi.package_iff
      rw [hp'] at this
      exact Option.not_isSome_iff_eq_none.mp (by simp [← this])
    have hs : g.endElement "text" = some { g with
        cerr := g.cerr ++ ["DBG ending text"]
        board_ := { g.board_ with textObjects_ := g.board_.textObjects_ ++ [t] }
        isDefiningText_ := false
        currentText_ := Ptr.null } := by
      simp [SAXHandler.endElement, SAXHandler.log, Ptr.isNonNull, Ptr.deref, assert, hct, ht,
        hl, hp', hps, hnone, Board.addText, LAYERS, BOARD, PLAIN, TEXT]
    exact ⟨_, hs, by simp [hnone]⟩

/-- Counterexample to C35 as stated: with a text open in a reachable state
and the layer-set and description closed, a `text` start event whose attribute
list names `x` twice fails; and with the package-set open and no package under
construction the events text-start, text-start are accepted but the text-end
after them fails, so no Text is stored. -/
theorem C35_counterexample_text_start_not_accepted :
    SAXHandler.new.run sampleLibc [Event.startElement "board" [], Event.startElement "text" []]
      = some textStarted ∧
    textStarted.isDefiningText_ = true ∧ textStarted.isDefiningLayers_ = false ∧
    textStarted.isDefiningDescription_ = false ∧
    textStarted.startElement sampleLibc "text" [⟨"x", "1"⟩, ⟨"x", "2"⟩] = none ∧
    SAXHandler.new.run sampleLibc [Event.startElement "packages" []] = some packageSetOpen ∧
    (packageSetOpen.run sampleLibc
        [Event.startElement "text" [], Event.startElement "text" []]).isSome = true ∧
    packageSetOpen.run sampleLibc
        [Event.startElement "text" [], Event.startElement "text" [], Event.endElement "text"]
      = none := by
  decide

/-- Claim C35, amended: when neither attribute list names an attribute twice,
(1) in every handler state with a text open and the layer-set and description
closed, a `text` start event is accepted and replaces the in-progress Text
with a fresh one built from its own attributes, and the state it produces is
the same whatever the earlier in-progress Text was, so that the earlier Text
can reach no container; (2) from every reachable state with the layer-set and
description closed, and with a package open or the package-set closed, the
events text-start, text-start, text-end are all accepted, exactly one Text is
stored by them, the one of the second start event, at the end of the text
sequence of the open package or else of the board, and a further text-end
fails. -/
theorem C35_text_start_replaces_open_text (c : Libc) (attrs₁ attrs₂ : AttributeList)
    (hn₁ : (attrs₁.map Attribute.name).Nodup) (hn₂ : (attrs₂.map Attribute.name).Nodup) :
    (∀ g : SAXHandler, g.isDefiningText_ = true → g.isDefiningLayers_ = false →
      g.isDefiningDescription_ = false →
      ∃ t out, SAXHandler.textAttributes c Text.new attrs₂ = some (t, out) ∧
        g.startElement c "text" attrs₂ = some { g with
          elementCounts_ := g.elementCounts_.increment "text"
          currentText_ := Ptr.live t
          cerr := g.cerr ++
            [match g.locator_ with
             | some locator => "DBG starting text at " ++ toString locator.lineNumber
             | none => "DBG starting text"] ++ out } ∧
        ∀ old : Ptr Text,
          ({ g with currentText_ := old }).startElement c "text" attrs₂
            = g.startElement c "text" attrs₂) ∧
    (∀ h : SAXHandler, h.Reachable c → h.isDefiningLayers_ = false →
      h.isDefiningDescription_ = false →
      (h.isDefiningPackage_ = true ∨ h.isDefiningPackages_ = false) →
      ∃ t₂ out₂ h₃, SAXHandler.textAttributes c Text.new attrs₂ = some (t₂, out₂) ∧
        h.run c [Event.startElement "text" attrs₁, Event.startElement "text" attrs₂,
                 Event.endElement "text"] = some h₃ ∧
        h₃.packages_ = h.packages_ ∧
        ((∃ p, h.currentPackage_ = some p ∧
            h₃.currentPackage_ = some { p with textObjects_ := p.textObjects_ ++ [t₂] } ∧
            h₃.board_ = h.board_) ∨
         (h.currentPackage_ = none ∧ h₃.currentPackage_ = none ∧
            h₃.board_ = { h.board_ with textObjects_ := h.board_.textObjects_ ++ [t₂] })) ∧
        h₃.isDefiningText_ = false ∧ h₃.currentText_ = Ptr.null ∧
        h₃.endElement "text" = none) := by
  obtain ⟨⟨t₁, o₁⟩, ht₁⟩ := SAXHandler.textAttributes_isSome c attrs₁ Text.new
    (by intro n hn; simp [Text.IsSet, Text.new] at hn) hn₁
  obtain ⟨⟨t₂, o₂⟩, ht₂⟩ := SAXHandler.textAttributes_isSome c attrs₂ Text.new
    (by intro n hn; simp [Text.IsSet, Text.new] at hn) hn₂
  constructor
  · intro g hg hl hd
    refine ⟨t₂, o₂, ht₂, ?_, ?_⟩
    · rw [SAXHandler.startElement_text_eq, if_pos ⟨hl, hd⟩, ht₂]
      simp [← hg]
    · intro old
      simp [SAXHandler.startElement_text_eq, hl, hd]
  · intro h hr hl hd hroute
    obtain ⟨h₁, hs₁, -, -, hl₁, hd₁, hp₁, hps₁, hcp₁, hb₁, hpk₁⟩ :=
      SAXHandler.startElement_text_fields c h attrs₁ t₁ o₁ hl hd ht₁
    obtain ⟨h₂, hs₂, hct₂, htx₂, hl₂, -, hp₂, hps₂, hcp₂, hb₂, hpk₂⟩ :=
      SAXHandler.startElement_text_fields c h₁ attrs₂ t₂ o₂ hl₁ hd₁ ht₂
    have hi₂ : h₂.Inv :=
      SAXHandler.startElement_inv c h₁ h₂ "text" attrs₂
        (SAXHandler.startElement_inv c h h₁ "text" attrs₁ hr.inv hs₁) hs₂
    have hroute₂ : h₂.isDefiningPackage_ = true ∨ h₂.isDefiningPackages_ = false := by
      rw [hp₂, hp₁, hps₂, hps₁]
      exact hroute
    obtain ⟨h₃, hs₃, htx₃, hct₃, hpk₃, hstore⟩ :=
      SAXHandler.endElement_text_fields h₂ t₂ hi₂ htx₂ hl₂ hct₂ hroute₂
    refine ⟨t₂, o₂, h₃, ht₂, ?_, ?_, ?_, htx₃, hct₃, ?_⟩
    · simp [SAXHandler.run, SAXHandler.step, hs₁, hs₂, hs₃]
    · rw [hpk₃, hpk₂, hpk₁]
    · rw [hcp₂, hcp₁, hb₂, hb₁] at hstore
      exact hstore
    · simp [SAXHandler.endElement, SAXHandler.log, assert, htx₃, LAYERS, BOARD, PLAIN, TEXT]

/-- Witness for C35: with `board` open, a text is started with `x`, started
again with `x` and `y`, and ended. -/
theorem C35_text_start_replaces_open_text_witness :
    boardOpen.Reachable sampleLibc ∧
    ∃ t₂ out₂ h₃,
      SAXHandler.textAttributes sampleLibc Text.new [⟨"x", "2"⟩, ⟨"y", "3"⟩] = some (t₂, out₂) ∧
      boardOpen.run sampleLibc
          [Event.startElement "text" [⟨"x", "1"⟩],
           Event.startElement "text" [⟨"x", "2"⟩, ⟨"y", "3"⟩],
           Event.endElement "text"] = some h₃ ∧
      h₃.packages_ = boardOpen.packages_ ∧
      ((∃ p, boardOpen.currentPackage_ = some p ∧
          h₃.currentPackage_ = some { p with textObjects_ := p.textObjects_ ++ [t₂] } ∧
          h₃.board_ = boardOpen.board_) ∨
       (boardOpen.currentPackage_ = none ∧ h₃.currentPackage_ = none ∧
          h₃.board_ = { boardOpen.board_ with
            textObjects_ := boardOpen.board_.textObjects_ ++ [t₂] })) ∧
      h₃.isDefiningText_ = false ∧ h₃.currentText_ = Ptr.null ∧
      h₃.endElement "text" = none :=
  ⟨⟨[Event.startElement "board" []], by decide⟩,
   (C35_text_start_replaces_open_text sampleLibc [⟨"x", "1"⟩] [⟨"x", "2"⟩, ⟨"y", "3"⟩]
      (by decide) (by decide)).2 boardOpen ⟨[Event.startElement "board" []], by decide⟩
      rfl rfl (Or.inr rfl)⟩

/-! ## Flags and the package slot -/

/-- Claim C36: in every handler state reachable from the initial state by
callbacks none of which fails, the current-package slot is non-empty exactly
when the in-package flag is true, the in-package flag implies the
in-package-set flag, and the in-plain flag implies the in-board flag. -/
theorem C36_package_slot_and_flag_nesting (c : Libc) (h : SAXHandler) (hr : h.Reachable c) :
    (h.currentPackage_.isSome = true ↔ h.isDefiningPackage_ = true) ∧
    (h.isDefiningPackage_ = true → h.isDefiningPackages_ = true) ∧
    (h.isDefiningPlain_ = true → h.isDefiningBoard_ = true) := by
  have hi := hr.inv
  refine ⟨?_, hi.package_packages, hi.plain_board⟩
  rw [hi.package_iff]

/-- Witness for C36: the state with the package-set and a package open. -/
theorem C36_package_slot_and_flag_nesting_witness :
    packageOpen.Reachable sampleLibc ∧
    (packageOpen.currentPackage_.isSome = true ↔ packageOpen.isDefiningPackage_ = true) ∧
    (packageOpen.isDefiningPackage_ = true → packageOpen.isDefiningPackages_ = true) ∧
    (packageOpen.isDefiningPlain_ = true → packageOpen.isDefiningBoard_ = true) :=
  ⟨⟨[Event.startElement "packages" [], Event.startElement "package" []], by decide⟩,
   C36_package_slot_and_flag_nesting sampleLibc packageOpen
     ⟨[Event.startElement "packages" [], Event.startElement "package" []], by decide⟩⟩

/-- Claim C37: in every handler state (reachable or not) in which the
package-set is open and no package is under construction, a `wire`, a `hole`
and a `rectangle` start event, with any attribute list, and a `text` end event
each fail; no state follows, so nothing is added to the top-level board. -/
theorem C37_package_set_without_package_rejects (c : Libc) (h : SAXHandler)
    (attrs : AttributeList) (hps : h.isDefiningPackages_ = true)
    (hp : h.isDefiningPackage_ = false) :
    h.startElement c "wire" attrs = none ∧ h.startElement c "hole" attrs = none ∧
    h.startElement c "rectangle" attrs = none ∧ h.endElement "text" = none := by
  refine ⟨?_, ?_, ?_, ?_⟩
  · cases hw : SAXHandler.wireAttributes c Wire.new attrs <;>
      simp [SAXHandler.startElement, SAXHandler.handleWireDefinition, SAXHandler.log, assert,
        hw, hp, hps, LAYERS, BOARD, PLAIN, LAYER, TEXT, DESCRIPTION, NOTE, WIRE]
  · cases hw : SAXHandler.holeAttributes c (Hole.new false) attrs <;>
      simp [SAXHandler.startElement, SAXHandler.handleHoleDefinition, SAXHandler.log, assert,
        hw, hp, hps, LAYERS, BOARD, PLAIN, LAYER, TEXT, DESCRIPTION, NOTE, WIRE, HOLE]
  · cases hw : SAXHandler.rectangleAttributes c Rectangle.new attrs <;>
      simp [SAXHandler.startElement, SAXHandler.handleRectangleDefinition, SAXHandler.log,
        assert, hw, hp, hps, LAYERS, BOARD, PLAIN, LAYER, TEXT, DESCRIPTION, NOTE, WIRE, HOLE,
        RECTANGLE]
  · cases ht : h.currentText_ <;>
      simp [SAXHandler.endElement, SAXHandler.log, assert, Ptr.isNonNull, Ptr.deref, ht, hp,
        hps, LAYERS, BOARD, PLAIN, TEXT]

/-- Witness for C37: the state reached by opening the package-set. -/
theorem C37_package_set_without_package_rejects_witness :
    packageSetOpen.Reachable sampleLibc ∧
    packageSetOpen.startElement sampleLibc "wire" [⟨"x1", "0"⟩] = none ∧
    packageSetOpen.startElement sampleLibc "hole" [⟨"x1", "0"⟩] = none ∧
    packageSetOpen.startElement sampleLibc "rectangle" [⟨"x1", "0"⟩] = none ∧
    packageSetOpen.endElement "text" = none :=
  ⟨⟨[Event.startElement "packages" []], by decide⟩,
   C37_package_set_without_package_rejects sampleLibc packageSetOpen [⟨"x1", "0"⟩] rfl rfl⟩

end jrl
